import Mathlib

/-!
# WebM muxer (`WebMMux.c`): interleaving scheduler, cluster lifecycle, cue index

A shallow embedding of `muxStreams` and of the static helpers it calls, with
the properties of the scheduler proved about it.

* `unsigned long` is 32 bits wide: the component is built against the QuickTime
  C API and the source casts the globals pointer to `UInt32`, so the target is
  ILP32.  Times (`blockTimeMs`, `minTimeMs`, `clusterTime`) are values of
  `ULong = Fin 2^32`; every subtraction of the source is written out on the
  underlying naturals with an explicit `% 2^32`.
* The encoders (`compressNextFrame`, `compressAudio`), the EBML writer
  (`Ebml_*`, `writeSimpleBlock`, ...), the progress procedure and the
  floating-point formulas (the next block time of a stream, the total
  duration, `FloatToFixed` of a ratio) are not part of `WebMMux.c`; they are
  fields of `Env`, and the theorems hold for every `Env` unless they say
  otherwise.  `scriptEnv` is an executable instance, driven by the list of
  samples kept in `refCon`.
* Calls to code outside `WebMMux.c` are recorded, in program order, in
  `Mux.log`.  `Mux.emitted` records, for each `writeSimpleBlock`, the values of
  the program variables at that moment (`Anatomy` relates the two).
* The `while` loop is run with fuel: `whileLoop env n` performs at most `n`
  iterations, `muxStreams env g n` is `none` when the loop needs more.
-/

namespace WebMMux

/-! ## Machine types and constants -/

/-- The type `unsigned long` of the target (32 bits). -/
abbrev ULong := Fin 4294967296

/-- The 64-bit file offset kept in `ebml.offset` (read through `SInt64`). -/
abbrev Offset64 := Fin 18446744073709551616

/-- The constant `ULONG_MAX` of a 32-bit `unsigned long`. -/
def ULONG_MAX : ULong := ⟨4294967295, by decide⟩

/-- Four-character codes (`OSType`). -/
abbrev OSType := Nat

/-- The code `'vide'`. -/
def VideoMediaType : OSType := 0x76696465

/-- The code `'soun'`. -/
def SoundMediaType : OSType := 0x736F756E

/-- The frame type `'I'` of a key frame. -/
def kICMFrameType_I : Nat := 0x49

/-- Result codes (`ComponentResult`, a signed 32-bit integer); `noErr` is `0`. -/
abbrev ComponentResult := Int

/-- The success code. -/
def noErr : ComponentResult := 0

/-- The C cast `(short)x` of an `unsigned long`: keep the low 16 bits, read as
two's complement. -/
def toShort (x : Nat) : Int :=
  if x % 65536 < 32768 then ((x % 65536 : Nat) : Int) else ((x % 65536 : Nat) : Int) - 65536

/-! ## Streams -/

/-- One sample the external encoder will deliver.  This is the content behind
the opaque `refCon`/`dataProc` pair of a source; `WebMMux.c` never looks at it.
Only the scripted encoders `scriptEnv` read it. -/
structure Pending where
  err : ComponentResult := 0
  timeMs : ULong := 0
  frame_type : Nat := 0
  data : List Nat := []
  deriving DecidableEq, Repr

/-- The fields of `StreamSource` that `WebMMux.c` uses; `refCon` stands for the
data behind the opaque source (see `Pending`). -/
structure StreamSource where
  trackID : Nat := 0
  eos : Bool := false
  bQdFrame : Bool := false
  blockTimeMs : ULong := 0
  refCon : List Pending := []
  deriving DecidableEq, Repr

/-- The fields of `VideoStream` that `WebMMux.c` uses; `outBuf` is the encoded
frame (`outBuf.data`, of `outBuf.size` bytes). -/
structure VideoStream where
  source : StreamSource := {}
  frame_type : Nat := 0
  currentFrame : Nat := 0
  outBuf : List Nat := []
  deriving DecidableEq, Repr

/-- The fields of `AudioStream` that `WebMMux.c` uses; `outBuf` is the encoded
packet (`outBuf.data`, of `outBuf.offset` bytes); `vorbisComponentInstance`
tells whether the pointer of that name is not `NULL`. -/
structure AudioStream where
  source : StreamSource := {}
  currentEncodedFrames : Nat := 0
  outBuf : List Nat := []
  vorbisComponentInstance : Bool := false
  deriving DecidableEq, Repr

/-- A `GenericStream`: a type tag and the union of the two stream records.
Only the member named by the tag is meaningful. -/
structure GenericStream where
  trackType : OSType := 0
  vid : VideoStream := {}
  aud : AudioStream := {}
  deriving DecidableEq, Repr

/-- The `source` pointer of the selection loop for a video or an audio
stream. -/
def GenericStream.source (gs : GenericStream) : StreamSource :=
  if gs.trackType = VideoMediaType then gs.vid.source else gs.aud.source

/-! ## Calls to the collaborators -/

/-- The `EbmlLoc` variables of `WebMMux.c`. -/
inductive LocVar where
  | startSegment | trackStart | cuesLoc | clusterStart | cueHead | trackLoc
  | seekInfoLoc | seekStart | globLoc
  deriving DecidableEq, Repr

/-- The EBML class identifiers named in `WebMMux.c`. -/
inductive EbmlID where
  | Segment | Tracks | Cluster | Timecode | Cues | CuePoint | CueTime
  | CueTrackPositions | CueTrack | CueClusterPosition | CueBlockNumber
  | SeekHead | Seek | SeekID | SeekPosition
  deriving DecidableEq, Repr

/-- The three messages sent to the progress procedure. -/
inductive ProgressMsg where
  | movieProgressOpen | movieProgressUpdatePercent | movieProgressClose
  deriving DecidableEq, Repr

/-- One call from `WebMMux.c` to code outside it, with its arguments. -/
inductive Event where
  | compressNextFrame (iStream : Nat)
  | compressAudio (iStream : Nat)
  | writeHeader
  | writeSegmentInformation (timeCodeScale : Nat)
  | writeVideoTrack (trackID : Nat)
  | writeAudioTrack (trackID : Nat)
  | Ebml_StartSubElement (loc : LocVar) (classId : EbmlID)
  | Ebml_EndSubElement (loc : LocVar)
  | Ebml_SerializeUnsigned (classId : EbmlID) (value : Nat)
  | Ebml_SerializeUnsigned64 (classId : EbmlID) (value : Nat)
  | Ebml_WriteBinary (classId : EbmlID) (value : EbmlID)
  | Ebml_GetEbmlLoc (loc : LocVar)
  | Ebml_SetEbmlLoc (loc : LocVar)
  | writeSimpleBlock (trackID : Nat) (timeCode : Int) (isKeyframe : Nat)
      (lacingFlag : Nat) (discardable : Nat) (data : List Nat)
  | InvokeMovieProgressUPP (message : ProgressMsg) (percentDone : Int)
  | HLock
  | HUnlock
  deriving DecidableEq, Repr

/-- The three `double` arguments `_updateProgressBar` is called with:
`0.0`, `minTimeMs / 1000.0 / duration` and `100.0`. -/
inductive Percent where
  | zero
  | ratio (minTimeMs : ULong)
  | hundred
  deriving DecidableEq, Repr

/-- The collaborators of `WebMMux.c`.

* `compressNextFrame`, `compressAudio`: the encoders; they return the result
  code and the stream as they leave it.
* `videoBlockTimeMs`: the value stored by `source->blockTimeMs =
  getTimeAsSeconds(source) * 1000` in `_writeVideo` (a floating-point formula
  over the stream whose `currentFrame` has been advanced).
* `audioBlockTimeMs`: the value stored by `as->source.blockTimeMs =
  (SInt32)(timeSeconds * 1000)` in `_writeAudio`.
* `ebmlOffset`: the value of `ebml.offset` after a call to the EBML writer.
* `progressProc`: the result of the progress procedure.
* `durationIsZero`: whether `getMaxDuration` returned `0.0`.
* `ratioToFixed`: `FloatToFixed(minTimeMs / 1000.0 / duration)`.
* `trackErr`: the result of the description step of track `i` in
  `_writeTracks` (`InvokeMovieExportGetDataUPP` for a video track,
  `initVorbisComponent` for an audio track). -/
structure Env where
  compressNextFrame : VideoStream → ComponentResult × VideoStream
  compressAudio : AudioStream → ComponentResult × AudioStream
  videoBlockTimeMs : VideoStream → ULong
  audioBlockTimeMs : AudioStream → ULong
  ebmlOffset : Offset64 → Event → Offset64
  progressProc : ProgressMsg → Int → ComponentResult
  durationIsZero : Bool
  ratioToFixed : ULong → Int
  trackErr : Nat → GenericStream → ComponentResult

/-! ## Selection pass (the `for` loop of `muxStreams`) -/

/-- The local variables of `muxStreams` the `for` loop reads and writes, and
the call log. -/
structure Sel where
  err : ComponentResult := 0
  startNewCluster : Bool := false
  minTimeMs : ULong := ULONG_MAX
  minTimeStream : Option Nat := none
  allStreamsDone : Bool := true
  log : List Event := []
  deriving DecidableEq, Repr

/-- The function `_compressVideo`: its result and the stream as it leaves
it. -/
def _compressVideo (env : Env) (vs : VideoStream) : ComponentResult × VideoStream :=
  if vs.source.bQdFrame = true ∨ vs.source.eos = true then
    (noErr, vs)
  else
    let r := env.compressNextFrame vs
    let vs1 := r.2
    let vs2 : VideoStream :=
      if vs1.source.eos = false then { vs1 with source := { vs1.source with bQdFrame := true } }
      else vs1
    (r.1, vs2)

/-- The call `_compressVideo` makes to the encoder, if any. -/
def _compressVideoCalls (iStream : Nat) (vs : VideoStream) : List Event :=
  if vs.source.bQdFrame = true ∨ vs.source.eos = true then []
  else [Event.compressNextFrame iStream]

/-- The function `_compressAudio`: its result and the stream as it leaves
it. -/
def _compressAudio (env : Env) (as : AudioStream) : ComponentResult × AudioStream :=
  if as.source.bQdFrame = true then
    (noErr, as)
  else
    let r := env.compressAudio as
    let as1 := r.2
    if r.1 ≠ 0 then
      (r.1, as1)
    else
      let as2 : AudioStream :=
        if as1.source.eos = false then { as1 with source := { as1.source with bQdFrame := true } }
        else as1
      (r.1, as2)

/-- The call `_compressAudio` makes to the encoder, if any. -/
def _compressAudioCalls (iStream : Nat) (as : AudioStream) : List Event :=
  if as.source.bQdFrame = true then [] else [Event.compressAudio iStream]

/-- Lines 423-434 of the loop body: a video stream without a queued sample is
asked for one when video is exported; a key frame then requests a new
cluster. -/
def produceVideo (env : Env) (bExportVideo : Bool) (iStream : Nat)
    (gs : GenericStream) (c : Sel) : GenericStream × Sel :=
  if gs.trackType = VideoMediaType ∧ gs.vid.source.bQdFrame = false ∧ bExportVideo = true then
    let r := _compressVideo env gs.vid
    ({ gs with vid := r.2 },
     { c with
        err := r.1
        log := c.log ++ _compressVideoCalls iStream gs.vid
        startNewCluster :=
          if c.startNewCluster = false then decide (r.2.frame_type = kICMFrameType_I)
          else c.startNewCluster })
  else (gs, c)

/-- Lines 436-442 of the loop body: an audio stream without a queued sample is
asked for one when audio is exported. -/
def produceAudio (env : Env) (bExportAudio : Bool) (iStream : Nat)
    (gs : GenericStream) (c : Sel) : GenericStream × Sel :=
  if gs.trackType = SoundMediaType ∧ gs.aud.source.bQdFrame = false ∧ bExportAudio = true then
    let r := _compressAudio env gs.aud
    ({ gs with aud := r.2 },
     { c with err := r.1, log := c.log ++ _compressAudioCalls iStream gs.aud })
  else (gs, c)

/-- Lines 423-442 of the loop body. -/
def produce (env : Env) (bExportVideo bExportAudio : Bool) (iStream : Nat)
    (gs : GenericStream) (c : Sel) : GenericStream × Sel :=
  let p1 := produceVideo env bExportVideo iStream gs c
  produceAudio env bExportAudio iStream p1.1 p1.2

/-- The test `smallerTime` of lines 450-454. -/
def smallerTime (gs : GenericStream) (minTimeMs : ULong) : Bool :=
  if gs.trackType = VideoMediaType then decide (gs.vid.source.blockTimeMs.val < minTimeMs.val)
  else if gs.trackType = SoundMediaType then decide (gs.aud.source.blockTimeMs.val ≤ minTimeMs.val)
  else false

/-- Lines 450-461 of the loop body: compare the stream with the running
minimum. -/
def consider (iStream : Nat) (gs : GenericStream) (c : Sel) : Sel :=
  if smallerTime gs c.minTimeMs = true ∧ gs.source.bQdFrame = true ∧ c.err = 0 then
    { c with
        minTimeMs := gs.source.blockTimeMs
        minTimeStream := some iStream
        allStreamsDone := false }
  else c

/-- The `for` loop of lines 418-462 over the streams not yet visited (`todo`);
`done` are the streams already visited.  The Boolean result is `true` when the
loop left through `goto bail`. -/
def forStreams (env : Env) (bExportVideo bExportAudio : Bool) :
    List GenericStream → List GenericStream → Sel → List GenericStream × Sel × Bool
  | done, [], c => (done, c, false)
  | done, gs :: todo, c =>
    let p := produce env bExportVideo bExportAudio done.length gs c
    if p.2.err ≠ 0 then
      (done ++ p.1 :: todo, p.2, true)
    else
      forStreams env bExportVideo bExportAudio (done ++ [p.1]) todo (consider done.length p.1 p.2)

/-! ## Globals, writer state and the state of `muxStreams` -/

/-- One entry of the cue table (`WebMCuePoint`). -/
structure WebMCuePoint where
  loc : Nat := 0
  timeVal : ULong := 0
  track : Nat := 0
  blockNumber : Nat := 0
  deriving DecidableEq, Repr

/-- The fields of `WebMExportGlobals` that `WebMMux.c` uses.  `streams` is the
array behind `globals->streams` and `streamCount` is its length; `cueHandle` is
the content of the cue table (empty for a `NULL` handle); `progressProc` tells
whether a progress procedure is installed (the pointer is not `NULL`). -/
structure WebMExportGlobals where
  streams : List GenericStream := []
  bExportVideo : Bool := true
  bExportAudio : Bool := true
  bMovieHasVideo : Bool := true
  bMovieHasAudio : Bool := true
  progressOpen : Bool := false
  progressProc : Bool := false
  clusterTime : ULong := 0
  cueCount : Nat := 0
  cueHandle : List WebMCuePoint := []
  webmTimeCodeScale : Nat := 1000000
  deriving DecidableEq, Repr

/-- How far `muxStreams` has got: inside the `while` loop, past it (the loop
condition failed or `break` was taken), or at `bail` through `goto`. -/
inductive Status where
  | running | finished | bailed
  deriving DecidableEq, Repr

/-- What one iteration of the `while` loop wrote, taken from the program
variables at the moment `writeSimpleBlock` is called. -/
structure Emitted where
  iStream : Nat
  trackType : OSType
  trackID : Nat
  minTimeMs : ULong
  clusterTime : ULong
  newCluster : Bool
  timeCode : Int
  isKeyFrame : Bool
  cue : Bool
  blockOffset : Offset64
  blockNumber : Nat
  deriving DecidableEq, Repr

/-- The state of a run of `muxStreams`: the globals, `ebml.offset`, the local
variables that live across iterations, the log of calls made so far and the
list of blocks written so far. -/
structure Mux where
  globals : WebMExportGlobals := {}
  offset : Offset64 := 0
  err : ComponentResult := 0
  minTimeMs : ULong := ULONG_MAX
  minTimeStream : Option Nat := none
  allStreamsDone : Bool := false
  startNewCluster : Bool := true
  blocksInCluster : Nat := 0
  firstL1Offset : Offset64 := 0
  log : List Event := []
  emitted : List Emitted := []
  status : Status := Status.running
  deriving DecidableEq, Repr

/-- A call to the EBML writer: it is logged and `ebml.offset` takes the value
the writer leaves. -/
def ebmlCall (env : Env) (s : Mux) (e : Event) : Mux :=
  { s with log := s.log ++ [e], offset := env.ebmlOffset s.offset e }

/-- The macro `FloatToFixed` on the three arguments that occur. -/
def FloatToFixed (env : Env) : Percent → Int
  | Percent.zero => 0
  | Percent.ratio t => env.ratioToFixed t
  | Percent.hundred => 6553600

/-- The function `_updateProgressBar`.  The statement
`globals->progressOpen == false;` after the close message is a comparison
without effect. -/
def _updateProgressBar (env : Env) (s : Mux) (percent : Percent) : Mux × ComponentResult :=
  let s1 : Mux :=
    if s.globals.progressOpen = false then
      { s with
          log := s.log ++ [Event.InvokeMovieProgressUPP ProgressMsg.movieProgressOpen 0]
          globals := { s.globals with progressOpen := true } }
    else s
  let percentDone : Int := FloatToFixed env percent
  let p2 : Mux × ComponentResult × Int :=
    if s1.globals.progressProc = true then
      let clamped : Int := if percentDone > 65536 then 65536 else percentDone
      ({ s1 with
          log := s1.log ++
            [Event.InvokeMovieProgressUPP ProgressMsg.movieProgressUpdatePercent clamped] },
        env.progressProc ProgressMsg.movieProgressUpdatePercent clamped, clamped)
    else (s1, noErr, percentDone)
  let s3 : Mux :=
    if p2.2.2 = 100 ∧ p2.1.globals.progressOpen = true then
      { p2.1 with
          log := p2.1.log ++ [Event.InvokeMovieProgressUPP ProgressMsg.movieProgressClose 65536] }
    else p2.1
  (s3, p2.2.1)

/-- The loop of `_writeTracks` over the streams from index `i` on; the result
is the state, the value of `err`, and whether the function returned from
inside the loop (`if (err) return err;` after `initVorbisComponent`). -/
def writeTracksLoop (env : Env) :
    Nat → List GenericStream → Mux → ComponentResult → Mux × ComponentResult × Bool
  | _, [], s, err => (s, err, false)
  | i, gs :: rest, s, err =>
    if gs.trackType = VideoMediaType then
      writeTracksLoop env (i + 1) rest
        (ebmlCall env s (Event.writeVideoTrack gs.vid.source.trackID)) (env.trackErr i gs)
    else if gs.trackType = SoundMediaType then
      if gs.aud.vorbisComponentInstance = false then
        if env.trackErr i gs ≠ 0 then (s, env.trackErr i gs, true)
        else
          writeTracksLoop env (i + 1) rest
            (ebmlCall env s (Event.writeAudioTrack gs.aud.source.trackID)) (env.trackErr i gs)
      else
        writeTracksLoop env (i + 1) rest
          (ebmlCall env s (Event.writeAudioTrack gs.aud.source.trackID)) err
    else writeTracksLoop env (i + 1) rest s err

/-- The function `_writeTracks`. -/
def _writeTracks (env : Env) (s : Mux) : Mux × ComponentResult :=
  let s1 := ebmlCall env s (Event.Ebml_StartSubElement LocVar.trackStart EbmlID.Tracks)
  let r := writeTracksLoop env 0 s1.globals.streams s1 noErr
  if r.2.2 = true then (r.1, r.2.1)
  else (ebmlCall env r.1 (Event.Ebml_EndSubElement LocVar.trackStart), r.2.1)

/-- The body of the loop of `_writeCues` for one cue. -/
def writeCuePoint (env : Env) (s : Mux) (cue : WebMCuePoint) : Mux :=
  let s1 := ebmlCall env s (Event.Ebml_StartSubElement LocVar.cueHead EbmlID.CuePoint)
  let s2 := ebmlCall env s1 (Event.Ebml_SerializeUnsigned EbmlID.CueTime cue.timeVal.val)
  let s3 := ebmlCall env s2 (Event.Ebml_StartSubElement LocVar.trackLoc EbmlID.CueTrackPositions)
  let s4 := ebmlCall env s3 (Event.Ebml_SerializeUnsigned EbmlID.CueTrack cue.track)
  let s5 := ebmlCall env s4 (Event.Ebml_SerializeUnsigned64 EbmlID.CueClusterPosition cue.loc)
  let s6 := ebmlCall env s5 (Event.Ebml_SerializeUnsigned EbmlID.CueBlockNumber 1)
  let s7 := ebmlCall env s6 (Event.Ebml_EndSubElement LocVar.trackLoc)
  ebmlCall env s7 (Event.Ebml_EndSubElement LocVar.cueHead)

/-- The function `_writeCues`: entries `0 .. cueCount - 1` of the cue table. -/
def _writeCues (env : Env) (s : Mux) : Mux :=
  let s1 := ebmlCall env s (Event.Ebml_StartSubElement LocVar.cuesLoc EbmlID.Cues)
  let s2 := (List.range s1.globals.cueCount).foldl
    (fun acc i => writeCuePoint env acc (s1.globals.cueHandle.getD i (WebMCuePoint.mk 0 0 0 0))) s1
  ebmlCall env s2 (Event.Ebml_EndSubElement LocVar.cuesLoc)

/-- The entries `0 .. cueCount - 1` of the cue table, as `_writeCues` reads
them (an entry the handle does not hold reads as zeros). -/
def cueTable (g : WebMExportGlobals) : List WebMCuePoint :=
  (List.range g.cueCount).map fun i => g.cueHandle.getD i (WebMCuePoint.mk 0 0 0 0)

/-- The function `_addCue`: `cueCount` is incremented, the table is resized
(`SetHandleSize`, or `NewHandleClear` for the first one) and entry
`cueCount - 1` is filled in.  The table is kept as the list of its entries,
read back by index as `_writeCues` does; the size in bytes asked for the block
behind the handle is not part of this state, it is `cueHandleSize`. -/
def _addCue (g : WebMExportGlobals) (dataLoc : Nat) (time : ULong) (track blockNum : Nat) :
    WebMExportGlobals :=
  let n := g.cueCount + 1
  { g with
      cueCount := n
      cueHandle := (List.range n).map fun i =>
        if i = n - 1 then
          { loc := dataLoc, timeVal := time, track := track, blockNumber := blockNum }
        else g.cueHandle.getD i (WebMCuePoint.mk 0 0 0 0) }

/-- The function `_startNewCluster`. -/
def _startNewCluster (env : Env) (s : Mux) : Mux :=
  let s1 :=
    if s.globals.clusterTime ≠ 0 then
      ebmlCall env s (Event.Ebml_EndSubElement LocVar.clusterStart)
    else s
  let s2 := ebmlCall env s1 (Event.Ebml_StartSubElement LocVar.clusterStart EbmlID.Cluster)
  ebmlCall env s2 (Event.Ebml_SerializeUnsigned EbmlID.Timecode s2.globals.clusterTime.val)

/-- The `unsigned long` difference `a - b`. -/
def ulongSub (a b : ULong) : Nat := (a.val + 4294967296 - b.val) % 4294967296

/-- Replace stream `i` of the globals. -/
def setStream (s : Mux) (i : Nat) (gs : GenericStream) : Mux :=
  { s with globals := { s.globals with streams := s.globals.streams.set i gs } }

/-- The function `_writeVideo` on stream `i` (whose record is `gs`). -/
def _writeVideo (env : Env) (s : Mux) (i : Nat) (gs : GenericStream) : Mux :=
  let vs := gs.vid
  let lastTime := vs.source.blockTimeMs
  let isKeyFrame : Nat := if vs.frame_type = kICMFrameType_I then 1 else 0
  let relativeTime := ulongSub lastTime s.globals.clusterTime
  let s1 := ebmlCall env s
    (Event.writeSimpleBlock vs.source.trackID (toShort relativeTime) isKeyFrame 0 0 vs.outBuf)
  let vs1 : VideoStream :=
    { vs with source := { vs.source with bQdFrame := false }, currentFrame := vs.currentFrame + 1 }
  let vs2 : VideoStream :=
    { vs1 with source := { vs1.source with blockTimeMs := env.videoBlockTimeMs vs1 } }
  setStream s1 i { gs with vid := vs2 }

/-- The function `_writeAudio` on stream `i` (whose record is `gs`). -/
def _writeAudio (env : Env) (s : Mux) (i : Nat) (gs : GenericStream) : Mux :=
  let as := gs.aud
  let lastTime := as.source.blockTimeMs
  let relativeTime := ulongSub lastTime s.globals.clusterTime
  let s1 := ebmlCall env s
    (Event.writeSimpleBlock as.source.trackID (toShort relativeTime) 1 0 0 as.outBuf)
  let as1 : AudioStream :=
    { as with source := { as.source with blockTimeMs := env.audioBlockTimeMs as, bQdFrame := false } }
  setStream s1 i { gs with aud := as1 }

/-! ## The body of the `while` loop -/

/-- Lines 473-476: the value of `startNewCluster` tested by `if (startNewCluster)`. -/
def clusterDecision (s : Mux) : Bool :=
  if ulongSub s.minTimeMs s.globals.clusterTime > 32767 then true else s.startNewCluster

/-- Lines 473-482: open a new cluster at the winning time when one is due. -/
def openCluster (env : Env) (s : Mux) : Mux :=
  if clusterDecision s = true then
    let s1 : Mux :=
      { s with globals := { s.globals with clusterTime := s.minTimeMs }, blocksInCluster := 0 }
    let s2 := _startNewCluster env s1
    { s2 with startNewCluster := false }
  else s

/-- The `UInt64` value `blockOffset - firstL1Offset`. -/
def cueLoc (blockOffset firstL1Offset : Offset64) : Nat :=
  (blockOffset.val + 18446744073709551616 - firstL1Offset.val) % 18446744073709551616

/-- Lines 485-502: write the winning stream `i` (record `gs`) and, for a video
key frame, add a cue. -/
def writeWinner (env : Env) (s : Mux) (i : Nat) (gs : GenericStream) (blockOffset : Offset64) :
    Mux :=
  if gs.trackType = VideoMediaType then
    let s1 := _writeVideo env s i gs
    let s2 : Mux := { s1 with blocksInCluster := s1.blocksInCluster + 1 }
    if gs.vid.frame_type = kICMFrameType_I then
      { s2 with
          globals := _addCue s2.globals (cueLoc blockOffset s2.firstL1Offset)
            s2.globals.clusterTime gs.vid.source.trackID s2.blocksInCluster }
    else s2
  else if gs.trackType = SoundMediaType then
    let s1 := _writeAudio env s i gs
    { s1 with blocksInCluster := s1.blocksInCluster + 1 }
  else s

/-- The record of the block written for the winning stream `i` (record `gs`)
in a state `s` in which the cluster decision has been carried out. -/
def emittedRecord (s : Mux) (i : Nat) (gs : GenericStream) (newCluster : Bool)
    (blockOffset : Offset64) : Emitted :=
  { iStream := i
    trackType := gs.trackType
    trackID := gs.source.trackID
    minTimeMs := s.minTimeMs
    clusterTime := s.globals.clusterTime
    newCluster := newCluster
    timeCode := toShort (ulongSub gs.source.blockTimeMs s.globals.clusterTime)
    isKeyFrame :=
      if gs.trackType = VideoMediaType then decide (gs.vid.frame_type = kICMFrameType_I) else true
    cue := decide (gs.trackType = VideoMediaType ∧ gs.vid.frame_type = kICMFrameType_I)
    blockOffset := blockOffset
    blockNumber := s.blocksInCluster + 1 }

/-- Lines 473-507: the part of the loop body after a winner has been found. -/
def emitBlock (env : Env) (s : Mux) (i : Nat) (gs : GenericStream) (blockOffset : Offset64) :
    Mux :=
  let s1 := openCluster env s
  let s2 := writeWinner env s1 i gs blockOffset
  let s3 : Mux :=
    if gs.trackType = VideoMediaType ∨ gs.trackType = SoundMediaType then
      { s2 with emitted := s2.emitted ++ [emittedRecord s1 i gs (clusterDecision s) blockOffset] }
    else s2
  let s4 := ebmlCall env s3 (Event.Ebml_EndSubElement LocVar.clusterStart)
  if env.durationIsZero = false then (_updateProgressBar env s4 (Percent.ratio s4.minTimeMs)).1
  else s4

/-- The selection pass of one iteration (lines 410-462) started from the
loop state `s`. -/
def selectionPass (env : Env) (s : Mux) : List GenericStream × Sel × Bool :=
  forStreams env s.globals.bExportVideo s.globals.bExportAudio [] s.globals.streams
    { err := s.err
      startNewCluster := s.startNewCluster
      minTimeMs := ULONG_MAX
      minTimeStream := none
      allStreamsDone := true
      log := s.log }

/-- The loop state once the selection pass has run. -/
def afterPass (env : Env) (s : Mux) : Mux :=
  let r := selectionPass env s
  { s with
      globals := { s.globals with streams := r.1 }
      err := r.2.1.err
      startNewCluster := r.2.1.startNewCluster
      minTimeMs := r.2.1.minTimeMs
      minTimeStream := r.2.1.minTimeStream
      allStreamsDone := r.2.1.allStreamsDone
      log := r.2.1.log }

/-- One execution of the body of the `while` loop (lines 410-507). -/
def loopBody (env : Env) (s : Mux) : Mux :=
  let blockOffset := s.offset
  let s1 := afterPass env s
  if (selectionPass env s).2.2 = true then { s1 with status := Status.bailed }
  else
    match s1.minTimeStream with
    | none => { s1 with status := Status.finished }
    | some i =>
      match s1.globals.streams[i]? with
      | none => { s1 with status := Status.finished }
      | some gs => emitBlock env s1 i gs blockOffset

/-- The loop test followed by the body; a run that has left the loop stays
where it is. -/
def whileStep (env : Env) (s : Mux) : Mux :=
  if s.status = Status.running then
    if s.allStreamsDone = true then { s with status := Status.finished }
    else loopBody env s
  else s

/-- The `while` loop, for at most `fuel` iterations. -/
def whileLoop (env : Env) : Nat → Mux → Mux
  | 0, s => s
  | fuel + 1, s => whileLoop env fuel (whileStep env s)

/-! ## `muxStreams` -/

/-- Lines 372-407: everything before the `while` loop. -/
def beforeLoop (env : Env) (g : WebMExportGlobals) : Mux :=
  let s0 : Mux :=
    { globals := { g with progressOpen := false }
      offset := 0
      err := noErr
      allStreamsDone := false
      log := []
      emitted := []
      status := Status.running }
  let s1 := ebmlCall env s0 Event.writeHeader
  let s2 := ebmlCall env s1 (Event.Ebml_StartSubElement LocVar.startSegment EbmlID.Segment)
  let s3 : Mux := { s2 with firstL1Offset := s2.offset }
  let s4 := ebmlCall env s3 (Event.writeSegmentInformation s3.globals.webmTimeCodeScale)
  let s5 := (_writeTracks env s4).1
  let s6 : Mux := { s5 with log := s5.log ++ [Event.HLock] }
  let r := _updateProgressBar env s6 Percent.zero
  { r.1 with
      err := r.2
      minTimeMs := ULONG_MAX
      minTimeStream := none
      globals := { r.1.globals with clusterTime := 0 }
      startNewCluster := true
      blocksInCluster := 0 }

/-- Lines 510-516: everything between the `while` loop and `bail`. -/
def afterLoop (env : Env) (s : Mux) : Mux :=
  let s1 := _writeCues env s
  let s2 := ebmlCall env s1 (Event.Ebml_EndSubElement LocVar.startSegment)
  let s3 : Mux := { s2 with log := s2.log ++ [Event.HUnlock] }
  (_updateProgressBar env s3 Percent.hundred).1

/-- The state in which `muxStreams` reaches `bail`, when at most `fuel`
iterations of the loop are needed; a state still `running` means the loop
had not ended. -/
def muxRun (env : Env) (g : WebMExportGlobals) (fuel : Nat) : Mux :=
  let s := whileLoop env fuel (beforeLoop env g)
  if s.status = Status.finished then afterLoop env s else s

/-- The function `muxStreams`: its return value, or `none` when the loop needs
more than `fuel` iterations. -/
def muxStreams (env : Env) (g : WebMExportGlobals) (fuel : Nat) : Option ComponentResult :=
  let s := muxRun env g fuel
  if s.status = Status.running then none else some s.err

/-! ## Scripted collaborators -/

/-- The encoder of a scripted video stream: it hands out the samples listed in
`refCon` one by one (result code, frame type, payload) and reports end of
stream when the list is empty. -/
def scriptCompressNextFrame (vs : VideoStream) : ComponentResult × VideoStream :=
  match vs.source.refCon with
  | [] => (0, { vs with source := { vs.source with eos := true } })
  | p :: rest =>
    (p.err, { vs with source := { vs.source with refCon := rest }
                      frame_type := p.frame_type
                      outBuf := p.data })

/-- The encoder of a scripted audio stream. -/
def scriptCompressAudio (as : AudioStream) : ComponentResult × AudioStream :=
  match as.source.refCon with
  | [] => (0, { as with source := { as.source with eos := true } })
  | p :: rest =>
    (p.err, { as with source := { as.source with refCon := rest }
                      currentEncodedFrames := as.currentEncodedFrames + 1
                      outBuf := p.data })

/-- The time a scripted source moves to once its sample is written: the time of
the next sample of the script, or one millisecond later when none is left. -/
def scriptNextTime (src : StreamSource) : ULong :=
  match src.refCon with
  | [] => if src.blockTimeMs.val + 1 < 4294967296 then Fin.ofNat (src.blockTimeMs.val + 1)
          else src.blockTimeMs
  | p :: _ => p.timeMs

/-- Scripted collaborators: encoders driven by `refCon`, a writer that
advances the offset by one byte per call, a progress procedure that always
succeeds. -/
def scriptEnv (durationIsZero : Bool) : Env :=
  { compressNextFrame := scriptCompressNextFrame
    compressAudio := scriptCompressAudio
    videoBlockTimeMs := fun vs => scriptNextTime vs.source
    audioBlockTimeMs := fun as => scriptNextTime as.source
    ebmlOffset := fun o _ => if o.val + 1 < 18446744073709551616 then Fin.ofNat (o.val + 1) else o
    progressProc := fun _ _ => 0
    durationIsZero := durationIsZero
    ratioToFixed := fun t => (t.val : Int)
    trackErr := fun _ _ => 0 }

/-- A scripted video stream with the given track number whose samples are the
pairs (time in ms, key frame or not). -/
def scriptVideo (trackID : Nat) (samples : List (Nat × Bool)) : GenericStream :=
  { trackType := VideoMediaType
    vid :=
      { source :=
          { trackID := trackID
            blockTimeMs := Fin.ofNat ((samples.head?.map Prod.fst).getD 0)
            refCon := samples.map fun p =>
              { timeMs := Fin.ofNat p.1, frame_type := if p.2 then kICMFrameType_I else 0x50 } } } }

/-- A scripted audio stream with the given track number whose packets start at
the given times (ms). -/
def scriptAudio (trackID : Nat) (times : List Nat) : GenericStream :=
  { trackType := SoundMediaType
    aud :=
      { source :=
          { trackID := trackID
            blockTimeMs := Fin.ofNat ((times.head?).getD 0)
            refCon := times.map fun t => { timeMs := Fin.ofNat t } } } }

/-! ## Vocabulary of the statements -/

/-- The stream is a video or an audio stream. -/
def isAV (gs : GenericStream) : Prop :=
  gs.trackType = VideoMediaType ∨ gs.trackType = SoundMediaType

instance (gs : GenericStream) : Decidable (isAV gs) :=
  inferInstanceAs (Decidable (gs.trackType = VideoMediaType ∨ gs.trackType = SoundMediaType))

/-- The stream can win a selection pass: it is an audio stream with a queued
sample, or a video stream with a queued sample whose time is below
`ULONG_MAX`. -/
def selectable (gs : GenericStream) : Prop :=
  (gs.trackType = SoundMediaType ∧ gs.aud.source.bQdFrame = true) ∨
  (gs.trackType = VideoMediaType ∧ gs.vid.source.bQdFrame = true ∧
    gs.vid.source.blockTimeMs.val < 4294967295)

/-- The stream record a visit of the selection pass leaves behind. -/
def produceStream (env : Env) (bExportVideo bExportAudio : Bool) (gs : GenericStream) :
    GenericStream :=
  (produce env bExportVideo bExportAudio 0 gs {}).1

/-- What holds of the running minimum after the streams `done` have been
visited. -/
structure PassInv (done : List GenericStream) (c : Sel) : Prop where
  none_min : c.minTimeStream = none → c.minTimeMs = ULONG_MAX
  none_sel : c.minTimeStream = none → ∀ gs ∈ done, ¬ selectable gs
  some_win : ∀ i, c.minTimeStream = some i →
    ∃ gs, done[i]? = some gs ∧ isAV gs ∧ gs.source.bQdFrame = true ∧
      gs.source.blockTimeMs = c.minTimeMs ∧ selectable gs
  le_all : ∀ gs ∈ done, isAV gs → gs.source.bQdFrame = true →
    c.minTimeMs.val ≤ gs.source.blockTimeMs.val
  tie : ∀ i gs, c.minTimeStream = some i → done[i]? = some gs →
    gs.trackType = VideoMediaType →
    ∀ a ∈ done, a.trackType = SoundMediaType → a.source.bQdFrame = true →
      c.minTimeMs.val < a.source.blockTimeMs.val
  flag : c.allStreamsDone = true ↔ c.minTimeStream = none

/-- The calls `_startNewCluster` makes for a cluster starting at time `t`. -/
def clusterCalls (t : ULong) : List Event :=
  (if t ≠ 0 then [Event.Ebml_EndSubElement LocVar.clusterStart] else []) ++
    [Event.Ebml_StartSubElement LocVar.clusterStart EbmlID.Cluster,
     Event.Ebml_SerializeUnsigned EbmlID.Timecode t.val]

/-- The calls `_updateProgressBar` makes. -/
def progressCalls (env : Env) (g : WebMExportGlobals) (p : Percent) : List Event :=
  (if g.progressOpen = false then
    [Event.InvokeMovieProgressUPP ProgressMsg.movieProgressOpen 0] else []) ++
  (if g.progressProc = true then
    [Event.InvokeMovieProgressUPP ProgressMsg.movieProgressUpdatePercent
      (if FloatToFixed env p > 65536 then 65536 else FloatToFixed env p)] else []) ++
  (if (if g.progressProc = true then
        (if FloatToFixed env p > 65536 then 65536 else FloatToFixed env p)
       else FloatToFixed env p) = 100 then
    [Event.InvokeMovieProgressUPP ProgressMsg.movieProgressClose 65536] else [])



/-- The `writeSimpleBlock` call made for the winning stream `gs` while the
cluster time is `clusterTime`. -/
def blockCall (gs : GenericStream) (clusterTime : ULong) : Event :=
  if gs.trackType = VideoMediaType then
    Event.writeSimpleBlock gs.vid.source.trackID
      (toShort (ulongSub gs.vid.source.blockTimeMs clusterTime))
      (if gs.vid.frame_type = kICMFrameType_I then 1 else 0) 0 0 gs.vid.outBuf
  else
    Event.writeSimpleBlock gs.aud.source.trackID
      (toShort (ulongSub gs.aud.source.blockTimeMs clusterTime)) 1 0 0 gs.aud.outBuf

/-- The record of the winning stream once its block has been written. -/
def writtenStream (env : Env) (gs : GenericStream) : GenericStream :=
  if gs.trackType = VideoMediaType then
    { gs with vid :=
      { gs.vid with
          source := { gs.vid.source with
            bQdFrame := false
            blockTimeMs := env.videoBlockTimeMs
              { gs.vid with source := { gs.vid.source with bQdFrame := false }
                            currentFrame := gs.vid.currentFrame + 1 } }
          currentFrame := gs.vid.currentFrame + 1 } }
  else
    { gs with aud :=
      { gs.aud with
          source := { gs.aud.source with
            blockTimeMs := env.audioBlockTimeMs gs.aud, bQdFrame := false } } }

/-- The outcome of a selection pass as the scheduler intends it, for the loop
state `p` reached after the pass: no winner exactly when no stream is
selectable; otherwise the winner is a video or an audio stream with a queued
sample, `minTimeMs` is its `blockTimeMs`, and no video or audio stream with a
queued sample has a smaller `blockTimeMs`. -/
def MinimumSelected (p : Mux) : Prop :=
  (p.minTimeStream = none ↔ ∀ gs ∈ p.globals.streams, ¬ selectable gs) ∧
  (∀ i, p.minTimeStream = some i →
    ∃ gs, p.globals.streams[i]? = some gs ∧ isAV gs ∧ gs.source.bQdFrame = true ∧
      p.minTimeMs = gs.source.blockTimeMs ∧
      ∀ gs2 ∈ p.globals.streams, isAV gs2 → gs2.source.bQdFrame = true →
        p.minTimeMs.val ≤ gs2.source.blockTimeMs.val)

/-- Globals with one video stream whose only sample has time `ULONG_MAX`. -/
def lateVideoGlobals : WebMExportGlobals :=
  { streams := [scriptVideo 1 [(4294967295, false)]] }

/-- Scenario 2: a video and an audio stream, each with one sample at 100 ms. -/
def tieGlobals : WebMExportGlobals :=
  { streams := [scriptVideo 1 [(100, true)], scriptAudio 2 [100]] }

/-- The iteration run from loop state `s` writes exactly one block, for an
audio stream, at absolute time `t`, and leaves the record `v` among the
streams as it was after the pass. -/
def AudioWrittenFirst (env : Env) (s : Mux) (v : GenericStream) (t : ULong) : Prop :=
  ∃ i w e,
    (afterPass env s).minTimeStream = some i ∧
    (afterPass env s).globals.streams[i]? = some w ∧
    w.trackType = SoundMediaType ∧ w.source.blockTimeMs = t ∧
    (loopBody env s).emitted = s.emitted ++ [e] ∧
    e.iStream = i ∧ e.trackType = SoundMediaType ∧ e.trackID = w.source.trackID ∧
    e.minTimeMs = t ∧
    v ∈ (loopBody env s).globals.streams

/-- The result code a visit of the selection pass gets from the producer of
`gs`, and `0` when the visit asks no producer. -/
def producerErr (env : Env) (bExportVideo bExportAudio : Bool) (gs : GenericStream) :
    ComponentResult :=
  if gs.trackType = VideoMediaType ∧ gs.vid.source.bQdFrame = false ∧ bExportVideo = true then
    (_compressVideo env gs.vid).1
  else if gs.trackType = SoundMediaType ∧ gs.aud.source.bQdFrame = false ∧ bExportAudio = true then
    (_compressAudio env gs.aud).1
  else 0

/-- The stream has no sample queued and will not be given one: its kind is not
exported or it is at end of stream. -/
def Dormant (bExportVideo bExportAudio : Bool) (gs : GenericStream) : Prop :=
  gs.source.bQdFrame = false ∧
  (gs.trackType = VideoMediaType → bExportVideo = false ∨ gs.vid.source.eos = true) ∧
  (gs.trackType = SoundMediaType → bExportAudio = false ∨ gs.aud.source.eos = true)

/-- Modelled from the spec: `compressAudio` (the audio encoder of
`WebMAudioStream.c`) is not part of the sources at hand.  The spec describes a
producer by the states awaiting-sample, sample-ready and exhausted, and has the
scheduler ask only streams "not yet at end-of-stream".  `_compressAudio` asks
an exhausted audio stream again in every pass, so the property is stated for
the encoder: asked at end of stream with nothing queued, it succeeds without
producing, leaving the stream at end of stream with nothing queued. -/
def ProducerProtocol (env : Env) : Prop :=
  ∀ as : AudioStream, as.source.eos = true → as.source.bQdFrame = false →
    (env.compressAudio as).1 = 0 →
    (env.compressAudio as).2.source.eos = true ∧
    (env.compressAudio as).2.source.bQdFrame = false

/-- Blocks of one stream are written at non-decreasing times. -/
def PerStreamMonotone (l : List Emitted) : Prop :=
  l.Pairwise fun a b => a.iStream = b.iStream → a.minTimeMs.val ≤ b.minTimeMs.val

/-- The blocks are written at non-decreasing times. -/
def TimesNonDecreasing (l : List Emitted) : Prop :=
  l.Pairwise fun a b => a.minTimeMs.val ≤ b.minTimeMs.val

/-- What the merge argument needs of a loop state: the blocks written so far
are in time order, a running loop is not flagged done, and, once a block has
been written, every queued sample is at least as late as the last block while
every other stream but the last winner is dormant. -/
structure RunInv (s : Mux) : Prop where
  sorted : TimesNonDecreasing s.emitted
  flag : s.status = Status.running → s.allStreamsDone = false
  last : s.status = Status.running → ∀ e, s.emitted.getLast? = some e →
    (∀ a ∈ s.emitted, a.minTimeMs.val ≤ e.minTimeMs.val) ∧
    (∀ gs ∈ s.globals.streams, isAV gs → gs.source.bQdFrame = true →
      e.minTimeMs.val ≤ gs.source.blockTimeMs.val) ∧
    (∀ j gs, s.globals.streams[j]? = some gs → isAV gs → gs.source.bQdFrame = false →
      j ≠ e.iStream → Dormant s.globals.bExportVideo s.globals.bExportAudio gs)

/-- Two states of `muxStreams` that differ at most in the call log, in
`ebml.offset` and in `globals->progressOpen`. -/
def FrameEq (s t : Mux) : Prop :=
  { t with log := [], offset := 0, globals := { t.globals with progressOpen := false } } =
  { s with log := [], offset := 0, globals := { s.globals with progressOpen := false } }

/-- The video stream of `tieGlobals` once its sample is queued. -/
def tieVideoQueued : GenericStream :=
  produceStream (scriptEnv true) true true (scriptVideo 1 [(100, true)])

/-- The audio stream of `tieGlobals` once its packet is queued. -/
def tieAudioQueued : GenericStream :=
  produceStream (scriptEnv true) true true (scriptAudio 2 [100])

/-- A video stream with key frames at 0 and 40 ms and an audio stream with
packets at 0, 20 and 50 ms. -/
def interleavedGlobals : WebMExportGlobals :=
  { streams := [scriptVideo 1 [(0, true), (40, true)], scriptAudio 2 [0, 20, 50]] }

/-- The step of the loop taken from state `s` writes the block described by
`e` (and no other). -/
def Emits (env : Env) (s : Mux) (e : Emitted) : Prop :=
  (whileStep env s).emitted = s.emitted ++ [e]

/-- The calls an iteration makes once the winner `gs` is known, in a state
`p` reached after the selection pass. -/
def emitCalls (env : Env) (p : Mux) (gs : GenericStream) : List Event :=
  (if clusterDecision p = true then clusterCalls p.minTimeMs else []) ++
  [blockCall gs (openCluster env p).globals.clusterTime,
   Event.Ebml_EndSubElement LocVar.clusterStart] ++
  (if env.durationIsZero = false then progressCalls env p.globals (Percent.ratio p.minTimeMs)
   else [])

/-- The anatomy of an iteration that starts in loop state `s` and writes the
block `e`: where the fields of `e` come from and which calls the iteration
makes after its selection pass (the pass itself only calls encoders).

* `minTimeMs` is the minimum found by the pass;
* a new cluster is opened exactly when `clusterDecision` says so, and the
  cluster the block goes into starts at `minTimeMs` then, at the previous
  `clusterTime` otherwise;
* the time code is the `(short)` cast of the `unsigned long` difference;
* the calls are: those of `_startNewCluster` when a cluster is opened, then
  `writeSimpleBlock` with the fields of `e`, then `Ebml_EndSubElement`, then
  the progress calls when the duration is not zero. -/
structure Anatomy (env : Env) (s : Mux) (e : Emitted) : Prop where
  time : e.minTimeMs = (afterPass env s).minTimeMs
  decision : e.newCluster = clusterDecision (afterPass env s)
  cluster : e.clusterTime = if e.newCluster = true then e.minTimeMs else s.globals.clusterTime
  cluster_after : (whileStep env s).globals.clusterTime = e.clusterTime
  code : e.timeCode = toShort (ulongSub e.minTimeMs e.clusterTime)
  cue : e.cue = decide (e.trackType = VideoMediaType ∧ e.isKeyFrame = true)
  audio_key : e.trackType ≠ VideoMediaType → e.isKeyFrame = true
  kind : e.trackType = VideoMediaType ∨ e.trackType = SoundMediaType
  offset : e.blockOffset = s.offset
  calls : ∃ payload, (whileStep env s).log =
    (afterPass env s).log ++
      (if e.newCluster = true then clusterCalls e.minTimeMs else []) ++
      [Event.writeSimpleBlock e.trackID e.timeCode (if e.isKeyFrame = true then 1 else 0) 0 0
        payload,
       Event.Ebml_EndSubElement LocVar.clusterStart] ++
      (if env.durationIsZero = false then
        progressCalls env s.globals (Percent.ratio e.minTimeMs) else [])

/-- The time code of the block `e` written from loop state `s` is sound up to
the `unsigned long` wrap: it lies in `[0, 32767]`, it is the `unsigned long`
difference `minTimeMs - clusterTime` itself (the cast to `short` changes
nothing), it is the value passed to `writeSimpleBlock`, and it is the true
difference between the sample time and the start time of the cluster the block
is written into as long as the cluster time before the iteration is less than
`2^32 - 32767` ms above the sample time. -/
def TimeCodeSound (env : Env) (s : Mux) (e : Emitted) : Prop :=
  0 ≤ e.timeCode ∧ e.timeCode ≤ 32767 ∧
  e.timeCode = ((ulongSub e.minTimeMs e.clusterTime : Nat) : Int) ∧
  (∃ isKey payload,
    Event.writeSimpleBlock e.trackID e.timeCode isKey 0 0 payload ∈ (whileStep env s).log) ∧
  (s.globals.clusterTime.val < e.minTimeMs.val + 4294934529 →
    e.timeCode = (e.minTimeMs.val : Int) - (e.clusterTime.val : Int))

/-- A video stream with non-key samples at 4294967000 ms and then 100 ms. -/
def wrapGlobals : WebMExportGlobals :=
  { streams := [scriptVideo 1 [(4294967000, false), (100, false)]] }

/-- Scenario 3: a video stream with non-key samples at 0 and 40000 ms. -/
def farGlobals : WebMExportGlobals :=
  { streams := [scriptVideo 1 [(0, false), (40000, false)]] }

/-- The block `e` written from loop state `s` opens its cluster: the cluster
time becomes the time of the winning sample, the calls after the pass are
`Ebml_EndSubElement` on the previous cluster (made exactly when the new
cluster time is not zero), `Ebml_StartSubElement(Cluster)`, the `Timecode`
with the winning time, then `writeSimpleBlock` for the winner with relative
time code `0`. -/
def ClusterStartsAtWinner (env : Env) (s : Mux) (e : Emitted) : Prop :=
  e.clusterTime = e.minTimeMs ∧ e.timeCode = 0 ∧
  (whileStep env s).globals.clusterTime = e.minTimeMs ∧
  (∃ w ∈ (afterPass env s).globals.streams,
    w.source.bQdFrame = true ∧ w.source.blockTimeMs = e.minTimeMs ∧
    w.source.trackID = e.trackID) ∧
  ∃ payload, (whileStep env s).log =
    (afterPass env s).log ++
      (if e.minTimeMs ≠ 0 then [Event.Ebml_EndSubElement LocVar.clusterStart] else []) ++
      [Event.Ebml_StartSubElement LocVar.clusterStart EbmlID.Cluster,
       Event.Ebml_SerializeUnsigned EbmlID.Timecode e.minTimeMs.val,
       Event.writeSimpleBlock e.trackID 0 (if e.isKeyFrame = true then 1 else 0) 0 0 payload,
       Event.Ebml_EndSubElement LocVar.clusterStart] ++
      (if env.durationIsZero = false then
        progressCalls env s.globals (Percent.ratio e.minTimeMs) else [])

/-- The second block of the run on `wrapGlobals`. -/
def wrapBlock : Emitted :=
  { iStream := 0, trackType := VideoMediaType, trackID := 1, minTimeMs := 100,
    clusterTime := 4294967000, newCluster := false, timeCode := 396, isKeyFrame := false,
    cue := false, blockOffset := 11, blockNumber := 2 }

/-- The second block of the run on `farGlobals`. -/
def farBlock : Emitted :=
  { iStream := 0, trackType := VideoMediaType, trackID := 1, minTimeMs := 40000,
    clusterTime := 40000, newCluster := true, timeCode := 0, isKeyFrame := false,
    cue := false, blockOffset := 10, blockNumber := 1 }

/-- The visit of the selection pass to `gs` sets the request for a new
cluster: `gs` is a video stream with no sample queued, video is exported, and
its `frame_type` is `kICMFrameType_I` once `_compressVideo` has returned. -/
def keyFrameSeen (env : Env) (bExportVideo : Bool) (gs : GenericStream) : Bool :=
  decide (gs.trackType = VideoMediaType ∧ gs.vid.source.bQdFrame = false ∧ bExportVideo = true ∧
    (_compressVideo env gs.vid).2.frame_type = kICMFrameType_I)

/-- The visit of the selection pass to `gs` queues a key frame: `gs` is a
video stream with no sample queued, video is exported, and `_compressVideo`
leaves it with a sample queued whose `frame_type` is `kICMFrameType_I`. -/
def keyFrameQueued (env : Env) (bExportVideo : Bool) (gs : GenericStream) : Bool :=
  decide (gs.trackType = VideoMediaType ∧ gs.vid.source.bQdFrame = false ∧ bExportVideo = true ∧
    (_compressVideo env gs.vid).2.source.bQdFrame = true ∧
    (_compressVideo env gs.vid).2.frame_type = kICMFrameType_I)

/-- The visit of the selection pass to `gs` finds a key frame that is not in
the queue: `gs` is a video stream with no sample queued, video is exported,
and `_compressVideo` returns without queueing a sample (the stream is at end
of stream) while `frame_type` still is `kICMFrameType_I` from the last frame
written.  Line 431 sets the request for a new cluster from this left-over
value too, although the comment on line 430 asks for a key frame in the
queue. -/
def staleKeyFrame (env : Env) (bExportVideo : Bool) (gs : GenericStream) : Bool :=
  decide (gs.trackType = VideoMediaType ∧ gs.vid.source.bQdFrame = false ∧ bExportVideo = true ∧
    (_compressVideo env gs.vid).2.source.bQdFrame = false ∧
    (_compressVideo env gs.vid).2.frame_type = kICMFrameType_I)

/-- The grounds on which the iteration started from loop state `s` opens a new
cluster for the block at time `minTimeMs`: (a) no block has been written yet,
or (b) the pass has queued a key frame of a video stream, or (c) the
`unsigned long` difference between the winning time and the cluster time
exceeds 32767. -/
def ClusterDue (env : Env) (s : Mux) (minTimeMs : ULong) : Prop :=
  s.emitted = [] ∨
  (∃ gs ∈ s.globals.streams, keyFrameQueued env s.globals.bExportVideo gs = true) ∨
  ulongSub minTimeMs s.globals.clusterTime > 32767

/-- The rule by which the iteration that writes `e` from loop state `s` opens
a new cluster.  It opens one whenever a cluster is due (`ClusterDue`); and
when the pass has met no video stream with a left-over key frame
(`staleKeyFrame`), it opens one only then.  Nothing is said of whether a
left-over key frame opens a cluster. -/
def NewClusterRule (env : Env) (s : Mux) (e : Emitted) : Prop :=
  (ClusterDue env s e.minTimeMs → e.newCluster = true) ∧
  ((∀ gs ∈ s.globals.streams, staleKeyFrame env s.globals.bExportVideo gs = false) →
    (e.newCluster = true ↔ ClusterDue env s e.minTimeMs))

/-- A video stream with one key frame at 0 ms and an audio stream with packets
at 0, 20, 40 and 60 ms: the video stream is at end of stream, its last frame a
key frame, while audio packets are still written. -/
def staleKeyGlobals : WebMExportGlobals :=
  { streams := [scriptVideo 1 [(0, true)], scriptAudio 2 [0, 20, 40, 60]] }

/-- The third block of the run on `interleavedGlobals`: the audio packet at
20 ms. -/
def interleavedThird : Emitted :=
  { iStream := 1, trackType := SoundMediaType, trackID := 2, minTimeMs := 20,
    clusterTime := 20, newCluster := true, timeCode := 0, isKeyFrame := true,
    cue := false, blockOffset := 13, blockNumber := 1 }

/-- The cue `_addCue` records for the block `e` when the first element of the
Segment is at offset `firstL1Offset`. -/
def cueOf (firstL1Offset : Offset64) (e : Emitted) : WebMCuePoint :=
  { loc := cueLoc e.blockOffset firstL1Offset
    timeVal := e.clusterTime
    track := e.trackID
    blockNumber := e.blockNumber }

/-- The cues recorded for a list of written blocks: one for each block with
`cue` set. -/
def cuesOf (firstL1Offset : Offset64) (l : List Emitted) : List WebMCuePoint :=
  (l.filter fun e => e.cue).map (cueOf firstL1Offset)

/-- The written blocks that are video key frames. -/
def keyVideoBlocks (l : List Emitted) : List Emitted :=
  l.filter fun e => decide (e.trackType = VideoMediaType ∧ e.isKeyFrame = true)

/-- How `_addCue` is invoked, for a run on globals `g` that has reached the
state `r` at `bail`: a block has `cue` set exactly when it is a video block
with a key frame; `cueCount` has grown by the number of those blocks (and is
that number when it was `0` at entry); the cue table is what it held at
entry followed by one cue per such block, in the order written. -/
def CueLaw (g : WebMExportGlobals) (r : Mux) : Prop :=
  (∀ e ∈ r.emitted, e.cue = true ↔ (e.trackType = VideoMediaType ∧ e.isKeyFrame = true)) ∧
  r.globals.cueCount = g.cueCount + (keyVideoBlocks r.emitted).length ∧
  (g.cueCount = 0 → r.globals.cueCount = (keyVideoBlocks r.emitted).length) ∧
  cueTable r.globals = cueTable g ++ (keyVideoBlocks r.emitted).map (cueOf r.firstL1Offset)

/-- Every frame the video encoder delivers is a key frame. -/
def AllKey (env : Env) : Prop :=
  ∀ vs : VideoStream, (env.compressNextFrame vs).2.frame_type = kICMFrameType_I

/-- Every block of the list opens a cluster of its own at its own time, is
written with relative time code `0` as a video key frame, and has a cue. -/
def OwnClusterEach (l : List Emitted) : Prop :=
  ∀ e ∈ l, e.trackType = VideoMediaType ∧ e.isKeyFrame = true ∧ e.newCluster = true ∧
    e.clusterTime = e.minTimeMs ∧ e.timeCode = 0 ∧ e.cue = true

/-- Scenario 1: one video stream with key frames at 0, 40 and 80 ms. -/
def threeKeyGlobals : WebMExportGlobals :=
  { streams := [scriptVideo 1 [(0, true), (40, true), (80, true)]] }

/-- The number of clusters opened in a log. -/
def clustersOpened (log : List Event) : Nat :=
  (log.filter fun ev =>
    decide (ev = Event.Ebml_StartSubElement LocVar.clusterStart EbmlID.Cluster)).length

/-- The relative time codes of the blocks written in a log. -/
def blockTimeCodes : List Event → List Int
  | [] => []
  | Event.writeSimpleBlock _ tc _ _ _ _ :: rest => tc :: blockTimeCodes rest
  | _ :: rest => blockTimeCodes rest

/-- Collaborators whose video encoder delivers only key frames: the scripted
ones, with every frame classified `kICMFrameType_I`. -/
def allKeyEnv : Env :=
  { scriptEnv true with
    compressNextFrame := fun vs =>
      ((scriptCompressNextFrame vs).1,
       { (scriptCompressNextFrame vs).2 with frame_type := kICMFrameType_I }) }

/-- The selection pass of the iteration started from loop state `s`, over the
first `i` streams only. -/
def passUpTo (env : Env) (s : Mux) (i : Nat) : List GenericStream × Sel × Bool :=
  forStreams env s.globals.bExportVideo s.globals.bExportAudio [] (s.globals.streams.take i)
    { err := s.err
      startNewCluster := s.startNewCluster
      minTimeMs := ULONG_MAX
      minTimeStream := none
      allStreamsDone := true
      log := s.log }

/-- The call to the encoder of stream `i`. -/
def producerCall (gs : GenericStream) (i : Nat) : Event :=
  if gs.trackType = VideoMediaType then Event.compressNextFrame i else Event.compressAudio i

/-- In the iteration started from loop state `s`, the selection pass reaches
stream `i` and the producer of that stream (`_compressVideo` or
`_compressAudio`) returns the non-zero code `e`. -/
def ProducerFails (env : Env) (s : Mux) (i : Nat) (e : ComponentResult) : Prop :=
  s.status = Status.running ∧ s.allStreamsDone = false ∧
  (passUpTo env s i).2.2 = false ∧ e ≠ 0 ∧
  ∃ gs, s.globals.streams[i]? = some gs ∧
    ((gs.trackType = VideoMediaType ∧ gs.vid.source.bQdFrame = false ∧
        s.globals.bExportVideo = true ∧ (_compressVideo env gs.vid).1 = e) ∨
     (gs.trackType = SoundMediaType ∧ gs.aud.source.bQdFrame = false ∧
        s.globals.bExportAudio = true ∧ (_compressAudio env gs.aud).1 = e))

/-- The run on `g` with the given fuel was aborted by the producer of stream
`i` failing with code `e` in the iteration started from loop state `s`:
`muxStreams` returns `e`, no block was written after those of `s`, and the
log of the whole run ends with the failing call (it is the log of the pass up
to stream `i` followed by that call). -/
def AbortedBy (env : Env) (g : WebMExportGlobals) (fuel : Nat) (s : Mux) (i : Nat)
    (e : ComponentResult) : Prop :=
  muxStreams env g fuel = some e ∧
  (muxRun env g fuel).emitted = s.emitted ∧
  ∃ gs, s.globals.streams[i]? = some gs ∧
    (muxRun env g fuel).log = (passUpTo env s i).2.1.log ++ [producerCall gs i]

/-- A video stream with a sample at 0 ms and an audio stream whose encoder
delivers a packet at 0 ms and then fails with code -50. -/
def failGlobals : WebMExportGlobals :=
  { streams :=
      [scriptVideo 1 [(0, true)],
       { trackType := SoundMediaType
         aud := { source := { trackID := 2
                              refCon := [{ timeMs := 0 }, { err := -50, timeMs := 20 }] } } }] }

/-- Lines 372-392 of `muxStreams`: the state in which `_writeTracks` is
called. -/
def beforeTracks (env : Env) (g : WebMExportGlobals) : Mux :=
  let s0 : Mux :=
    { globals := { g with progressOpen := false }
      offset := 0
      err := noErr
      allStreamsDone := false
      log := []
      emitted := []
      status := Status.running }
  let s1 := ebmlCall env s0 Event.writeHeader
  let s2 := ebmlCall env s1 (Event.Ebml_StartSubElement LocVar.startSegment EbmlID.Segment)
  let s3 : Mux := { s2 with firstL1Offset := s2.offset }
  ebmlCall env s3 (Event.writeSegmentInformation s3.globals.webmTimeCodeScale)

/-- Lines 396-407 of `muxStreams`: from the return of `_writeTracks` (state
`s`) to the `while` loop. -/
def afterTracks (env : Env) (s : Mux) : Mux :=
  let s6 : Mux := { s with log := s.log ++ [Event.HLock] }
  let r := _updateProgressBar env s6 Percent.zero
  { r.1 with
      err := r.2
      minTimeMs := ULONG_MAX
      minTimeStream := none
      globals := { r.1.globals with clusterTime := 0 }
      startNewCluster := true
      blocksInCluster := 0 }

/-- Scripted collaborators whose track description steps all fail with
`-50`: `InvokeMovieExportGetDataUPP` for a video track and
`initVorbisComponent` for an audio track. -/
def tracksFailEnv : Env :=
  { scriptEnv true with trackErr := fun _ _ => -50 }

/-- The call is one to an encoder (`compressNextFrame` or `compressAudio`). -/
def isProducerCall : Event → Bool
  | Event.compressNextFrame _ => true
  | Event.compressAudio _ => true
  | _ => false

/-- The call `writeSimpleBlock` of `_writeVideo` / `_writeAudio` for the stream
record `w` while `globals->clusterTime` is `clusterTime`, argument by
argument: the track number of the stream; the `unsigned long` difference
`blockTimeMs - clusterTime`; the key-frame flag, `frame_type ==
kICMFrameType_I` for a video stream and `1` for an audio stream; lacing flag
`0`; discardable `0`; the output buffer of the stream. -/
def winnerBlock (w : GenericStream) (clusterTime : ULong) : Event :=
  Event.writeSimpleBlock w.source.trackID
    ((ulongSub w.source.blockTimeMs clusterTime : Nat) : Int)
    (if w.trackType = VideoMediaType then
      (if w.vid.frame_type = kICMFrameType_I then 1 else 0) else 1)
    0 0
    (if w.trackType = VideoMediaType then w.vid.outBuf else w.aud.outBuf)

/-- What the iteration that writes `e` from loop state `s` passes to
`writeSimpleBlock`, and what it leaves of the winner: the pass only calls
encoders; then come the calls that open a cluster when one is due, the one
`writeSimpleBlock` call, with the arguments of `winnerBlock` for the winning
stream `w` (a video or audio stream with a queued sample) and the cluster time
at the moment of the write, `Ebml_EndSubElement`, and the progress calls; the
`(short)` cast of the difference changes nothing; and once the iteration is
over the winning stream has no sample queued. -/
def BlockArguments (env : Env) (s : Mux) (e : Emitted) : Prop :=
  ∃ i w w2 calls,
    (afterPass env s).minTimeStream = some i ∧
    (afterPass env s).globals.streams[i]? = some w ∧ isAV w ∧ w.source.bQdFrame = true ∧
    e.iStream = i ∧ e.trackType = w.trackType ∧
    (afterPass env s).log = s.log ++ calls ∧ (∀ ev ∈ calls, isProducerCall ev = true) ∧
    (whileStep env s).log =
      (afterPass env s).log ++
        (if e.newCluster = true then clusterCalls e.minTimeMs else []) ++
        [winnerBlock w e.clusterTime, Event.Ebml_EndSubElement LocVar.clusterStart] ++
        (if env.durationIsZero = false then
          progressCalls env s.globals (Percent.ratio e.minTimeMs) else []) ∧
    toShort (ulongSub w.source.blockTimeMs e.clusterTime) =
      ((ulongSub w.source.blockTimeMs e.clusterTime : Nat) : Int) ∧
    (whileStep env s).globals.streams[i]? = some w2 ∧ w2.source.bQdFrame = false

/-- A video stream (track 7) with a key frame at 0 ms of payload `1, 2, 3` and
a non-key frame at 40 ms of payload `4, 5`. -/
def payloadGlobals : WebMExportGlobals :=
  { streams :=
      [{ trackType := VideoMediaType
         vid := { source := { trackID := 7
                              refCon := [{ timeMs := 0, frame_type := kICMFrameType_I,
                                           data := [1, 2, 3] },
                                         { timeMs := 40, frame_type := 0x50,
                                           data := [4, 5] }] } } }] }

/-- The second block of the run on `payloadGlobals`. -/
def payloadSecond : Emitted :=
  { iStream := 0, trackType := VideoMediaType, trackID := 7, minTimeMs := 40,
    clusterTime := 0, newCluster := false, timeCode := 40, isKeyFrame := false,
    cue := false, blockOffset := 10, blockNumber := 2 }

/-- The calls of one round of the loop of `_writeCues`, for the cue `cue`: a
`CuePoint` holding `CueTime` and one `CueTrackPositions` with `CueTrack`,
`CueClusterPosition` and the constant `CueBlockNumber` 1. -/
def cuePointCalls (cue : WebMCuePoint) : List Event :=
  [Event.Ebml_StartSubElement LocVar.cueHead EbmlID.CuePoint,
   Event.Ebml_SerializeUnsigned EbmlID.CueTime cue.timeVal.val,
   Event.Ebml_StartSubElement LocVar.trackLoc EbmlID.CueTrackPositions,
   Event.Ebml_SerializeUnsigned EbmlID.CueTrack cue.track,
   Event.Ebml_SerializeUnsigned64 EbmlID.CueClusterPosition cue.loc,
   Event.Ebml_SerializeUnsigned EbmlID.CueBlockNumber 1,
   Event.Ebml_EndSubElement LocVar.trackLoc,
   Event.Ebml_EndSubElement LocVar.cueHead]

/-- One `Cues` element with one `CuePoint` per entry of `table`, in the order
of the table. -/
def writeCuesCalls (table : List WebMCuePoint) : List Event :=
  [Event.Ebml_StartSubElement LocVar.cuesLoc EbmlID.Cues] ++
    (table.map cuePointCalls).flatten ++
    [Event.Ebml_EndSubElement LocVar.cuesLoc]

/-- The sub-elements opened in a list of calls are closed last-opened first:
`stack` holds the handles open before the calls, and every
`Ebml_EndSubElement` names the handle on top of the stack; at the end
nothing is left open. -/
def closesLifo : List LocVar → List Event → Bool
  | stack, [] => stack.isEmpty
  | stack, Event.Ebml_StartSubElement l _ :: rest => closesLifo (l :: stack) rest
  | [], Event.Ebml_EndSubElement _ :: _ => false
  | top :: stack, Event.Ebml_EndSubElement l :: rest => decide (l = top) && closesLifo stack rest
  | stack, _ :: rest => closesLifo stack rest

/-- The number of sub-elements of class `c` opened in a list of calls. -/
def opened (c : EbmlID) (log : List Event) : Nat :=
  (log.filter fun ev =>
    match ev with
    | Event.Ebml_StartSubElement _ c2 => decide (c2 = c)
    | _ => false).length

/-- What `_writeCues` does in state `s`: it appends to the log one `Cues`
element built from entries `0 .. cueCount - 1` of the cue table, read in index
order (entry `i` is `cueHandle[i]`); the element contains `cueCount`
`CuePoint`s, each with one `CueTrackPositions`; sub-elements are closed
last-opened first; the globals are left as they are. -/
def CuesWritten (env : Env) (s : Mux) : Prop :=
  (_writeCues env s).log = s.log ++ writeCuesCalls (cueTable s.globals) ∧
  (cueTable s.globals).length = s.globals.cueCount ∧
  (∀ i, i < s.globals.cueCount →
    (cueTable s.globals)[i]? = some (s.globals.cueHandle.getD i (WebMCuePoint.mk 0 0 0 0))) ∧
  (s.globals.cueHandle.length = s.globals.cueCount → cueTable s.globals = s.globals.cueHandle) ∧
  opened EbmlID.Cues (writeCuesCalls (cueTable s.globals)) = 1 ∧
  opened EbmlID.CuePoint (writeCuesCalls (cueTable s.globals)) = s.globals.cueCount ∧
  opened EbmlID.CueTrackPositions (writeCuesCalls (cueTable s.globals)) = s.globals.cueCount ∧
  closesLifo [] (writeCuesCalls (cueTable s.globals)) = true ∧
  (_writeCues env s).globals = s.globals

/-- The number of blocks written into the cluster that is current once the
blocks `l` have been written: the blocks since the last one that opened a
cluster, that one included. -/
def blocksInCurrentCluster (l : List Emitted) : Nat :=
  l.foldl (fun n e => if e.newCluster = true then 1 else n + 1) 0

/-- The fields of the cue appended by the iteration that writes a key video
block from the state `s` of a run: `track` is the track number of
the winning video stream, `timeVal` the start time of the cluster the block is
written into, `loc` the offset captured at the top of the iteration minus the
offset of the first element inside the Segment (`ebml.offset` right after
`Ebml_StartSubElement(Segment)`), `blockNumber` the number of blocks written
into the current cluster, this one included.  In the table read by
`_writeCues` the cue comes after the entries already there, which are kept, and
`cueCount` grows by one. -/
def CueFields (env : Env) (s : Mux) : Prop :=
  ∃ i w,
    (afterPass env s).minTimeStream = some i ∧
    (afterPass env s).globals.streams[i]? = some w ∧
    w.trackType = VideoMediaType ∧ w.vid.frame_type = kICMFrameType_I ∧
    (whileStep env s).globals.cueCount = s.globals.cueCount + 1 ∧
    cueTable (whileStep env s).globals =
      cueTable s.globals ++
        [{ track := w.vid.source.trackID
           timeVal := (whileStep env s).globals.clusterTime
           loc := cueLoc s.offset
             (env.ebmlOffset (env.ebmlOffset 0 Event.writeHeader)
               (Event.Ebml_StartSubElement LocVar.startSegment EbmlID.Segment))
           blockNumber := blocksInCurrentCluster (whileStep env s).emitted }]

/-- The size in bytes `_addCue` asks for the block behind `cueHandle`, for the
globals `g` in which it is called: `sizeof(CuePoint) * cueCount` through
`SetHandleSize` when the handle is not `NULL` (`cueCount` already incremented),
`sizeof(WebMCuePoint)` through `NewHandleClear` otherwise.  `sizeofCuePoint`
is `sizeof(CuePoint)`, where `CuePoint` is the EBML class identifier passed to
`Ebml_StartSubElement` in `_writeCues`; `sizeofWebMCuePoint` is the size of
one entry of the table. -/
def cueHandleSize (sizeofCuePoint sizeofWebMCuePoint : Nat) (g : WebMExportGlobals) : Nat :=
  if g.cueHandle ≠ [] then sizeofCuePoint * (g.cueCount + 1) else sizeofWebMCuePoint

/-- The offset in bytes, within the block behind `cueHandle`, one past the end
of the entry `(*globals->cueHandle)[globals->cueCount-1]` that `_addCue` fills
in, for the globals `g` in which it is called. -/
def newCueEnd (sizeofWebMCuePoint : Nat) (g : WebMExportGlobals) : Nat :=
  sizeofWebMCuePoint * (g.cueCount + 1)

/-- The second block of the run on `threeKeyGlobals`. -/
def threeKeySecond : Emitted :=
  { iStream := 0, trackType := VideoMediaType, trackID := 1, minTimeMs := 40,
    clusterTime := 40, newCluster := true, timeCode := 0, isKeyFrame := true,
    cue := true, blockOffset := 10, blockNumber := 1 }

/-- The calls of a log that come before the first
`Ebml_StartSubElement(&globals->clusterStart, Cluster)`. -/
def beforeFirstCluster (log : List Event) : List Event :=
  log.takeWhile fun ev =>
    !decide (ev = Event.Ebml_StartSubElement LocVar.clusterStart EbmlID.Cluster)

/-- What a log has done so far with one deferred-size handle (an `EbmlLoc`
variable): `pending` is `none` while the handle holds no element obtained by
`Ebml_StartSubElement`, and `some k` when it holds one that has since been
passed to `Ebml_EndSubElement` `k` times; `closed` lists, for the elements the
handle held before and in order, how many times each was passed to
`Ebml_EndSubElement` before the handle was used again. -/
structure HandleUse where
  pending : Option Nat := none
  closed : List Nat := []
  deriving DecidableEq, Repr

/-- The effect of one call on the use of handle `h`.  An
`Ebml_EndSubElement` on a handle that holds no element is not counted. -/
def useStep (h : LocVar) (u : HandleUse) : Event → HandleUse
  | Event.Ebml_StartSubElement l _ =>
    if l = h then { pending := some 0, closed := u.closed ++ u.pending.toList } else u
  | Event.Ebml_EndSubElement l =>
    if l = h then { u with pending := u.pending.map (· + 1) } else u
  | _ => u

/-- The use of handle `h` once the calls of `log` have been made. -/
def useAfter (h : LocVar) (log : List Event) : HandleUse :=
  log.foldl (useStep h) {}

/-- For every element obtained on handle `h` by `Ebml_StartSubElement` in
`log`, in order, the number of times the handle was passed to
`Ebml_EndSubElement` before it was used again or the log ended. -/
def handleUses (h : LocVar) (log : List Event) : List Nat :=
  (useAfter h log).closed ++ (useAfter h log).pending.toList

/-- The call opens or closes a deferred-size element. -/
def isEbmlOp : Event → Bool
  | Event.Ebml_StartSubElement _ _ => true
  | Event.Ebml_EndSubElement _ => true
  | _ => false

/-- The early return of `_writeTracks` (`if (err) return err;` after
`initVorbisComponent`) is not taken in the run on `g`. -/
def TracksComplete (env : Env) (g : WebMExportGlobals) : Prop :=
  (writeTracksLoop env 0 g.streams
    (ebmlCall env (beforeTracks env g)
      (Event.Ebml_StartSubElement LocVar.trackStart EbmlID.Tracks)) noErr).2.2 = false

instance (env : Env) (g : WebMExportGlobals) : Decidable (TracksComplete env g) :=
  inferInstanceAs (Decidable (_ = false))

/-- Every deferred-size handle used in `log` is passed to
`Ebml_EndSubElement` before it is used again or the log ends: exactly once
for every handle but `globals->clusterStart`, at least once for that one. -/
def HandlesClosed (log : List Event) : Prop :=
  (∀ h, h ≠ LocVar.clusterStart → ∀ k ∈ handleUses h log, k = 1) ∧
  (∀ k ∈ handleUses LocVar.clusterStart log, 1 ≤ k)

/-- The messages a log sends to the progress procedure, in order, each with
its `percentDone` argument. -/
def progressMsgs : List Event → List (ProgressMsg × Int)
  | [] => []
  | Event.InvokeMovieProgressUPP m p :: rest => (m, p) :: progressMsgs rest
  | _ :: rest => progressMsgs rest

/-- Scenario 1 with a progress procedure installed. -/
def progressGlobals : WebMExportGlobals :=
  { streams := [scriptVideo 1 [(0, true), (40, true), (80, true)]], progressProc := true }

/-- Scenario 2 with a progress procedure installed. -/
def progressTieGlobals : WebMExportGlobals :=
  { streams := [scriptVideo 1 [(100, true)], scriptAudio 2 [100]], progressProc := true }

/-- How one step of the `while` loop from state `s` reports progress.

* When the duration is zero the step sends nothing to the progress procedure.
* A step that writes no block sends nothing either.
* When the duration is not zero, a step that writes the block `e` ends with
  one call of `_updateProgressBar`, made in the state `s4` reached once
  `writeSimpleBlock` and `Ebml_EndSubElement` have been called, with the
  argument `minTimeMs / 1000.0 / duration` for the winning time; nothing is
  sent to the progress procedure before that call, and the calls it makes are
  the last of the step. -/
structure ProgressRule (env : Env) (s : Mux) : Prop where
  zero : env.durationIsZero = true → progressMsgs (whileStep env s).log = progressMsgs s.log
  quiet : (¬ ∃ e, Emits env s e) → progressMsgs (whileStep env s).log = progressMsgs s.log
  after_block : env.durationIsZero = false → ∀ e, Emits env s e →
    ∃ (s4 : Mux) (calls : List Event) (payload : List Nat),
      whileStep env s = (_updateProgressBar env s4 (Percent.ratio e.minTimeMs)).1 ∧
      s4.log = s.log ++ calls ++
        [Event.writeSimpleBlock e.trackID e.timeCode (if e.isKeyFrame = true then 1 else 0) 0 0
          payload,
         Event.Ebml_EndSubElement LocVar.clusterStart] ∧
      progressMsgs s4.log = progressMsgs s.log ∧
      (whileStep env s).log = s4.log ++ progressCalls env s.globals (Percent.ratio e.minTimeMs)

/-- Progress reports of the main loop: every step follows `ProgressRule`,
and with a zero duration no number of steps sends anything to the progress
procedure. -/
def ProgressInLoop (env : Env) (s : Mux) : Prop :=
  ProgressRule env s ∧
  (env.durationIsZero = true → ∀ n, progressMsgs (whileLoop env n s).log = progressMsgs s.log)

/-! ## The file reader (`mkvreaderqt.cpp`) -/

/-- The C conversion of an integer to `long` (32 bits, two's complement). -/
def toLong (x : Int) : Int := (x + 2147483648) % 4294967296 - 2147483648

/-- The C conversion of an integer to `size_t` (32 bits, unsigned). -/
def toSizeT (x : Int) : Nat := (x % 4294967296).toNat

/-- The calls `mkvreaderqt.cpp` makes to the Component Manager and to the data
handler component of QuickTime.  Handles and component instances are numbers,
`0` for `NULL`; a result code other than `0` is an error.

* `OpenAComponent`: the result of `OpenAComponent(GetDataHandler(dataRef,
  dataRefType, kDataHCanRead), &dataHandler)` and the instance stored.
* `DataHGetFileSize`: the result and the size stored in `fileSize`.
* `DataHScheduleData`: the result of the synchronous read of `size` bytes at
  `offset`, and the content of the memory at `buffer` once it has returned
  (byte `i` of the buffer, for every index `i`). -/
structure DataH where
  OpenAComponent : (dataRef dataRefType : Nat) → Int × Nat
  DataHSetDataRef : (dataHandler dataRef : Nat) → Int
  DataHOpenForRead : (dataHandler : Nat) → Int
  DataHGetFileSize : (dataHandler : Nat) → Int × Int
  DataHScheduleData : (dataHandler : Nat) → (offset size : Int) → Int × (Nat → Nat)

/-- The data members of `MkvReaderQT`. -/
structure MkvReaderQT where
  m_length : Int := 0
  m_dataRef : Nat := 0
  m_dataHandler : Nat := 0
  deriving DecidableEq, Repr

/-- The member function `MkvReaderQT::Open`: its result and the reader as it
leaves it. -/
def MkvReaderQT.Open (dh : DataH) (r : MkvReaderQT) (dataRef dataRefType : Nat) :
    Int × MkvReaderQT :=
  if dataRef = 0 then (-11, r)
  else if r.m_dataRef ≠ 0 ∨ r.m_dataHandler ≠ 0 then (-2, r)
  else
    let r1 : MkvReaderQT := { r with m_dataRef := dataRef }
    let o := dh.OpenAComponent dataRef dataRefType
    if o.1 ≠ 0 then (-3, r1)
    else if dh.DataHSetDataRef o.2 dataRef ≠ 0 then (-4, r1)
    else if dh.DataHOpenForRead o.2 ≠ 0 then (-5, r1)
    else
      let f := dh.DataHGetFileSize o.2
      if f.1 ≠ 0 then (-6, r1)
      else (0, { r1 with m_length := f.2, m_dataHandler := o.2 })

/-- What a call of `MkvReaderQT::Read` does: its result, the calls it makes to
`DataHScheduleData` (data handler, offset, size), and the content of `buffer`
as the data handler left it (`none` when `buffer` was not written). -/
structure ReadResult where
  code : Int
  calls : List (Nat × Int × Int)
  buffer : Option (Nat → Nat)

/-- The member function `MkvReaderQT::Read`.  `DataHScheduleData` takes the
offset and the size as `long`. -/
def MkvReaderQT.Read (dh : DataH) (r : MkvReaderQT) (position length : Int) : ReadResult :=
  if r.m_dataRef = 0 ∨ position < 0 ∨ length < 0 ∨ position ≥ r.m_length then
    { code := -1, calls := [], buffer := none }
  else if length = 0 then
    { code := 0, calls := [], buffer := none }
  else
    let d := dh.DataHScheduleData r.m_dataHandler (toLong position) length
    { code := if d.1 ≠ 0 then -2 else 0
      calls := [(r.m_dataHandler, toLong position, length)]
      buffer := some d.2 }

/-- The member function `MkvReaderQT::Length`: its result and the values
stored through `total` and `available`; the arguments tell whether each
pointer is not `NULL`. -/
def MkvReaderQT.Length (r : MkvReaderQT) (total available : Bool) :
    Int × Option Int × Option Int :=
  (0, if total then some r.m_length else none, if available then some r.m_length else none)

/-- The data members of `MkvBufferedReaderQT`, a `MkvReaderQT` with a queue
of bytes; the front of the queue is the head of `m_buffer`.  `m_chunksize` is
declared in `mkvreaderqt.hpp`; it is taken to be a `size_t`, the type of
`growSize`. -/
structure MkvBufferedReaderQT where
  toMkvReaderQT : MkvReaderQT := {}
  m_buffer : List Nat := []
  m_bufpos : Int := 0
  m_chunksize : Nat := 0
  deriving DecidableEq, Repr

/-- The loop `for (long i=0; i < requestedLen; i++)` of
`MkvBufferedReaderQT::Read`, for `n` more rounds: the queue, `m_bufpos` and the
bytes stored in `outbuf` so far.  (`front()` of an empty queue has no defined
value; it reads as `0` here.) -/
def popToOutbuf : Nat → List Nat → Int → List Nat → List Nat × Int × List Nat
  | 0, q, pos, out => (q, pos, out)
  | n + 1, q, pos, out => popToOutbuf n q.tail (pos + 1) (out ++ [q.headD 0])

/-- The end of `MkvBufferedReaderQT::Read` (lines 205-215): the bytes are
taken from the queue and the function returns `0`. -/
def readFromBuffer (b : MkvBufferedReaderQT) (requestedLen : Int) :
    Int × MkvBufferedReaderQT × List Nat :=
  if requestedLen > 0 then
    let r := popToOutbuf requestedLen.toNat b.m_buffer b.m_bufpos []
    (0, { b with m_buffer := r.1, m_bufpos := r.2.1 }, r.2.2)
  else (0, b, [])

/-- The member function `MkvBufferedReaderQT::Read`: its result, the reader as
it leaves it, and the bytes it stores in `outbuf[0]`, `outbuf[1]`, ....  The
comparison `requestedLen > m_buffer.size()` is made in `size_t`. -/
def MkvBufferedReaderQT.Read (dh : DataH) (b : MkvBufferedReaderQT)
    (requestedPos requestedLen : Int) : Int × MkvBufferedReaderQT × List Nat :=
  let b1 : MkvBufferedReaderQT :=
    if requestedPos ≠ b.m_bufpos then
      { b with m_buffer := b.m_buffer.drop b.m_buffer.length, m_bufpos := requestedPos }
    else b
  if toSizeT requestedLen > b1.m_buffer.length then
    let growSize : Nat :=
      if toSizeT requestedLen < b1.m_chunksize then b1.m_chunksize else toSizeT requestedLen
    let r := b1.toMkvReaderQT.Read dh requestedPos (toLong growSize)
    if r.code ≠ 0 then (r.code, b1, [])
    else
      let tempBuf : Nat → Nat := r.buffer.getD fun _ => 0
      readFromBuffer { b1 with m_buffer := b1.m_buffer ++ (List.range growSize).map tempBuf }
        requestedLen
  else readFromBuffer b1 requestedLen

/-- A data handler over a file with the bytes `file`: every step of `Open`
succeeds and yields the instance `1`; a read that lies inside the file
succeeds and fills the buffer with the bytes of the file from `offset` on, any
other read fails with `eofErr` (-39). -/
def fileDataH (file : List Nat) : DataH :=
  { OpenAComponent := fun _ _ => (0, 1)
    DataHSetDataRef := fun _ _ => 0
    DataHOpenForRead := fun _ => 0
    DataHGetFileSize := fun _ => (0, file.length)
    DataHScheduleData := fun _ offset size =>
      if 0 ≤ offset ∧ 0 ≤ size ∧ offset + size ≤ file.length then
        (0, fun i => file.getD (offset.toNat + i) 0)
      else (-39, fun _ => 0) }

/-- A buffered reader, opened on a file of `n` bytes, with the given chunk
size and nothing read yet. -/
def openedReader (n chunk : Nat) : MkvBufferedReaderQT :=
  { toMkvReaderQT := { m_length := n, m_dataRef := 1, m_dataHandler := 1 }
    m_chunksize := chunk }

/-- The sanity check of `MkvReaderQT::Read` fails. -/
def badRequest (r : MkvReaderQT) (position length : Int) : Prop :=
  r.m_dataRef = 0 ∨ position < 0 ∨ length < 0 ∨ position ≥ r.m_length

instance (r : MkvReaderQT) (position length : Int) : Decidable (badRequest r position length) :=
  inferInstanceAs (Decidable (_ ∨ _ ∨ _ ∨ _))

/-- The file size stored in `m_length` is that of a `long`, as `Open` stores
it. -/
def LengthIsLong (r : MkvReaderQT) : Prop := r.m_length ≤ 2147483647

/-- The results of `MkvReaderQT::Read` and `MkvReaderQT::Length`.

* `Read` returns `-1` exactly when the sanity check fails, and then makes no
  call to the data handler.
* Otherwise, for `length == 0` it returns `0` without a call; for any other
  length it makes one call of `DataHScheduleData` (for `length` bytes at
  `position`, on `m_dataHandler`; the offset is passed as a `long`, which
  changes nothing for a file size that `Open` stored) and returns `0` when
  that call returns `0` and `-2` when it does not.
* `Length` returns `0` and stores `m_length` through each of `total` and
  `available` that is not `NULL`. -/
def ReaderContract (dh : DataH) (r : MkvReaderQT) (position length : Int) : Prop :=
  ((r.Read dh position length).code = -1 ↔ badRequest r position length) ∧
  (badRequest r position length → (r.Read dh position length).calls = []) ∧
  (¬ badRequest r position length → length = 0 →
    (r.Read dh position length).code = 0 ∧ (r.Read dh position length).calls = []) ∧
  (¬ badRequest r position length → length ≠ 0 →
    (r.Read dh position length).calls = [(r.m_dataHandler, toLong position, length)] ∧
    (LengthIsLong r → toLong position = position) ∧
    ((dh.DataHScheduleData r.m_dataHandler (toLong position) length).1 = 0 →
      (r.Read dh position length).code = 0) ∧
    ((dh.DataHScheduleData r.m_dataHandler (toLong position) length).1 ≠ 0 →
      (r.Read dh position length).code = -2)) ∧
  (∀ total available : Bool,
    (r.Length total available).1 = 0 ∧
    (r.Length total available).2.1 = (if total = true then some r.m_length else none) ∧
    (r.Length total available).2.2 = (if available = true then some r.m_length else none))

/-- A data handler whose component cannot be opened (`OpenAComponent` fails
with -2003). -/
def noHandlerDataH : DataH :=
  { fileDataH [] with OpenAComponent := fun _ _ => (-2003, 0) }

/-- A file of `2 * c` bytes whose byte at offset `i` is `i % 256`. -/
def chunkFile (c : Nat) : List Nat := (List.range (2 * c)).map (· % 256)

/-- The first of two reads on a reader with chunk size `c`, opened on
`chunkFile c`: `c - 1` bytes at offset 0. -/
def firstRead (c : Nat) : Int × MkvBufferedReaderQT × List Nat :=
  MkvBufferedReaderQT.Read (fileDataH (chunkFile c)) (openedReader (2 * c) c) 0 ((c : Int) - 1)

/-- The second read: 2 bytes at offset `c - 1`, where the first read ended. -/
def secondRead (c : Nat) : Int × MkvBufferedReaderQT × List Nat :=
  MkvBufferedReaderQT.Read (fileDataH (chunkFile c)) (firstRead c).2.1 ((c : Int) - 1) 2

/-- The bytes `MkvReaderQT::Read` leaves in `buffer[0 .. length)`. -/
def bytesRead (res : ReadResult) (length : Nat) : List Nat :=
  (List.range length).map (res.buffer.getD fun _ => 0)

/-- The use of handle `h` once the calls of `log` have been made after a
log that left it in the state `u`. -/
def useFrom (h : LocVar) (u : HandleUse) (log : List Event) : HandleUse :=
  log.foldl (useStep h) u

/-- The call is a `Ebml_StartSubElement` or `Ebml_EndSubElement` on handle
`h`. -/
def touches (h : LocVar) : Event → Bool
  | Event.Ebml_StartSubElement l _ => decide (l = h)
  | Event.Ebml_EndSubElement l => decide (l = h)
  | _ => false

/-- Every element the handle has held was passed to `Ebml_EndSubElement` at
least once. -/
def AtLeastOnce (u : HandleUse) : Prop :=
  (∀ k ∈ u.closed, 1 ≤ k) ∧ (∀ k, u.pending = some k → 1 ≤ k)

/-- Every element the handle has held was passed to `Ebml_EndSubElement`
exactly once. -/
def ExactlyOnce (u : HandleUse) : Prop :=
  (∀ k ∈ u.closed, k = 1) ∧ (∀ k, u.pending = some k → k = 1)

/-! ## The seek head (`_writeSeekElement`, `_writeMetaSeekInformation`) -/

/-- The number of bytes the EBML writer appends for each kind of field: the
identifier of an element, the placeholder of a deferred size, a binary
identifier, an unsigned value. -/
structure Widths where
  id : EbmlID → Nat
  placeholder : Nat
  binary : Nat
  unsigned64 : Nat → Nat

/-- Modelled from the spec: the EBML writer (`Ebml_StartSubElement`,
`Ebml_EndSubElement`, `Ebml_WriteBinary`, `Ebml_SerializeUnsigned64`,
`Ebml_GetEbmlLoc`, `Ebml_SetEbmlLoc`) is not part of the sources at hand.  Its
state is the write cursor `offset` of `EbmlGlobal` and the `EbmlLoc` variables
of the two functions below: `seekInfoLoc` (of the caller), `globLoc` and
`start` (locals); `calls` lists the calls made, each with the cursor at which
it was made. -/
structure EbmlGlobal where
  offset : Nat := 0
  seekInfoLoc : Nat := 0
  globLoc : Nat := 0
  start : Nat := 0
  calls : List (Nat × Event) := []
  deriving DecidableEq, Repr

/-- Store `v` in the `EbmlLoc` variable `loc`. -/
def EbmlGlobal.setLoc (w : EbmlGlobal) (loc : LocVar) (v : Nat) : EbmlGlobal :=
  match loc with
  | LocVar.seekInfoLoc => { w with seekInfoLoc := v }
  | LocVar.globLoc => { w with globLoc := v }
  | LocVar.seekStart => { w with start := v }
  | _ => w

/-- The value of the `EbmlLoc` variable `loc`. -/
def EbmlGlobal.getLoc (w : EbmlGlobal) (loc : LocVar) : Nat :=
  match loc with
  | LocVar.seekInfoLoc => w.seekInfoLoc
  | LocVar.globLoc => w.globLoc
  | LocVar.seekStart => w.start
  | _ => 0

/-- Modelled from the spec: `startElement(id)` appends the element identifier
and a placeholder for the length, and the handle captures the offset of the
placeholder. -/
def Ebml_StartSubElement (wd : Widths) (w : EbmlGlobal) (loc : LocVar) (classId : EbmlID) :
    EbmlGlobal :=
  let w1 := { w with calls := w.calls ++ [(w.offset, Event.Ebml_StartSubElement loc classId)] }
  let w2 := w1.setLoc loc (w.offset + wd.id classId)
  { w2 with offset := w.offset + wd.id classId + wd.placeholder }

/-- Modelled from the spec: `endElement(handle)` overwrites the placeholder
and leaves the write cursor where it was. -/
def Ebml_EndSubElement (w : EbmlGlobal) (loc : LocVar) : EbmlGlobal :=
  { w with calls := w.calls ++ [(w.offset, Event.Ebml_EndSubElement loc)] }

/-- Modelled from the spec: `writeBinary(id, bytes)` appends a leaf
element. -/
def Ebml_WriteBinary (wd : Widths) (w : EbmlGlobal) (classId binaryId : EbmlID) : EbmlGlobal :=
  { w with
      calls := w.calls ++ [(w.offset, Event.Ebml_WriteBinary classId binaryId)]
      offset := w.offset + wd.id classId + wd.binary }

/-- Modelled from the spec: `writeUnsigned(id, value)` appends a leaf
element. -/
def Ebml_SerializeUnsigned64 (wd : Widths) (w : EbmlGlobal) (classId : EbmlID) (value : Nat) :
    EbmlGlobal :=
  { w with
      calls := w.calls ++ [(w.offset, Event.Ebml_SerializeUnsigned64 classId value)]
      offset := w.offset + wd.id classId + wd.unsigned64 value }

/-- Modelled from the spec: `getCursor()` stores the write cursor in the
`EbmlLoc` variable. -/
def Ebml_GetEbmlLoc (w : EbmlGlobal) (loc : LocVar) : EbmlGlobal :=
  ({ w with calls := w.calls ++ [(w.offset, Event.Ebml_GetEbmlLoc loc)] } : EbmlGlobal).setLoc
    loc w.offset

/-- Modelled from the spec: `setCursor(pos)` moves the write cursor to the
value of the `EbmlLoc` variable. -/
def Ebml_SetEbmlLoc (w : EbmlGlobal) (loc : LocVar) : EbmlGlobal :=
  { w with
      calls := w.calls ++ [(w.offset, Event.Ebml_SetEbmlLoc loc)]
      offset := w.getLoc loc }

/-- The function `_writeSeekElement`. -/
def _writeSeekElement (wd : Widths) (w : EbmlGlobal) (binaryId : EbmlID) (Loc : Nat) :
    EbmlGlobal :=
  let w1 := Ebml_StartSubElement wd w LocVar.seekStart EbmlID.Seek
  let w2 := Ebml_WriteBinary wd w1 EbmlID.SeekID binaryId
  let w3 := Ebml_SerializeUnsigned64 wd w2 EbmlID.SeekPosition Loc
  Ebml_EndSubElement w3 LocVar.seekStart

/-- The function `_writeMetaSeekInformation`. -/
def _writeMetaSeekInformation (wd : Widths) (w : EbmlGlobal) (trackLoc cueLoc clusterLoc : Nat)
    (firstWrite : Bool) : EbmlGlobal :=
  let w1 :=
    if firstWrite = true then Ebml_StartSubElement wd w LocVar.seekInfoLoc EbmlID.SeekHead
    else Ebml_SetEbmlLoc (Ebml_GetEbmlLoc w LocVar.globLoc) LocVar.seekInfoLoc
  let w2 := _writeSeekElement wd w1 EbmlID.Tracks trackLoc
  let w3 := _writeSeekElement wd w2 EbmlID.Cues cueLoc
  let w4 := _writeSeekElement wd w3 EbmlID.Cluster clusterLoc
  if firstWrite = true then Ebml_EndSubElement w4 LocVar.seekInfoLoc
  else Ebml_SetEbmlLoc w4 LocVar.globLoc

/-- The size in bytes of one `Seek` entry for the position `Loc`. -/
def seekSize (wd : Widths) (Loc : Nat) : Nat :=
  wd.id EbmlID.Seek + wd.placeholder + (wd.id EbmlID.SeekID + wd.binary) +
    (wd.id EbmlID.SeekPosition + wd.unsigned64 Loc)

/-- The calls of one `_writeSeekElement` made with the cursor at `at_`. -/
def seekCalls (wd : Widths) (at_ : Nat) (binaryId : EbmlID) (Loc : Nat) : List (Nat × Event) :=
  [(at_, Event.Ebml_StartSubElement LocVar.seekStart EbmlID.Seek),
   (at_ + wd.id EbmlID.Seek + wd.placeholder, Event.Ebml_WriteBinary EbmlID.SeekID binaryId),
   (at_ + wd.id EbmlID.Seek + wd.placeholder + (wd.id EbmlID.SeekID + wd.binary),
     Event.Ebml_SerializeUnsigned64 EbmlID.SeekPosition Loc),
   (at_ + seekSize wd Loc, Event.Ebml_EndSubElement LocVar.seekStart)]

/-- The calls of the three `Seek` entries (Tracks, Cues, Cluster, in that
order) written one after the other from the cursor `at_`. -/
def threeSeeks (wd : Widths) (at_ trackLoc cueLoc clusterLoc : Nat) : List (Nat × Event) :=
  seekCalls wd at_ EbmlID.Tracks trackLoc ++
  seekCalls wd (at_ + seekSize wd trackLoc) EbmlID.Cues cueLoc ++
  seekCalls wd (at_ + seekSize wd trackLoc + seekSize wd cueLoc) EbmlID.Cluster clusterLoc

/-- What `_writeMetaSeekInformation` does in the writer state `w`.

* With `firstWrite == false`: it reads the cursor into `globLoc`, moves the
  cursor to the location stored in `seekInfoLoc`, writes the three `Seek`
  entries from there, and moves the cursor back: the cursor is the one before
  the call and `seekInfoLoc` is unchanged.
* With `firstWrite == true`: it opens a `SeekHead` element at the cursor
  (through `seekInfoLoc`), writes the three `Seek` entries into it and closes
  it. -/
def SeekInfoWritten (wd : Widths) (w : EbmlGlobal) (trackLoc cueLoc clusterLoc : Nat) : Prop :=
  ((_writeMetaSeekInformation wd w trackLoc cueLoc clusterLoc false).offset = w.offset ∧
   (_writeMetaSeekInformation wd w trackLoc cueLoc clusterLoc false).seekInfoLoc =
      w.seekInfoLoc ∧
   (_writeMetaSeekInformation wd w trackLoc cueLoc clusterLoc false).calls =
      w.calls ++
        [(w.offset, Event.Ebml_GetEbmlLoc LocVar.globLoc),
         (w.offset, Event.Ebml_SetEbmlLoc LocVar.seekInfoLoc)] ++
        threeSeeks wd w.seekInfoLoc trackLoc cueLoc clusterLoc ++
        [(w.seekInfoLoc + seekSize wd trackLoc + seekSize wd cueLoc + seekSize wd clusterLoc,
          Event.Ebml_SetEbmlLoc LocVar.globLoc)]) ∧
  ((_writeMetaSeekInformation wd w trackLoc cueLoc clusterLoc true).calls =
      w.calls ++
        [(w.offset, Event.Ebml_StartSubElement LocVar.seekInfoLoc EbmlID.SeekHead)] ++
        threeSeeks wd (w.offset + wd.id EbmlID.SeekHead + wd.placeholder)
          trackLoc cueLoc clusterLoc ++
        [(w.offset + wd.id EbmlID.SeekHead + wd.placeholder + seekSize wd trackLoc +
            seekSize wd cueLoc + seekSize wd clusterLoc,
          Event.Ebml_EndSubElement LocVar.seekInfoLoc)] ∧
   (_writeMetaSeekInformation wd w trackLoc cueLoc clusterLoc true).offset =
      w.offset + wd.id EbmlID.SeekHead + wd.placeholder + seekSize wd trackLoc +
        seekSize wd cueLoc + seekSize wd clusterLoc)

/-- Whether the queued sample of the stream is written as a key frame. -/
def keyOf (gs : GenericStream) : Bool :=
  if gs.trackType = VideoMediaType then decide (gs.vid.frame_type = kICMFrameType_I) else true

/-- Whether the sample `p`, still with the scripted producer of `gs`, will be
written as a key frame. -/
def pendingKey (gs : GenericStream) (p : Pending) : Bool :=
  if gs.trackType = VideoMediaType then decide (p.frame_type = kICMFrameType_I) else true

/-- The samples of a scripted stream that are still to be written, in the
order in which its producer yields them, each with its time and whether it is
a key sample: the sample queued, if any, then the samples the producer still
holds. -/
def remaining (gs : GenericStream) : List (ULong × Bool) :=
  (if gs.source.bQdFrame = true then [(gs.source.blockTimeMs, keyOf gs)] else []) ++
    gs.source.refCon.map fun p => (p.timeMs, pendingKey gs p)

/-- A scripted stream in a state the scheduler can meet: it is a video or
audio stream; its producer will not fail and yields samples at times below
`ULONG_MAX`; when no sample is queued, `blockTimeMs` already holds the time of
the next sample of the producer; at end of stream nothing is queued and the
producer holds nothing. -/
structure ScriptWF (gs : GenericStream) : Prop where
  av : isAV gs
  script : ∀ p ∈ gs.source.refCon, p.err = 0 ∧ p.timeMs.val < 4294967295
  queued : gs.source.bQdFrame = true → gs.source.blockTimeMs.val < 4294967295
  next : gs.source.bQdFrame = false →
    ∀ p rest, gs.source.refCon = p :: rest → gs.source.blockTimeMs = p.timeMs
  eos : gs.source.eos = true → gs.source.refCon = [] ∧ gs.source.bQdFrame = false

/-- The blocks of stream `i` among the blocks `l`, in the order written, each
with its time and its key-frame flag. -/
def writtenOf (i : Nat) (l : List Emitted) : List (ULong × Bool) :=
  (l.filter fun e => decide (e.iStream = i)).map fun e => (e.minTimeMs, e.isKeyFrame)

/-- The number of samples still to be written, over all streams. -/
def pendingTotal (streams : List GenericStream) : Nat :=
  (streams.map fun gs => (remaining gs).length).sum

/-- A loop state of a run on scripted streams: the loop is running, no error
is pending, video and audio are exported, and every stream is in a state
`ScriptWF`. -/
structure ScriptInv (s : Mux) : Prop where
  running : s.status = Status.running
  notDone : s.allStreamsDone = false
  err : s.err = 0
  bV : s.globals.bExportVideo = true
  bA : s.globals.bExportAudio = true
  wf : ∀ gs ∈ s.globals.streams, ScriptWF gs

/-- How far the state `s` has got with the streams `init` it started from:
for every stream, the samples it had to write at the start are the blocks
written for it so far followed by the samples it still has to write. -/
def Progress (init : List GenericStream) (s : Mux) : Prop :=
  s.globals.streams.length = init.length ∧
  ∀ i gs0 gs, init[i]? = some gs0 → s.globals.streams[i]? = some gs →
    remaining gs0 = writtenOf i s.emitted ++ remaining gs

/-- How the iteration started from loop state `s` ends.  It leaves the loop
through `break` exactly when its selection pass runs to the end and finds no
selectable stream, and then the result code is `0` when there is a stream at
all; it leaves through `goto bail` exactly when the pass does, with a result
code other than `0`; in every other case, and only then, it writes one block
and the loop goes on. -/
structure ExitLaw (env : Env) (s : Mux) : Prop where
  break_iff : (whileStep env s).status = Status.finished ↔
    (selectionPass env s).2.2 = false ∧
      ∀ gs ∈ (afterPass env s).globals.streams, ¬ selectable gs
  break_err : (whileStep env s).status = Status.finished → s.globals.streams ≠ [] →
    (whileStep env s).err = 0
  bail_iff : (whileStep env s).status = Status.bailed ↔ (selectionPass env s).2.2 = true
  bail_err : (whileStep env s).status = Status.bailed → (whileStep env s).err ≠ 0
  block_iff : (whileStep env s).status = Status.running ↔ ∃ e, Emits env s e

/-- The run of `muxStreams` on the scripted streams of `g`, which have
`pendingTotal g.streams` samples between them: each of the first
`pendingTotal g.streams` iterations writes one block; the next iteration
leaves the loop; `muxStreams` then returns `0`, having written as many blocks
as there were samples, and the blocks of each stream are the samples of its
producer, in the order produced. -/
structure ScriptedRun (z : Bool) (g : WebMExportGlobals) : Prop where
  blocks : ∀ k, k < pendingTotal g.streams →
    (whileLoop (scriptEnv z) k (beforeLoop (scriptEnv z) g)).status = Status.running ∧
    ∃ e, Emits (scriptEnv z) (whileLoop (scriptEnv z) k (beforeLoop (scriptEnv z) g)) e
  last :
    (whileLoop (scriptEnv z) (pendingTotal g.streams) (beforeLoop (scriptEnv z) g)).status =
      Status.running ∧
    (whileLoop (scriptEnv z) (pendingTotal g.streams + 1) (beforeLoop (scriptEnv z) g)).status =
      Status.finished
  result : ∀ k, muxStreams (scriptEnv z) g (pendingTotal g.streams + 1 + k) = some 0
  count : ∀ k,
    (muxRun (scriptEnv z) g (pendingTotal g.streams + 1 + k)).emitted.length =
      pendingTotal g.streams
  order : ∀ k i gs0, g.streams[i]? = some gs0 →
    writtenOf i (muxRun (scriptEnv z) g (pendingTotal g.streams + 1 + k)).emitted =
      remaining gs0

/-! ## The selection pass -/

theorem video_ne_sound : VideoMediaType ≠ SoundMediaType := by decide

theorem source_video {gs : GenericStream} (h : gs.trackType = VideoMediaType) :
    gs.source = gs.vid.source := by
  simp [GenericStream.source, h]

theorem source_sound {gs : GenericStream} (h : gs.trackType = SoundMediaType) :
    gs.source = gs.aud.source := by
  have h2 : gs.trackType ≠ VideoMediaType := by
    rw [h]; exact fun e => video_ne_sound e.symm
  simp [GenericStream.source, h2]

theorem sound_ne_video : SoundMediaType ≠ VideoMediaType := by decide

theorem produceVideo_pos {env : Env} {bV : Bool} {i : Nat} {gs : GenericStream} {c : Sel}
    (h : gs.trackType = VideoMediaType ∧ gs.vid.source.bQdFrame = false ∧ bV = true) :
    produceVideo env bV i gs c =
      ({ gs with vid := (_compressVideo env gs.vid).2 },
       { c with
          err := (_compressVideo env gs.vid).1
          log := c.log ++ _compressVideoCalls i gs.vid
          startNewCluster :=
            if c.startNewCluster = false then
              decide ((_compressVideo env gs.vid).2.frame_type = kICMFrameType_I)
            else c.startNewCluster }) := by
  unfold produceVideo
  rw [if_pos h]

theorem produceVideo_neg {env : Env} {bV : Bool} {i : Nat} {gs : GenericStream} {c : Sel}
    (h : ¬ (gs.trackType = VideoMediaType ∧ gs.vid.source.bQdFrame = false ∧ bV = true)) :
    produceVideo env bV i gs c = (gs, c) := by
  unfold produceVideo
  rw [if_neg h]

theorem produceAudio_pos {env : Env} {bA : Bool} {i : Nat} {gs : GenericStream} {c : Sel}
    (h : gs.trackType = SoundMediaType ∧ gs.aud.source.bQdFrame = false ∧ bA = true) :
    produceAudio env bA i gs c =
      ({ gs with aud := (_compressAudio env gs.aud).2 },
       { c with
          err := (_compressAudio env gs.aud).1
          log := c.log ++ _compressAudioCalls i gs.aud }) := by
  unfold produceAudio
  rw [if_pos h]

theorem produceAudio_neg {env : Env} {bA : Bool} {i : Nat} {gs : GenericStream} {c : Sel}
    (h : ¬ (gs.trackType = SoundMediaType ∧ gs.aud.source.bQdFrame = false ∧ bA = true)) :
    produceAudio env bA i gs c = (gs, c) := by
  unfold produceAudio
  rw [if_neg h]

/-- A visit that asks the video encoder. -/
theorem produce_video {env : Env} {bV bA : Bool} {i : Nat} {gs : GenericStream} {c : Sel}
    (h : gs.trackType = VideoMediaType ∧ gs.vid.source.bQdFrame = false ∧ bV = true) :
    produce env bV bA i gs c =
      ({ gs with vid := (_compressVideo env gs.vid).2 },
       { c with
          err := (_compressVideo env gs.vid).1
          log := c.log ++ _compressVideoCalls i gs.vid
          startNewCluster :=
            if c.startNewCluster = false then
              decide ((_compressVideo env gs.vid).2.frame_type = kICMFrameType_I)
            else c.startNewCluster }) := by
  unfold produce
  rw [produceVideo_pos h]
  apply produceAudio_neg
  intro h2
  have h3 : gs.trackType = SoundMediaType := h2.1
  rw [h.1] at h3
  exact video_ne_sound h3

/-- A visit that asks the audio encoder. -/
theorem produce_audio {env : Env} {bV bA : Bool} {i : Nat} {gs : GenericStream} {c : Sel}
    (h : gs.trackType = SoundMediaType ∧ gs.aud.source.bQdFrame = false ∧ bA = true) :
    produce env bV bA i gs c =
      ({ gs with aud := (_compressAudio env gs.aud).2 },
       { c with
          err := (_compressAudio env gs.aud).1
          log := c.log ++ _compressAudioCalls i gs.aud }) := by
  unfold produce
  have h1 : ¬ (gs.trackType = VideoMediaType ∧ gs.vid.source.bQdFrame = false ∧ bV = true) := by
    intro h2
    have h3 := h2.1
    rw [h.1] at h3
    exact sound_ne_video h3
  rw [produceVideo_neg h1]
  exact produceAudio_pos h

/-- A visit that asks no encoder. -/
theorem produce_none {env : Env} {bV bA : Bool} {i : Nat} {gs : GenericStream} {c : Sel}
    (h1 : ¬ (gs.trackType = VideoMediaType ∧ gs.vid.source.bQdFrame = false ∧ bV = true))
    (h2 : ¬ (gs.trackType = SoundMediaType ∧ gs.aud.source.bQdFrame = false ∧ bA = true)) :
    produce env bV bA i gs c = (gs, c) := by
  unfold produce
  rw [produceVideo_neg h1]
  exact produceAudio_neg h2

theorem produce_fst (env : Env) (bV bA : Bool) (i : Nat) (gs : GenericStream) (c : Sel) :
    (produce env bV bA i gs c).1 = produceStream env bV bA gs := by
  unfold produceStream
  by_cases h1 : gs.trackType = VideoMediaType ∧ gs.vid.source.bQdFrame = false ∧ bV = true
  · rw [produce_video h1, produce_video h1]
  · by_cases h3 : gs.trackType = SoundMediaType ∧ gs.aud.source.bQdFrame = false ∧ bA = true
    · rw [produce_audio h3, produce_audio h3]
    · rw [produce_none h1 h3, produce_none h1 h3]

theorem produceStream_trackType (env : Env) (bV bA : Bool) (gs : GenericStream) :
    (produceStream env bV bA gs).trackType = gs.trackType := by
  unfold produceStream
  by_cases h1 : gs.trackType = VideoMediaType ∧ gs.vid.source.bQdFrame = false ∧ bV = true
  · rw [produce_video h1]
  · by_cases h3 : gs.trackType = SoundMediaType ∧ gs.aud.source.bQdFrame = false ∧ bA = true
    · rw [produce_audio h3]
    · rw [produce_none h1 h3]

theorem smallerTime_video {gs : GenericStream} (h : gs.trackType = VideoMediaType) (m : ULong) :
    smallerTime gs m = true ↔ gs.source.blockTimeMs.val < m.val := by
  rw [source_video h]
  simp [smallerTime, h]

theorem smallerTime_sound {gs : GenericStream} (h : gs.trackType = SoundMediaType) (m : ULong) :
    smallerTime gs m = true ↔ gs.source.blockTimeMs.val ≤ m.val := by
  rw [source_sound h]
  have h2 : ¬ gs.trackType = VideoMediaType := by
    rw [h]; exact sound_ne_video
  simp [smallerTime, h, sound_ne_video]

theorem smallerTime_isAV {gs : GenericStream} {m : ULong} (h : smallerTime gs m = true) :
    isAV gs := by
  by_cases hv : gs.trackType = VideoMediaType
  · exact Or.inl hv
  · by_cases hs : gs.trackType = SoundMediaType
    · exact Or.inr hs
    · simp [smallerTime, hv, hs] at h

theorem selectable_iff_video {gs : GenericStream} (h : gs.trackType = VideoMediaType) :
    selectable gs ↔ gs.source.bQdFrame = true ∧ gs.source.blockTimeMs.val < 4294967295 := by
  rw [source_video h]
  have h2 : ¬ gs.trackType = SoundMediaType := by
    rw [h]; exact video_ne_sound
  simp [selectable, h, sound_ne_video, video_ne_sound]

theorem selectable_iff_sound {gs : GenericStream} (h : gs.trackType = SoundMediaType) :
    selectable gs ↔ gs.source.bQdFrame = true := by
  rw [source_sound h]
  have h2 : ¬ gs.trackType = VideoMediaType := by
    rw [h]; exact sound_ne_video
  simp [selectable, h, sound_ne_video, video_ne_sound]

theorem selectable_isAV {gs : GenericStream} (h : selectable gs) : isAV gs := by
  rcases h with h | h
  · exact Or.inr h.1
  · exact Or.inl h.1

theorem ulong_le_max (t : ULong) : t.val ≤ 4294967295 := by
  have := t.isLt
  omega

theorem ULONG_MAX_val : ULONG_MAX.val = 4294967295 := rfl

/-- The invariant holds before the first stream is visited. -/
theorem passInv_init (err : ComponentResult) (flag : Bool) (log : List Event) :
    PassInv []
      { err := err, startNewCluster := flag, minTimeMs := ULONG_MAX, minTimeStream := none,
        allStreamsDone := true, log := log } where
  none_min := fun _ => rfl
  none_sel := fun _ gs hgs => by simp at hgs
  some_win := fun i h => by simp at h
  le_all := fun gs hgs => by simp at hgs
  tie := fun i gs h => by simp at h
  flag := by simp

/-- The comparison of lines 450-461 keeps the invariant. -/
theorem passInv_step {done : List GenericStream} {c : Sel} (inv : PassInv done c)
    (gs : GenericStream) (herr : c.err = 0) :
    PassInv (done ++ [gs]) (consider done.length gs c) := by
  unfold consider
  by_cases hsel : smallerTime gs c.minTimeMs = true ∧ gs.source.bQdFrame = true ∧ c.err = 0
  · rw [if_pos hsel]
    have hav := smallerTime_isAV hsel.1
    have hle : gs.source.blockTimeMs.val ≤ c.minTimeMs.val := by
      rcases hav with hv | hs
      · exact le_of_lt ((smallerTime_video hv _).1 hsel.1)
      · exact (smallerTime_sound hs _).1 hsel.1
    refine ⟨?_, ?_, ?_, ?_, ?_, ?_⟩
    · intro h; simp at h
    · intro h; simp at h
    · intro i hi
      simp only [Option.some.injEq] at hi
      subst hi
      refine ⟨gs, by simp, hav, hsel.2.1, rfl, ?_⟩
      rcases hav with hv | hs
      · rw [selectable_iff_video hv]
        have h1 := (smallerTime_video hv _).1 hsel.1
        have h2 := ulong_le_max c.minTimeMs
        exact ⟨hsel.2.1, by omega⟩
      · rw [selectable_iff_sound hs]
        exact hsel.2.1
    · intro g hg hgav hgq
      simp only [List.mem_append, List.mem_singleton] at hg
      rcases hg with hg | hg
      · exact le_trans hle (inv.le_all g hg hgav hgq)
      · subst hg; exact le_refl _
    · intro i w hi hw hwv a ha has haq
      simp only [Option.some.injEq] at hi
      subst hi
      have hw2 : w = gs := by simpa using hw.symm
      subst hw2
      have hlt := (smallerTime_video hwv _).1 hsel.1
      simp only [List.mem_append, List.mem_singleton] at ha
      rcases ha with ha | ha
      · exact lt_of_lt_of_le hlt (inv.le_all a ha (Or.inr has) haq)
      · subst ha
        rw [hwv] at has
        exact absurd has video_ne_sound
    · simp
  · rw [if_neg hsel]
    have hnot : gs.source.bQdFrame = true → smallerTime gs c.minTimeMs ≠ true :=
      fun hq hs => hsel ⟨hs, hq, herr⟩
    refine ⟨inv.none_min, ?_, ?_, ?_, ?_, inv.flag⟩
    · intro hnone g hg
      simp only [List.mem_append, List.mem_singleton] at hg
      rcases hg with hg | hg
      · exact inv.none_sel hnone g hg
      · subst hg
        intro hs
        have hmax := inv.none_min hnone
        rcases selectable_isAV hs with hv | hso
        · have h2 := (selectable_iff_video hv).1 hs
          apply hnot h2.1
          rw [smallerTime_video hv, hmax, ULONG_MAX_val]
          exact h2.2
        · have h2 := (selectable_iff_sound hso).1 hs
          apply hnot h2
          rw [smallerTime_sound hso, hmax, ULONG_MAX_val]
          exact ulong_le_max _
    · intro i hi
      obtain ⟨w, hw, hwav, hwq, hwt, hws⟩ := inv.some_win i hi
      refine ⟨w, ?_, hwav, hwq, hwt, hws⟩
      have hlt : i < done.length := by
        rcases Nat.lt_or_ge i done.length with h | h
        · exact h
        · rw [List.getElem?_eq_none h] at hw
          simp at hw
      rw [List.getElem?_append_left hlt]
      exact hw
    · intro g hg hgav hgq
      simp only [List.mem_append, List.mem_singleton] at hg
      rcases hg with hg | hg
      · exact inv.le_all g hg hgav hgq
      · subst hg
        have hn := hnot hgq
        rcases hgav with hv | hs
        · rw [Ne, smallerTime_video hv] at hn
          omega
        · rw [Ne, smallerTime_sound hs] at hn
          omega
    · intro i w hi hw hwv a ha has haq
      obtain ⟨w2, hw2, _⟩ := inv.some_win i hi
      have hlt : i < done.length := by
        rcases Nat.lt_or_ge i done.length with h | h
        · exact h
        · rw [List.getElem?_eq_none h] at hw2
          simp at hw2
      rw [List.getElem?_append_left hlt] at hw
      simp only [List.mem_append, List.mem_singleton] at ha
      rcases ha with ha | ha
      · exact inv.tie i w hi hw hwv a ha has haq
      · subst ha
        have hn := hnot haq
        rw [Ne, smallerTime_sound has] at hn
        omega

theorem forStreams_nil (env : Env) (bV bA : Bool) (done : List GenericStream) (c : Sel) :
    forStreams env bV bA done [] c = (done, c, false) := rfl

theorem forStreams_cons_bail {env : Env} {bV bA : Bool} {done todo : List GenericStream}
    {gs : GenericStream} {c : Sel} (h : (produce env bV bA done.length gs c).2.err ≠ 0) :
    forStreams env bV bA done (gs :: todo) c =
      (done ++ (produce env bV bA done.length gs c).1 :: todo,
       (produce env bV bA done.length gs c).2, true) := by
  rw [forStreams]
  simp only [if_pos h]

theorem forStreams_cons_go {env : Env} {bV bA : Bool} {done todo : List GenericStream}
    {gs : GenericStream} {c : Sel} (h : ¬ (produce env bV bA done.length gs c).2.err ≠ 0) :
    forStreams env bV bA done (gs :: todo) c =
      forStreams env bV bA (done ++ [(produce env bV bA done.length gs c).1]) todo
        (consider done.length (produce env bV bA done.length gs c).1
          (produce env bV bA done.length gs c).2) := by
  rw [forStreams]
  simp only [if_neg h]

theorem consider_err (i : Nat) (gs : GenericStream) (c : Sel) : (consider i gs c).err = c.err := by
  unfold consider
  split_ifs <;> rfl

theorem consider_log (i : Nat) (gs : GenericStream) (c : Sel) : (consider i gs c).log = c.log := by
  unfold consider
  split_ifs <;> rfl

theorem consider_startNewCluster (i : Nat) (gs : GenericStream) (c : Sel) :
    (consider i gs c).startNewCluster = c.startNewCluster := by
  unfold consider
  split_ifs <;> rfl

/-- Asking a producer leaves the running minimum alone. -/
theorem produce_min (env : Env) (bV bA : Bool) (i : Nat) (gs : GenericStream) (c : Sel) :
    (produce env bV bA i gs c).2.minTimeMs = c.minTimeMs ∧
    (produce env bV bA i gs c).2.minTimeStream = c.minTimeStream ∧
    (produce env bV bA i gs c).2.allStreamsDone = c.allStreamsDone := by
  by_cases h1 : gs.trackType = VideoMediaType ∧ gs.vid.source.bQdFrame = false ∧ bV = true
  · rw [produce_video h1]
    exact ⟨rfl, rfl, rfl⟩
  · by_cases h3 : gs.trackType = SoundMediaType ∧ gs.aud.source.bQdFrame = false ∧ bA = true
    · rw [produce_audio h3]
      exact ⟨rfl, rfl, rfl⟩
    · rw [produce_none h1 h3]
      exact ⟨rfl, rfl, rfl⟩

/-- The invariant only reads the running minimum. -/
theorem PassInv.congr {done : List GenericStream} {c c2 : Sel} (inv : PassInv done c)
    (h1 : c2.minTimeMs = c.minTimeMs) (h2 : c2.minTimeStream = c.minTimeStream)
    (h3 : c2.allStreamsDone = c.allStreamsDone) : PassInv done c2 where
  none_min := by rw [h1, h2]; exact inv.none_min
  none_sel := by rw [h2]; exact inv.none_sel
  some_win := by rw [h1, h2]; exact inv.some_win
  le_all := by rw [h1]; exact inv.le_all
  tie := by rw [h1, h2]; exact inv.tie
  flag := by rw [h2, h3]; exact inv.flag

/-- A pass that does not leave through `goto bail` visits every stream, keeps
the invariant and ends with `err` clear. -/
theorem forStreams_ok (env : Env) (bV bA : Bool) (todo : List GenericStream) :
    ∀ (done : List GenericStream) (c : Sel), PassInv done c →
      (forStreams env bV bA done todo c).2.2 = false →
      (forStreams env bV bA done todo c).1 = done ++ todo.map (produceStream env bV bA) ∧
      PassInv (forStreams env bV bA done todo c).1 (forStreams env bV bA done todo c).2.1 ∧
      (todo ≠ [] → (forStreams env bV bA done todo c).2.1.err = 0) := by
  induction todo with
  | nil =>
    intro done c inv _
    simp [forStreams_nil, inv]
  | cons gs todo ih =>
    intro done c inv hb
    by_cases h : (produce env bV bA done.length gs c).2.err ≠ 0
    · rw [forStreams_cons_bail h] at hb
      simp at hb
    · rw [forStreams_cons_go h] at hb ⊢
      have herr : (produce env bV bA done.length gs c).2.err = 0 := not_not.1 h
      have ih2 := ih _ _ ?_ hb
      · refine ⟨?_, ih2.2.1, ?_⟩
        · rw [ih2.1, produce_fst]
          simp
        · intro _
          by_cases ht : todo = []
          · subst ht
            rw [forStreams_nil]
            simp only
            rw [consider_err]
            exact herr
          · exact ih2.2.2 ht
      · have hm := produce_min env bV bA done.length gs c
        exact passInv_step (inv.congr hm.1 hm.2.1 hm.2.2) _ herr

/-! ## Normal forms of the writing steps -/

theorem startNewCluster_eq (env : Env) (s : Mux) :
    _startNewCluster env s =
      { s with
          log := s.log ++ clusterCalls s.globals.clusterTime
          offset := (clusterCalls s.globals.clusterTime).foldl env.ebmlOffset s.offset } := by
  unfold _startNewCluster clusterCalls
  by_cases h : s.globals.clusterTime ≠ 0
  · simp [h, ebmlCall]
  · simp [h, ebmlCall]

theorem updateProgressBar_eq (env : Env) (s : Mux) (p : Percent) :
    (_updateProgressBar env s p).1 =
      { s with
          log := s.log ++ progressCalls env s.globals p
          globals := { s.globals with progressOpen := true } } := by
  unfold _updateProgressBar progressCalls
  cases s with
  | mk g o e m ms a sn b f l em st =>
  cases g with
  | mk st bv ba hv ha po pp ct cc ch sc =>
  cases po <;> cases pp <;> simp <;> split_ifs <;> simp


theorem openCluster_eq (env : Env) (s : Mux) :
    openCluster env s =
      if clusterDecision s = true then
        { s with
            globals := { s.globals with clusterTime := s.minTimeMs }
            blocksInCluster := 0
            startNewCluster := false
            log := s.log ++ clusterCalls s.minTimeMs
            offset := (clusterCalls s.minTimeMs).foldl env.ebmlOffset s.offset }
      else s := by
  unfold openCluster
  split_ifs
  · simp only [startNewCluster_eq]
  · rfl

theorem writeWinner_video (env : Env) (s : Mux) (i : Nat) (gs : GenericStream) (o : Offset64)
    (hv : gs.trackType = VideoMediaType) :
    writeWinner env s i gs o =
      { s with
          globals :=
            if gs.vid.frame_type = kICMFrameType_I then
              _addCue { s.globals with streams := s.globals.streams.set i (writtenStream env gs) }
                (cueLoc o s.firstL1Offset) s.globals.clusterTime gs.vid.source.trackID
                (s.blocksInCluster + 1)
            else { s.globals with streams := s.globals.streams.set i (writtenStream env gs) }
          log := s.log ++ [blockCall gs s.globals.clusterTime]
          offset := env.ebmlOffset s.offset (blockCall gs s.globals.clusterTime)
          blocksInCluster := s.blocksInCluster + 1 } := by
  unfold writeWinner _writeVideo setStream blockCall writtenStream ebmlCall
  simp only [if_pos hv]
  split_ifs <;> rfl

theorem writeWinner_sound (env : Env) (s : Mux) (i : Nat) (gs : GenericStream) (o : Offset64)
    (hs : gs.trackType = SoundMediaType) :
    writeWinner env s i gs o =
      { s with
          globals := { s.globals with streams := s.globals.streams.set i (writtenStream env gs) }
          log := s.log ++ [blockCall gs s.globals.clusterTime]
          offset := env.ebmlOffset s.offset (blockCall gs s.globals.clusterTime)
          blocksInCluster := s.blocksInCluster + 1 } := by
  have hv : ¬ gs.trackType = VideoMediaType := by rw [hs]; exact sound_ne_video
  unfold writeWinner _writeAudio setStream blockCall writtenStream ebmlCall
  simp only [if_neg hv, if_pos hs]

theorem addCue_frame (g : WebMExportGlobals) (loc : Nat) (t : ULong) (tr bn : Nat) :
    (_addCue g loc t tr bn).streams = g.streams ∧
    (_addCue g loc t tr bn).bExportVideo = g.bExportVideo ∧
    (_addCue g loc t tr bn).bExportAudio = g.bExportAudio ∧
    (_addCue g loc t tr bn).clusterTime = g.clusterTime ∧
    (_addCue g loc t tr bn).progressProc = g.progressProc ∧
    (_addCue g loc t tr bn).cueCount = g.cueCount + 1 :=
  ⟨rfl, rfl, rfl, rfl, rfl, rfl⟩

/-- The time of the cluster the block of this iteration goes into. -/
theorem openCluster_clusterTime (env : Env) (s : Mux) :
    (openCluster env s).globals.clusterTime =
      if clusterDecision s = true then s.minTimeMs else s.globals.clusterTime := by
  rw [openCluster_eq]
  split_ifs <;> rfl

theorem openCluster_frame (env : Env) (s : Mux) :
    (openCluster env s).status = s.status ∧ (openCluster env s).err = s.err ∧
    (openCluster env s).minTimeMs = s.minTimeMs ∧
    (openCluster env s).minTimeStream = s.minTimeStream ∧
    (openCluster env s).allStreamsDone = s.allStreamsDone ∧
    (openCluster env s).firstL1Offset = s.firstL1Offset ∧
    (openCluster env s).emitted = s.emitted ∧
    (openCluster env s).globals.streams = s.globals.streams ∧
    (openCluster env s).globals.bExportVideo = s.globals.bExportVideo ∧
    (openCluster env s).globals.bExportAudio = s.globals.bExportAudio ∧
    (openCluster env s).globals.cueCount = s.globals.cueCount ∧
    (openCluster env s).globals.cueHandle = s.globals.cueHandle ∧
    (openCluster env s).globals.progressProc = s.globals.progressProc := by
  rw [openCluster_eq]
  split_ifs <;> exact ⟨rfl, rfl, rfl, rfl, rfl, rfl, rfl, rfl, rfl, rfl, rfl, rfl, rfl⟩

theorem writeWinner_frame (env : Env) (s : Mux) (i : Nat) (gs : GenericStream) (o : Offset64)
    (hav : isAV gs) :
    (writeWinner env s i gs o).status = s.status ∧ (writeWinner env s i gs o).err = s.err ∧
    (writeWinner env s i gs o).minTimeMs = s.minTimeMs ∧
    (writeWinner env s i gs o).minTimeStream = s.minTimeStream ∧
    (writeWinner env s i gs o).allStreamsDone = s.allStreamsDone ∧
    (writeWinner env s i gs o).firstL1Offset = s.firstL1Offset ∧
    (writeWinner env s i gs o).emitted = s.emitted ∧
    (writeWinner env s i gs o).startNewCluster = s.startNewCluster ∧
    (writeWinner env s i gs o).globals.streams = s.globals.streams.set i (writtenStream env gs) ∧
    (writeWinner env s i gs o).globals.bExportVideo = s.globals.bExportVideo ∧
    (writeWinner env s i gs o).globals.bExportAudio = s.globals.bExportAudio ∧
    (writeWinner env s i gs o).globals.clusterTime = s.globals.clusterTime ∧
    (writeWinner env s i gs o).globals.progressProc = s.globals.progressProc ∧
    (writeWinner env s i gs o).log = s.log ++ [blockCall gs s.globals.clusterTime] := by
  rcases hav with hv | hs
  · rw [writeWinner_video env s i gs o hv]
    split_ifs <;> exact ⟨rfl, rfl, rfl, rfl, rfl, rfl, rfl, rfl, rfl, rfl, rfl, rfl, rfl, rfl⟩
  · rw [writeWinner_sound env s i gs o hs]
    exact ⟨rfl, rfl, rfl, rfl, rfl, rfl, rfl, rfl, rfl, rfl, rfl, rfl, rfl, rfl⟩

/-- The state after the winner has been written, in terms of the two steps
before it. -/
theorem emitBlock_eq (env : Env) (s : Mux) (i : Nat) (gs : GenericStream) (o : Offset64)
    (hav : isAV gs) :
    emitBlock env s i gs o =
      if env.durationIsZero = false then
        { writeWinner env (openCluster env s) i gs o with
            emitted := (writeWinner env (openCluster env s) i gs o).emitted ++
              [emittedRecord (openCluster env s) i gs (clusterDecision s) o]
            offset := env.ebmlOffset (writeWinner env (openCluster env s) i gs o).offset
              (Event.Ebml_EndSubElement LocVar.clusterStart)
            log := (writeWinner env (openCluster env s) i gs o).log ++
              [Event.Ebml_EndSubElement LocVar.clusterStart] ++
              progressCalls env (writeWinner env (openCluster env s) i gs o).globals
                (Percent.ratio (writeWinner env (openCluster env s) i gs o).minTimeMs)
            globals :=
              { (writeWinner env (openCluster env s) i gs o).globals with progressOpen := true } }
      else
        { writeWinner env (openCluster env s) i gs o with
            emitted := (writeWinner env (openCluster env s) i gs o).emitted ++
              [emittedRecord (openCluster env s) i gs (clusterDecision s) o]
            offset := env.ebmlOffset (writeWinner env (openCluster env s) i gs o).offset
              (Event.Ebml_EndSubElement LocVar.clusterStart)
            log := (writeWinner env (openCluster env s) i gs o).log ++
              [Event.Ebml_EndSubElement LocVar.clusterStart] } := by
  have hav2 : gs.trackType = VideoMediaType ∨ gs.trackType = SoundMediaType := hav
  unfold emitBlock
  simp only [if_pos hav2, updateProgressBar_eq, ebmlCall]

/-- What writing the winner changes and what it leaves alone. -/
theorem emitBlock_frame (env : Env) (s : Mux) (i : Nat) (gs : GenericStream) (o : Offset64)
    (hav : isAV gs) :
    (emitBlock env s i gs o).status = s.status ∧ (emitBlock env s i gs o).err = s.err ∧
    (emitBlock env s i gs o).minTimeMs = s.minTimeMs ∧
    (emitBlock env s i gs o).minTimeStream = s.minTimeStream ∧
    (emitBlock env s i gs o).allStreamsDone = s.allStreamsDone ∧
    (emitBlock env s i gs o).firstL1Offset = s.firstL1Offset ∧
    (emitBlock env s i gs o).emitted =
      s.emitted ++ [emittedRecord (openCluster env s) i gs (clusterDecision s) o] ∧
    (emitBlock env s i gs o).globals.streams = s.globals.streams.set i (writtenStream env gs) ∧
    (emitBlock env s i gs o).globals.bExportVideo = s.globals.bExportVideo ∧
    (emitBlock env s i gs o).globals.bExportAudio = s.globals.bExportAudio ∧
    (emitBlock env s i gs o).globals.clusterTime = (openCluster env s).globals.clusterTime ∧
    (emitBlock env s i gs o).globals.progressProc = s.globals.progressProc := by
  have hw := writeWinner_frame env (openCluster env s) i gs o hav
  have ho := openCluster_frame env s
  rw [emitBlock_eq env s i gs o hav]
  split_ifs
  · refine ⟨?_, ?_, ?_, ?_, ?_, ?_, ?_, ?_, ?_, ?_, ?_, ?_⟩
    · exact hw.1.trans ho.1
    · exact hw.2.1.trans ho.2.1
    · exact hw.2.2.1.trans ho.2.2.1
    · exact hw.2.2.2.1.trans ho.2.2.2.1
    · exact hw.2.2.2.2.1.trans ho.2.2.2.2.1
    · exact hw.2.2.2.2.2.1.trans ho.2.2.2.2.2.1
    · show (writeWinner env (openCluster env s) i gs o).emitted ++ _ = _
      rw [hw.2.2.2.2.2.2.1, ho.2.2.2.2.2.2.1]
    · show (writeWinner env (openCluster env s) i gs o).globals.streams = _
      rw [hw.2.2.2.2.2.2.2.2.1, ho.2.2.2.2.2.2.2.1]
    · exact hw.2.2.2.2.2.2.2.2.2.1.trans ho.2.2.2.2.2.2.2.2.1
    · exact hw.2.2.2.2.2.2.2.2.2.2.1.trans ho.2.2.2.2.2.2.2.2.2.1
    · exact hw.2.2.2.2.2.2.2.2.2.2.2.1
    · exact hw.2.2.2.2.2.2.2.2.2.2.2.2.1.trans ho.2.2.2.2.2.2.2.2.2.2.2.2
  · refine ⟨?_, ?_, ?_, ?_, ?_, ?_, ?_, ?_, ?_, ?_, ?_, ?_⟩
    · exact hw.1.trans ho.1
    · exact hw.2.1.trans ho.2.1
    · exact hw.2.2.1.trans ho.2.2.1
    · exact hw.2.2.2.1.trans ho.2.2.2.1
    · exact hw.2.2.2.2.1.trans ho.2.2.2.2.1
    · exact hw.2.2.2.2.2.1.trans ho.2.2.2.2.2.1
    · show (writeWinner env (openCluster env s) i gs o).emitted ++ _ = _
      rw [hw.2.2.2.2.2.2.1, ho.2.2.2.2.2.2.1]
    · show (writeWinner env (openCluster env s) i gs o).globals.streams = _
      rw [hw.2.2.2.2.2.2.2.2.1, ho.2.2.2.2.2.2.2.1]
    · exact hw.2.2.2.2.2.2.2.2.2.1.trans ho.2.2.2.2.2.2.2.2.1
    · exact hw.2.2.2.2.2.2.2.2.2.2.1.trans ho.2.2.2.2.2.2.2.2.2.1
    · exact hw.2.2.2.2.2.2.2.2.2.2.2.1
    · exact hw.2.2.2.2.2.2.2.2.2.2.2.2.1.trans ho.2.2.2.2.2.2.2.2.2.2.2.2

/-! ## One iteration of the loop -/


theorem selectionPass_ok (env : Env) (s : Mux) (h : (selectionPass env s).2.2 = false) :
    (selectionPass env s).1 =
      s.globals.streams.map (produceStream env s.globals.bExportVideo s.globals.bExportAudio) ∧
    PassInv (selectionPass env s).1 (selectionPass env s).2.1 ∧
    (s.globals.streams ≠ [] → (selectionPass env s).2.1.err = 0) := by
  have h2 := forStreams_ok env s.globals.bExportVideo s.globals.bExportAudio s.globals.streams []
    _ (passInv_init s.err s.startNewCluster s.log) h
  simpa using h2

theorem loopBody_bail {env : Env} {s : Mux} (h : (selectionPass env s).2.2 = true) :
    loopBody env s = { afterPass env s with status := Status.bailed } := by
  unfold loopBody
  simp only [if_pos h]

theorem loopBody_none {env : Env} {s : Mux} (h : (selectionPass env s).2.2 = false)
    (hn : (afterPass env s).minTimeStream = none) :
    loopBody env s = { afterPass env s with status := Status.finished } := by
  unfold loopBody
  have h2 : ¬ (selectionPass env s).2.2 = true := by simp [h]
  simp only [if_neg h2, hn]

theorem loopBody_some {env : Env} {s : Mux} {i : Nat} {gs : GenericStream}
    (h : (selectionPass env s).2.2 = false)
    (hi : (afterPass env s).minTimeStream = some i)
    (hg : (afterPass env s).globals.streams[i]? = some gs) :
    loopBody env s = emitBlock env (afterPass env s) i gs s.offset := by
  unfold loopBody
  have h2 : ¬ (selectionPass env s).2.2 = true := by simp [h]
  simp only [if_neg h2, hi, hg]

theorem afterPass_streams (env : Env) (s : Mux) :
    (afterPass env s).globals.streams = (selectionPass env s).1 := rfl

theorem afterPass_minTimeStream (env : Env) (s : Mux) :
    (afterPass env s).minTimeStream = (selectionPass env s).2.1.minTimeStream := rfl

theorem afterPass_minTimeMs (env : Env) (s : Mux) :
    (afterPass env s).minTimeMs = (selectionPass env s).2.1.minTimeMs := rfl

/-- The invariant of a completed pass, read on the loop state. -/
theorem afterPass_inv (env : Env) (s : Mux) (h : (selectionPass env s).2.2 = false) :
    PassInv (afterPass env s).globals.streams (selectionPass env s).2.1 :=
  (selectionPass_ok env s h).2.1

theorem minimumSelected_of_pass (env : Env) (s : Mux) (h : (selectionPass env s).2.2 = false) :
    MinimumSelected (afterPass env s) := by
  have inv := afterPass_inv env s h
  constructor
  · constructor
    · intro hn
      exact inv.none_sel hn
    · intro hall
      cases hm : (afterPass env s).minTimeStream with
      | none => rfl
      | some i =>
        obtain ⟨w, hw, _, _, _, hws⟩ := inv.some_win i hm
        exact absurd hws (hall w (List.getElem?_mem hw))
  · intro i hi
    obtain ⟨w, hw, hwav, hwq, hwt, _⟩ := inv.some_win i hi
    exact ⟨w, hw, hwav, hwq, hwt.symm, inv.le_all⟩

/-- With a video and an audio sample queued at the minimum time, the pass
selects an audio stream and the iteration writes its block. -/
theorem audio_wins_tie (env : Env) (s : Mux) (v a : GenericStream) (t : ULong)
    (hpass : (selectionPass env s).2.2 = false)
    (hv : v ∈ (afterPass env s).globals.streams) (hvt : v.trackType = VideoMediaType)
    (ha : a ∈ (afterPass env s).globals.streams) (hat : a.trackType = SoundMediaType)
    (haq : a.source.bQdFrame = true) (hatime : a.source.blockTimeMs = t)
    (hmin : ∀ gs ∈ (afterPass env s).globals.streams, isAV gs → gs.source.bQdFrame = true →
      t.val ≤ gs.source.blockTimeMs.val) :
    AudioWrittenFirst env s v t := by
  have inv := afterPass_inv env s hpass
  have hsel : selectable a := (selectable_iff_sound hat).2 haq
  cases hm : (afterPass env s).minTimeStream with
  | none => exact absurd hsel (inv.none_sel hm a ha)
  | some i =>
    obtain ⟨w, hw, hwav, hwq, hwt, _⟩ := inv.some_win i hm
    have hle1 : (selectionPass env s).2.1.minTimeMs.val ≤ t.val := by
      rw [← hatime]; exact inv.le_all a ha (Or.inr hat) haq
    have hle2 : t.val ≤ (selectionPass env s).2.1.minTimeMs.val := by
      rw [← hwt]
      exact hmin w (List.getElem?_mem hw) hwav hwq
    have hwtime : w.source.blockTimeMs = t := by
      apply Fin.ext
      rw [hwt]
      omega
    have hws : w.trackType = SoundMediaType := by
      rcases hwav with hwv | hws
      · have hlt := inv.tie i w hm hw hwv a ha hat haq
        rw [hatime] at hlt
        omega
      · exact hws
    have hfr := emitBlock_frame env (afterPass env s) i w s.offset hwav
    refine ⟨i, w, emittedRecord (openCluster env (afterPass env s)) i w
      (clusterDecision (afterPass env s)) s.offset, hm, hw, hws, hwtime, ?_, rfl, hws, rfl, ?_, ?_⟩
    · rw [loopBody_some hpass hm hw]
      exact hfr.2.2.2.2.2.2.1
    · show (openCluster env (afterPass env s)).minTimeMs = t
      rw [(openCluster_frame env (afterPass env s)).2.2.1, afterPass_minTimeMs, ← hwt, hwtime]
    · rw [loopBody_some hpass hm hw, hfr.2.2.2.2.2.2.2.1]
      obtain ⟨j, hj⟩ := List.mem_iff_getElem?.1 hv
      have hne : i ≠ j := by
        intro hij
        subst hij
        rw [hw] at hj
        have h3 : w = v := by simpa using hj
        rw [h3, hvt] at hws
        exact video_ne_sound hws
      apply @List.getElem?_mem _ _ j
      rw [List.getElem?_set_ne hne]
      exact hj

/-! ## Streams across a pass -/

theorem produceStream_video {env : Env} {bV bA : Bool} {gs : GenericStream}
    (h : gs.trackType = VideoMediaType ∧ gs.vid.source.bQdFrame = false ∧ bV = true) :
    produceStream env bV bA gs = { gs with vid := (_compressVideo env gs.vid).2 } := by
  unfold produceStream
  rw [produce_video h]

theorem produceStream_audio {env : Env} {bV bA : Bool} {gs : GenericStream}
    (h : gs.trackType = SoundMediaType ∧ gs.aud.source.bQdFrame = false ∧ bA = true) :
    produceStream env bV bA gs = { gs with aud := (_compressAudio env gs.aud).2 } := by
  unfold produceStream
  rw [produce_audio h]

theorem produceStream_none {env : Env} {bV bA : Bool} {gs : GenericStream}
    (h1 : ¬ (gs.trackType = VideoMediaType ∧ gs.vid.source.bQdFrame = false ∧ bV = true))
    (h2 : ¬ (gs.trackType = SoundMediaType ∧ gs.aud.source.bQdFrame = false ∧ bA = true)) :
    produceStream env bV bA gs = gs := by
  unfold produceStream
  rw [produce_none h1 h2]

/-- A stream with a queued sample is not touched by the pass. -/
theorem produceStream_queued (env : Env) (bV bA : Bool) {gs : GenericStream}
    (hq : gs.source.bQdFrame = true) : produceStream env bV bA gs = gs := by
  apply produceStream_none
  · rintro ⟨hv, hnq, _⟩
    rw [source_video hv, hnq] at hq
    exact Bool.noConfusion hq
  · rintro ⟨hs, hnq, _⟩
    rw [source_sound hs, hnq] at hq
    exact Bool.noConfusion hq

/-- The result code left by a visit: that of the producer when one is asked,
the previous one otherwise. -/
theorem produce_err (env : Env) (bV bA : Bool) (i : Nat) (gs : GenericStream) (c : Sel) :
    (produce env bV bA i gs c).2.err = 0 → producerErr env bV bA gs = 0 := by
  intro h
  unfold producerErr
  by_cases h1 : gs.trackType = VideoMediaType ∧ gs.vid.source.bQdFrame = false ∧ bV = true
  · rw [produce_video h1] at h
    rw [if_pos h1]
    exact h
  · by_cases h3 : gs.trackType = SoundMediaType ∧ gs.aud.source.bQdFrame = false ∧ bA = true
    · rw [produce_audio h3] at h
      rw [if_neg h1, if_pos h3]
      exact h
    · rw [if_neg h1, if_neg h3]

theorem compressVideo_frame_type_of_call {env : Env} {vs : VideoStream}
    (h : ¬ (vs.source.bQdFrame = true ∨ vs.source.eos = true)) :
    (_compressVideo env vs).2.frame_type = (env.compressNextFrame vs).2.frame_type := by
  unfold _compressVideo
  rw [if_neg h]
  simp only
  split_ifs <;> rfl

/-- After a visit that did not fail, a video or audio stream has a sample
queued or is dormant. -/
theorem produceStream_queued_or_dormant (env : Env) (bV bA : Bool) (gs : GenericStream)
    (hav : isAV gs) (herr : producerErr env bV bA gs = 0) :
    (produceStream env bV bA gs).source.bQdFrame = true ∨
      Dormant bV bA (produceStream env bV bA gs) := by
  by_cases hq : gs.source.bQdFrame = true
  · left
    rw [produceStream_queued env bV bA hq]
    exact hq
  · have hq2 : gs.source.bQdFrame = false := by simpa using hq
    rcases hav with hv | hs
    · have hns : ¬ gs.trackType = SoundMediaType := by rw [hv]; exact video_ne_sound
      rw [source_video hv] at hq2
      by_cases hb : bV = true
      · rw [produceStream_video ⟨hv, hq2, hb⟩]
        by_cases he : gs.vid.source.eos = true
        · right
          have : _compressVideo env gs.vid = (noErr, gs.vid) := by
            unfold _compressVideo
            rw [if_pos (Or.inr he)]
          rw [this]
          refine ⟨?_, fun _ => Or.inr he, fun h => absurd h hns⟩
          rw [source_video (by exact hv)]
          exact hq2
        · have hcall : ¬ (gs.vid.source.bQdFrame = true ∨ gs.vid.source.eos = true) := by
            rw [hq2]; simp [he]
          have hcv : (_compressVideo env gs.vid).2 =
              if (env.compressNextFrame gs.vid).2.source.eos = false then
                { (env.compressNextFrame gs.vid).2 with
                    source := { (env.compressNextFrame gs.vid).2.source with bQdFrame := true } }
              else (env.compressNextFrame gs.vid).2 := by
            unfold _compressVideo
            rw [if_neg hcall]
          rw [hcv]
          by_cases he2 : (env.compressNextFrame gs.vid).2.source.eos = false
          · left
            rw [if_pos he2, source_video (by exact hv)]
          · rw [if_neg he2]
            have he3 : (env.compressNextFrame gs.vid).2.source.eos = true := by simpa using he2
            by_cases hq3 : (env.compressNextFrame gs.vid).2.source.bQdFrame = true
            · left
              rw [source_video (by exact hv)]
              exact hq3
            · right
              refine ⟨?_, fun _ => Or.inr he3, fun h => absurd h hns⟩
              rw [source_video (by exact hv)]
              simpa using hq3
      · right
        have hb2 : bV = false := by simpa using hb
        rw [produceStream_none (by simp [hb2]) (by simp [hns])]
        exact ⟨by rw [source_video hv]; exact hq2, fun _ => Or.inl hb2, fun h => absurd h hns⟩
    · have hnv : ¬ gs.trackType = VideoMediaType := by rw [hs]; exact sound_ne_video
      rw [source_sound hs] at hq2
      by_cases hb : bA = true
      · have hcond : gs.trackType = SoundMediaType ∧ gs.aud.source.bQdFrame = false ∧ bA = true :=
          ⟨hs, hq2, hb⟩
        have herr2 : (_compressAudio env gs.aud).1 = 0 := by
          unfold producerErr at herr
          rw [if_neg (by simp [hnv]), if_pos hcond] at herr
          exact herr
        rw [produceStream_audio hcond]
        have hnq : ¬ gs.aud.source.bQdFrame = true := by rw [hq2]; simp
        have hr : (env.compressAudio gs.aud).1 = 0 := by
          unfold _compressAudio at herr2
          rw [if_neg hnq] at herr2
          by_cases h0 : (env.compressAudio gs.aud).1 ≠ 0
          · simp only [if_pos h0] at herr2
            exact absurd herr2 h0
          · exact not_not.1 h0
        have hca : (_compressAudio env gs.aud).2 =
            if (env.compressAudio gs.aud).2.source.eos = false then
              { (env.compressAudio gs.aud).2 with
                  source := { (env.compressAudio gs.aud).2.source with bQdFrame := true } }
            else (env.compressAudio gs.aud).2 := by
          unfold _compressAudio
          rw [if_neg hnq]
          simp only [hr, ne_eq, not_true_eq_false, if_false]
        rw [hca]
        by_cases he2 : (env.compressAudio gs.aud).2.source.eos = false
        · left
          rw [if_pos he2, source_sound (by exact hs)]
        · rw [if_neg he2]
          have he3 : (env.compressAudio gs.aud).2.source.eos = true := by simpa using he2
          by_cases hq3 : (env.compressAudio gs.aud).2.source.bQdFrame = true
          · left
            rw [source_sound (by exact hs)]
            exact hq3
          · right
            refine ⟨?_, fun h => absurd h hnv, fun _ => Or.inr he3⟩
            rw [source_sound (by exact hs)]
            simpa using hq3
      · right
        have hb2 : bA = false := by simpa using hb
        rw [produceStream_none (by simp [hnv]) (by simp [hb2])]
        exact ⟨by rw [source_sound hs]; exact hq2, fun h => absurd h hnv, fun _ => Or.inl hb2⟩

/-- A dormant stream stays dormant through a visit that did not fail, when the
audio encoder keeps to the producer protocol. -/
theorem produceStream_dormant (env : Env) (bV bA : Bool) (gs : GenericStream)
    (hp : ProducerProtocol env) (hav : isAV gs) (herr : producerErr env bV bA gs = 0)
    (hd : Dormant bV bA gs) : Dormant bV bA (produceStream env bV bA gs) := by
  rcases hav with hv | hs
  · have hns : ¬ gs.trackType = SoundMediaType := by rw [hv]; exact video_ne_sound
    have hq2 : gs.vid.source.bQdFrame = false := by rw [← source_video hv]; exact hd.1
    by_cases hb : bV = true
    · rw [produceStream_video ⟨hv, hq2, hb⟩]
      have he : gs.vid.source.eos = true := by
        rcases hd.2.1 hv with h | h
        · rw [hb] at h; exact Bool.noConfusion h
        · exact h
      have : _compressVideo env gs.vid = (noErr, gs.vid) := by
        unfold _compressVideo
        rw [if_pos (Or.inr he)]
      rw [this]
      exact hd
    · rw [produceStream_none (by simp [hb]) (by simp [hns])]
      exact hd
  · have hnv : ¬ gs.trackType = VideoMediaType := by rw [hs]; exact sound_ne_video
    have hq2 : gs.aud.source.bQdFrame = false := by rw [← source_sound hs]; exact hd.1
    by_cases hb : bA = true
    · have hcond : gs.trackType = SoundMediaType ∧ gs.aud.source.bQdFrame = false ∧ bA = true :=
        ⟨hs, hq2, hb⟩
      have he : gs.aud.source.eos = true := by
        rcases hd.2.2 hs with h | h
        · rw [hb] at h; exact Bool.noConfusion h
        · exact h
      have herr2 : (_compressAudio env gs.aud).1 = 0 := by
        unfold producerErr at herr
        rw [if_neg (by simp [hnv]), if_pos hcond] at herr
        exact herr
      have hnq : ¬ gs.aud.source.bQdFrame = true := by rw [hq2]; simp
      have hr : (env.compressAudio gs.aud).1 = 0 := by
        unfold _compressAudio at herr2
        rw [if_neg hnq] at herr2
        by_cases h0 : (env.compressAudio gs.aud).1 ≠ 0
        · simp only [if_pos h0] at herr2
          exact absurd herr2 h0
        · exact not_not.1 h0
      have hprot := hp gs.aud he hq2 hr
      have hca : (_compressAudio env gs.aud).2 = (env.compressAudio gs.aud).2 := by
        unfold _compressAudio
        rw [if_neg hnq]
        simp only [hr, ne_eq, not_true_eq_false, if_false]
        rw [if_neg (by rw [hprot.1]; simp)]
      rw [produceStream_audio hcond, hca]
      refine ⟨?_, fun h => absurd h hnv, fun _ => Or.inr hprot.1⟩
      rw [source_sound (by exact hs)]
      exact hprot.2
    · rw [produceStream_none (by simp [hnv]) (by simp [hb])]
      exact hd

/-- In a pass that does not leave through `goto bail`, no visit fails. -/
theorem forStreams_no_err (env : Env) (bV bA : Bool) (todo : List GenericStream) :
    ∀ (done : List GenericStream) (c : Sel),
      (forStreams env bV bA done todo c).2.2 = false →
      ∀ gs ∈ todo, producerErr env bV bA gs = 0 := by
  induction todo with
  | nil =>
    intro done c _ gs hgs
    simp at hgs
  | cons g todo ih =>
    intro done c hb gs hgs
    by_cases h : (produce env bV bA done.length g c).2.err ≠ 0
    · rw [forStreams_cons_bail h] at hb
      simp at hb
    · rw [forStreams_cons_go h] at hb
      rcases List.mem_cons.1 hgs with hg | hg
      · subst hg
        exact produce_err env bV bA done.length gs c (not_not.1 h)
      · exact ih _ _ hb gs hg

theorem selectionPass_no_err (env : Env) (s : Mux) (h : (selectionPass env s).2.2 = false) :
    ∀ gs ∈ s.globals.streams,
      producerErr env s.globals.bExportVideo s.globals.bExportAudio gs = 0 :=
  forStreams_no_err env _ _ _ _ _ h

theorem writtenStream_trackType (env : Env) (gs : GenericStream) :
    (writtenStream env gs).trackType = gs.trackType := by
  unfold writtenStream
  split_ifs <;> rfl

/-- Once written, the winner has no sample queued. -/
theorem writtenStream_not_queued (env : Env) (gs : GenericStream) (hav : isAV gs) :
    (writtenStream env gs).source.bQdFrame = false := by
  rcases hav with hv | hs
  · rw [source_video (by rw [writtenStream_trackType]; exact hv)]
    unfold writtenStream
    rw [if_pos hv]
  · have hnv : ¬ gs.trackType = VideoMediaType := by rw [hs]; exact sound_ne_video
    rw [source_sound (by rw [writtenStream_trackType]; exact hs)]
    unfold writtenStream
    rw [if_neg hnv]

/-! ## The loop -/

theorem whileStep_stopped {env : Env} {s : Mux} (h : s.status ≠ Status.running) :
    whileStep env s = s := by
  unfold whileStep
  rw [if_neg h]

theorem whileStep_done {env : Env} {s : Mux} (h : s.status = Status.running)
    (hd : s.allStreamsDone = true) :
    whileStep env s = { s with status := Status.finished } := by
  unfold whileStep
  rw [if_pos h, if_pos hd]

theorem whileStep_body {env : Env} {s : Mux} (h : s.status = Status.running)
    (hd : s.allStreamsDone = false) : whileStep env s = loopBody env s := by
  unfold whileStep
  rw [if_pos h, if_neg (by rw [hd]; simp)]

theorem whileLoop_succ (env : Env) (n : Nat) (s : Mux) :
    whileLoop env (n + 1) s = whileStep env (whileLoop env n s) := by
  induction n generalizing s with
  | zero => rfl
  | succ n ih =>
    show whileLoop env (n + 1) (whileStep env s) = _
    rw [ih]
    rfl

/-- A property kept by every step of the loop holds after any number of
steps. -/
theorem whileLoop_induction (env : Env) (P : Mux → Prop)
    (hstep : ∀ s, P s → P (whileStep env s)) (s : Mux) (h0 : P s) (n : Nat) :
    P (whileLoop env n s) := by
  induction n with
  | zero => exact h0
  | succ n ih =>
    rw [whileLoop_succ]
    exact hstep _ ih

/-- The three ways an execution of the loop body ends. -/
theorem loopBody_cases (env : Env) (s : Mux) :
    ((selectionPass env s).2.2 = true ∧
      loopBody env s = { afterPass env s with status := Status.bailed }) ∨
    ((selectionPass env s).2.2 = false ∧ (afterPass env s).minTimeStream = none ∧
      loopBody env s = { afterPass env s with status := Status.finished }) ∨
    ((selectionPass env s).2.2 = false ∧
      ∃ i w, (afterPass env s).minTimeStream = some i ∧
        (afterPass env s).globals.streams[i]? = some w ∧ isAV w ∧
        w.source.bQdFrame = true ∧ w.source.blockTimeMs = (afterPass env s).minTimeMs ∧
        loopBody env s = emitBlock env (afterPass env s) i w s.offset) := by
  cases hb : (selectionPass env s).2.2 with
  | true => exact Or.inl ⟨rfl, loopBody_bail hb⟩
  | false =>
    right
    cases hm : (afterPass env s).minTimeStream with
    | none => exact Or.inl ⟨rfl, rfl, loopBody_none hb hm⟩
    | some i =>
      right
      obtain ⟨w, hw, hwav, hwq, hwt, _⟩ := (afterPass_inv env s hb).some_win i hm
      exact ⟨rfl, i, w, rfl, hw, hwav, hwq, hwt, loopBody_some hb hm hw⟩

/-- A step of the loop only appends to the list of written blocks. -/
theorem whileStep_emitted (env : Env) (s : Mux) :
    ∃ t, (whileStep env s).emitted = s.emitted ++ t := by
  by_cases hr : s.status = Status.running
  · cases hd : s.allStreamsDone with
    | true =>
      rw [whileStep_done hr hd]
      exact ⟨[], by simp⟩
    | false =>
      rw [whileStep_body hr hd]
      rcases loopBody_cases env s with ⟨_, h⟩ | ⟨_, _, h⟩ | ⟨_, i, w, _, _, hav, _, _, h⟩
      · rw [h]; exact ⟨[], by simp [afterPass]⟩
      · rw [h]; exact ⟨[], by simp [afterPass]⟩
      · rw [h, (emitBlock_frame env (afterPass env s) i w s.offset hav).2.2.2.2.2.2.1]
        exact ⟨_, rfl⟩
  · rw [whileStep_stopped hr]
    exact ⟨[], by simp⟩

/-- Streams after a completed pass, by index. -/
theorem afterPass_getElem? (env : Env) (s : Mux) (h : (selectionPass env s).2.2 = false)
    {j : Nat} {gs : GenericStream} (hj : (afterPass env s).globals.streams[j]? = some gs) :
    ∃ gs0, s.globals.streams[j]? = some gs0 ∧
      produceStream env s.globals.bExportVideo s.globals.bExportAudio gs0 = gs := by
  rw [afterPass_streams, (selectionPass_ok env s h).1, List.getElem?_map] at hj
  cases h0 : s.globals.streams[j]? with
  | none => rw [h0] at hj; simp at hj
  | some gs0 =>
    rw [h0] at hj
    exact ⟨gs0, rfl, by simpa using hj⟩

theorem isAV_of_trackType {a b : GenericStream} (h : a.trackType = b.trackType) (hb : isAV b) :
    isAV a := by
  unfold isAV at *
  rw [h]
  exact hb

/-- The merge argument: one step of the loop keeps `RunInv`. -/
theorem runInv_step (env : Env) (hp : ProducerProtocol env) (s : Mux) (inv : RunInv s)
    (hm : PerStreamMonotone (whileStep env s).emitted) : RunInv (whileStep env s) := by
  by_cases hr : s.status = Status.running
  · have hd := inv.flag hr
    rw [whileStep_body hr hd] at hm ⊢
    rcases loopBody_cases env s with ⟨_, h⟩ | ⟨_, _, h⟩ | ⟨hb, i, w, hmin, hw, hav, hq, ht, h⟩
    · rw [h]
      exact ⟨inv.sorted, fun hrun => absurd hrun (by simp), fun hrun => absurd hrun (by simp)⟩
    · rw [h]
      exact ⟨inv.sorted, fun hrun => absurd hrun (by simp), fun hrun => absurd hrun (by simp)⟩
    · have hfr := emitBlock_frame env (afterPass env s) i w s.offset hav
      have pinv := afterPass_inv env s hb
      have hem : (loopBody env s).emitted = s.emitted ++
          [emittedRecord (openCluster env (afterPass env s)) i w
            (clusterDecision (afterPass env s)) s.offset] := by
        rw [h]; exact hfr.2.2.2.2.2.2.1
      have hetime : (emittedRecord (openCluster env (afterPass env s)) i w
            (clusterDecision (afterPass env s)) s.offset).minTimeMs =
          (afterPass env s).minTimeMs := (openCluster_frame env (afterPass env s)).2.2.1
      obtain ⟨gs0, hgs0, hfgs0⟩ := afterPass_getElem? env s hb hw
      have hav0 : isAV gs0 := by
        apply isAV_of_trackType _ hav
        rw [← hfgs0, produceStream_trackType]
      have key : ∀ e, s.emitted.getLast? = some e →
          e.minTimeMs.val ≤ (afterPass env s).minTimeMs.val := by
        intro e hlast
        obtain ⟨_, hqd, hdorm⟩ := inv.last hr e hlast
        by_cases hq0 : gs0.source.bQdFrame = true
        · have hsame : w = gs0 := by
            rw [← hfgs0]; exact produceStream_queued env _ _ hq0
          rw [← ht, hsame]
          exact hqd gs0 (List.getElem?_mem hgs0) hav0 hq0
        · by_cases hidx : i = e.iStream
          · rw [hem] at hm
            have h3 := (List.pairwise_append.1 hm).2.2 e (List.mem_of_mem_getLast? hlast) _
              (List.mem_singleton.2 rfl) hidx.symm
            rw [hetime] at h3
            exact h3
          · have hd0 := hdorm i gs0 hgs0 hav0 (by simpa using hq0) hidx
            have hd1 := produceStream_dormant env _ _ gs0 hp hav0
              (selectionPass_no_err env s hb gs0 (List.getElem?_mem hgs0)) hd0
            rw [hfgs0] at hd1
            rw [hd1.1] at hq
            exact Bool.noConfusion hq
      have hbound : ∀ a ∈ s.emitted, a.minTimeMs.val ≤ (afterPass env s).minTimeMs.val := by
        intro a ha
        cases hl : s.emitted.getLast? with
        | none =>
          rw [List.getLast?_eq_none_iff] at hl
          rw [hl] at ha
          simp at ha
        | some e =>
          exact le_trans ((inv.last hr e hl).1 a ha) (key e hl)
      refine ⟨?_, ?_, ?_⟩
      · unfold TimesNonDecreasing
        rw [hem]
        refine List.pairwise_append.2 ⟨inv.sorted, List.pairwise_singleton _ _, ?_⟩
        intro a ha b hb2
        rw [List.mem_singleton.1 hb2, hetime]
        exact hbound a ha
      · intro _
        rw [h, hfr.2.2.2.2.1]
        cases hflag : (afterPass env s).allStreamsDone with
        | false => rfl
        | true =>
          have := pinv.flag.1 hflag
          rw [← afterPass_minTimeStream, hmin] at this
          simp at this
      · intro _ e hlast
        rw [hem, List.getLast?_concat] at hlast
        have he : e = emittedRecord (openCluster env (afterPass env s)) i w
            (clusterDecision (afterPass env s)) s.offset := by simpa using hlast.symm
        subst he
        refine ⟨?_, ?_, ?_⟩
        · intro a ha
          rw [hem] at ha
          rw [hetime]
          rcases List.mem_append.1 ha with ha | ha
          · exact hbound a ha
          · rw [List.mem_singleton.1 ha, hetime]
        · intro gs hgs hgav hgq
          rw [h, hfr.2.2.2.2.2.2.2.1] at hgs
          rw [hetime]
          rcases List.mem_or_eq_of_mem_set hgs with hgs | hgs
          · exact pinv.le_all gs hgs hgav hgq
          · rw [hgs, writtenStream_not_queued env w hav] at hgq
            exact Bool.noConfusion hgq
        · intro j gs hj hgav hgq hji
          rw [h, hfr.2.2.2.2.2.2.2.1] at hj
          have hji2 : i ≠ j := fun hij => hji hij.symm
          rw [List.getElem?_set_ne hji2] at hj
          obtain ⟨gs1, hgs1, hfgs1⟩ := afterPass_getElem? env s hb hj
          have hav1 : isAV gs1 := by
            apply isAV_of_trackType _ hgav
            rw [← hfgs1, produceStream_trackType]
          have hqd := produceStream_queued_or_dormant env _ _ gs1 hav1
            (selectionPass_no_err env s hb gs1 (List.getElem?_mem hgs1))
          rw [hfgs1] at hqd
          rw [h, hfr.2.2.2.2.2.2.2.2.1, hfr.2.2.2.2.2.2.2.2.2.1]
          rcases hqd with hqd | hqd
          · rw [hgq] at hqd
            exact Bool.noConfusion hqd
          · exact hqd
  · rw [whileStep_stopped hr]
    exact inv


/-! ## Steps that only write -/

theorem FrameEq.refl (s : Mux) : FrameEq s s := rfl

theorem FrameEq.trans {s t u : Mux} (h1 : FrameEq s t) (h2 : FrameEq t u) : FrameEq s u := by
  unfold FrameEq at *
  exact h2.trans h1

theorem frameEq_ebmlCall (env : Env) (s : Mux) (e : Event) : FrameEq s (ebmlCall env s e) := rfl

theorem frameEq_updateProgressBar (env : Env) (s : Mux) (p : Percent) :
    FrameEq s (_updateProgressBar env s p).1 := by
  rw [updateProgressBar_eq]
  rfl

theorem FrameEq.emitted {s t : Mux} (h : FrameEq s t) : t.emitted = s.emitted := by
  have h2 := congrArg Mux.emitted (id h : _ = _)
  exact h2

theorem FrameEq.status {s t : Mux} (h : FrameEq s t) : t.status = s.status := by
  have h2 := congrArg Mux.status (id h : _ = _)
  exact h2

theorem FrameEq.err {s t : Mux} (h : FrameEq s t) : t.err = s.err := by
  have h2 := congrArg Mux.err (id h : _ = _)
  exact h2

theorem FrameEq.allStreamsDone {s t : Mux} (h : FrameEq s t) :
    t.allStreamsDone = s.allStreamsDone := by
  have h2 := congrArg Mux.allStreamsDone (id h : _ = _)
  exact h2

theorem FrameEq.startNewCluster {s t : Mux} (h : FrameEq s t) :
    t.startNewCluster = s.startNewCluster := by
  have h2 := congrArg Mux.startNewCluster (id h : _ = _)
  exact h2

theorem FrameEq.firstL1Offset {s t : Mux} (h : FrameEq s t) :
    t.firstL1Offset = s.firstL1Offset := by
  have h2 := congrArg Mux.firstL1Offset (id h : _ = _)
  exact h2

theorem FrameEq.streams {s t : Mux} (h : FrameEq s t) : t.globals.streams = s.globals.streams := by
  have h2 := congrArg (fun m : Mux => m.globals.streams) (id h : _ = _)
  exact h2

theorem FrameEq.cueCount {s t : Mux} (h : FrameEq s t) : t.globals.cueCount = s.globals.cueCount := by
  have h2 := congrArg (fun m : Mux => m.globals.cueCount) (id h : _ = _)
  exact h2

theorem FrameEq.cueHandle {s t : Mux} (h : FrameEq s t) :
    t.globals.cueHandle = s.globals.cueHandle := by
  have h2 := congrArg (fun m : Mux => m.globals.cueHandle) (id h : _ = _)
  exact h2

theorem FrameEq.clusterTime {s t : Mux} (h : FrameEq s t) :
    t.globals.clusterTime = s.globals.clusterTime := by
  have h2 := congrArg (fun m : Mux => m.globals.clusterTime) (id h : _ = _)
  exact h2

theorem FrameEq.bExportVideo {s t : Mux} (h : FrameEq s t) :
    t.globals.bExportVideo = s.globals.bExportVideo := by
  have h2 := congrArg (fun m : Mux => m.globals.bExportVideo) (id h : _ = _)
  exact h2

theorem FrameEq.bExportAudio {s t : Mux} (h : FrameEq s t) :
    t.globals.bExportAudio = s.globals.bExportAudio := by
  have h2 := congrArg (fun m : Mux => m.globals.bExportAudio) (id h : _ = _)
  exact h2

theorem frameEq_writeTracksLoop (env : Env) (l : List GenericStream) :
    ∀ (i : Nat) (s : Mux) (err : ComponentResult),
      FrameEq s (writeTracksLoop env i l s err).1 := by
  induction l with
  | nil => intro i s err; exact FrameEq.refl s
  | cons gs rest ih =>
    intro i s err
    unfold writeTracksLoop
    split_ifs
    · exact (frameEq_ebmlCall env s _).trans (ih _ _ _)
    · exact FrameEq.refl s
    · exact (frameEq_ebmlCall env s _).trans (ih _ _ _)
    · exact (frameEq_ebmlCall env s _).trans (ih _ _ _)
    · exact ih _ _ _

theorem frameEq_writeTracks (env : Env) (s : Mux) : FrameEq s (_writeTracks env s).1 := by
  unfold _writeTracks
  simp only
  split_ifs
  · exact (frameEq_ebmlCall env s _).trans (frameEq_writeTracksLoop env _ _ _ _)
  · exact ((frameEq_ebmlCall env s _).trans (frameEq_writeTracksLoop env _ _ _ _)).trans
      (frameEq_ebmlCall env _ _)

theorem frameEq_writeCuePoint (env : Env) (s : Mux) (cue : WebMCuePoint) :
    FrameEq s (writeCuePoint env s cue) := rfl

theorem frameEq_foldl_writeCuePoint (env : Env) (f : Nat → WebMCuePoint) (l : List Nat) :
    ∀ s : Mux, FrameEq s (l.foldl (fun acc i => writeCuePoint env acc (f i)) s) := by
  induction l with
  | nil => intro s; exact FrameEq.refl s
  | cons i rest ih =>
    intro s
    exact (frameEq_writeCuePoint env s (f i)).trans (ih _)

theorem frameEq_writeCues (env : Env) (s : Mux) : FrameEq s (_writeCues env s) := by
  unfold _writeCues
  exact ((frameEq_ebmlCall env s _).trans (frameEq_foldl_writeCuePoint env _ _ _)).trans
    (frameEq_ebmlCall env _ _)

theorem frameEq_afterLoop (env : Env) (s : Mux) : FrameEq s (afterLoop env s) := by
  unfold afterLoop
  have h1 := frameEq_writeCues env s
  have h2 := frameEq_ebmlCall env (_writeCues env s)
    (Event.Ebml_EndSubElement LocVar.startSegment)
  have h3 : FrameEq (ebmlCall env (_writeCues env s)
      (Event.Ebml_EndSubElement LocVar.startSegment))
      { ebmlCall env (_writeCues env s) (Event.Ebml_EndSubElement LocVar.startSegment) with
        log := (ebmlCall env (_writeCues env s)
          (Event.Ebml_EndSubElement LocVar.startSegment)).log ++ [Event.HUnlock] } := rfl
  exact ((h1.trans h2).trans h3).trans (frameEq_updateProgressBar env _ _)


/-- The state at the top of the first iteration. -/
theorem beforeLoop_fields (env : Env) (g : WebMExportGlobals) :
    (beforeLoop env g).emitted = [] ∧ (beforeLoop env g).status = Status.running ∧
    (beforeLoop env g).allStreamsDone = false ∧ (beforeLoop env g).startNewCluster = true ∧
    (beforeLoop env g).globals.streams = g.streams ∧
    (beforeLoop env g).globals.cueCount = g.cueCount ∧
    (beforeLoop env g).globals.cueHandle = g.cueHandle ∧
    (beforeLoop env g).globals.clusterTime = 0 ∧
    (beforeLoop env g).globals.bExportVideo = g.bExportVideo ∧
    (beforeLoop env g).globals.bExportAudio = g.bExportAudio := by
  have key : ∀ s4 : Mux, FrameEq s4
      (_updateProgressBar env
        { (_writeTracks env s4).1 with log := (_writeTracks env s4).1.log ++ [Event.HLock] }
        Percent.zero).1 := by
    intro s4
    have h3 : FrameEq (_writeTracks env s4).1
        { (_writeTracks env s4).1 with log := (_writeTracks env s4).1.log ++ [Event.HLock] } :=
      rfl
    exact ((frameEq_writeTracks env s4).trans h3).trans (frameEq_updateProgressBar env _ _)
  unfold beforeLoop
  exact ⟨(key _).emitted, (key _).status, (key _).allStreamsDone, rfl, (key _).streams,
    (key _).cueCount, (key _).cueHandle, rfl, (key _).bExportVideo, (key _).bExportAudio⟩

/-! ## Whole runs -/

theorem muxRun_emitted (env : Env) (g : WebMExportGlobals) (n : Nat) :
    (muxRun env g n).emitted = (whileLoop env n (beforeLoop env g)).emitted := by
  unfold muxRun
  simp only
  split_ifs
  · exact (frameEq_afterLoop env _).emitted
  · rfl

theorem runInv_init (env : Env) (g : WebMExportGlobals) : RunInv (beforeLoop env g) := by
  have hf := beforeLoop_fields env g
  refine ⟨?_, fun _ => hf.2.2.1, ?_⟩
  · unfold TimesNonDecreasing
    rw [hf.1]
    exact List.Pairwise.nil
  · intro _ e he
    rw [hf.1] at he
    simp at he

/-- The blocks written by a run are in time order when each stream's own
blocks are and the audio encoder keeps to the producer protocol. -/
theorem run_times_sorted (env : Env) (g : WebMExportGlobals) (n : Nat)
    (hp : ProducerProtocol env)
    (hm : PerStreamMonotone (whileLoop env n (beforeLoop env g)).emitted) :
    RunInv (whileLoop env n (beforeLoop env g)) := by
  have hall := whileLoop_induction env
    (fun s => (∃ t, (whileLoop env n (beforeLoop env g)).emitted = s.emitted ++ t) → RunInv s)
    (by
      intro s hs ⟨t, ht⟩
      obtain ⟨t2, ht2⟩ := whileStep_emitted env s
      have hpre : (whileLoop env n (beforeLoop env g)).emitted = s.emitted ++ (t2 ++ t) := by
        rw [ht, ht2, List.append_assoc]
      apply runInv_step env hp s (hs ⟨_, hpre⟩)
      unfold PerStreamMonotone at hm ⊢
      rw [ht] at hm
      exact (List.pairwise_append.1 hm).1)
    (beforeLoop env g) (fun _ => runInv_init env g) n
  exact hall ⟨[], by simp⟩

/-- The scripted audio encoder keeps to the producer protocol. -/
theorem scriptEnv_protocol (z : Bool) : ProducerProtocol (scriptEnv z) := by
  intro as he hq _
  show (scriptCompressAudio as).2.source.eos = true ∧
    (scriptCompressAudio as).2.source.bQdFrame = false
  unfold scriptCompressAudio
  cases as.source.refCon with
  | nil => exact ⟨rfl, hq⟩
  | cons p rest => exact ⟨he, hq⟩

/-! ## The block written by an iteration -/

theorem list_ne_append_singleton {α : Type} (l : List α) (a : α) : l ≠ l ++ [a] := by
  intro h
  have := congrArg List.length h
  simp at this

/-- An iteration that writes a block is one whose pass completed with a
winner; the block is the winner's. -/
theorem emits_winner {env : Env} {s : Mux} {e : Emitted} (h : Emits env s e) :
    s.status = Status.running ∧ s.allStreamsDone = false ∧
    (selectionPass env s).2.2 = false ∧
    ∃ i w, (afterPass env s).minTimeStream = some i ∧
      (afterPass env s).globals.streams[i]? = some w ∧ isAV w ∧
      w.source.bQdFrame = true ∧ w.source.blockTimeMs = (afterPass env s).minTimeMs ∧
      whileStep env s = emitBlock env (afterPass env s) i w s.offset ∧
      e = emittedRecord (openCluster env (afterPass env s)) i w
        (clusterDecision (afterPass env s)) s.offset := by
  unfold Emits at h
  by_cases hr : s.status = Status.running
  · cases hd : s.allStreamsDone with
    | true =>
      rw [whileStep_done hr hd] at h
      exact absurd h (list_ne_append_singleton _ _)
    | false =>
      rw [whileStep_body hr hd] at h ⊢
      rcases loopBody_cases env s with ⟨_, h2⟩ | ⟨_, _, h2⟩ | ⟨hb, i, w, hmin, hw, hav, hq, ht, h2⟩
      · rw [h2] at h
        exact absurd h (list_ne_append_singleton _ _)
      · rw [h2] at h
        exact absurd h (list_ne_append_singleton _ _)
      · refine ⟨hr, rfl, hb, i, w, hmin, hw, hav, hq, ht, h2, ?_⟩
        rw [h2, (emitBlock_frame env (afterPass env s) i w s.offset hav).2.2.2.2.2.2.1] at h
        have h3 : (afterPass env s).emitted = s.emitted := rfl
        rw [h3] at h
        have h4 := List.append_cancel_left h
        simpa using h4.symm
  · rw [whileStep_stopped hr] at h
    exact absurd h (list_ne_append_singleton _ _)

theorem progressCalls_congr (env : Env) (g1 g2 : WebMExportGlobals) (q : Percent)
    (h1 : g1.progressOpen = g2.progressOpen) (h2 : g1.progressProc = g2.progressProc) :
    progressCalls env g1 q = progressCalls env g2 q := by
  unfold progressCalls
  rw [h1, h2]

theorem openCluster_progress (env : Env) (s : Mux) :
    (openCluster env s).globals.progressOpen = s.globals.progressOpen ∧
    (openCluster env s).globals.progressProc = s.globals.progressProc := by
  rw [openCluster_eq]
  split_ifs <;> exact ⟨rfl, rfl⟩

theorem writeWinner_progress (env : Env) (s : Mux) (i : Nat) (gs : GenericStream) (o : Offset64)
    (hav : isAV gs) :
    (writeWinner env s i gs o).globals.progressOpen = s.globals.progressOpen ∧
    (writeWinner env s i gs o).globals.progressProc = s.globals.progressProc := by
  rcases hav with hv | hs
  · rw [writeWinner_video env s i gs o hv]
    split_ifs <;> exact ⟨rfl, rfl⟩
  · rw [writeWinner_sound env s i gs o hs]
    exact ⟨rfl, rfl⟩

/-- The calls made after the pass by an iteration that writes a block. -/
theorem emitBlock_log (env : Env) (p : Mux) (i : Nat) (gs : GenericStream) (o : Offset64)
    (hav : isAV gs) : (emitBlock env p i gs o).log = p.log ++ emitCalls env p gs := by
  obtain ⟨_, _, hwmin, _, _, _, _, _, _, _, _, _, _, hwlog⟩ :=
    writeWinner_frame env (openCluster env p) i gs o hav
  have hpc : progressCalls env (writeWinner env (openCluster env p) i gs o).globals
      (Percent.ratio p.minTimeMs) = progressCalls env p.globals (Percent.ratio p.minTimeMs) := by
    apply progressCalls_congr
    · rw [(writeWinner_progress env _ i gs o hav).1, (openCluster_progress env p).1]
    · rw [(writeWinner_progress env _ i gs o hav).2, (openCluster_progress env p).2]
  have hol : (openCluster env p).log =
      p.log ++ (if clusterDecision p = true then clusterCalls p.minTimeMs else []) := by
    rw [openCluster_eq]
    split_ifs
    · rfl
    · simp
  have hmin : (writeWinner env (openCluster env p) i gs o).minTimeMs = p.minTimeMs := by
    rw [hwmin, (openCluster_frame env p).2.2.1]
  have hraw : (emitBlock env p i gs o).log =
      (writeWinner env (openCluster env p) i gs o).log ++
        [Event.Ebml_EndSubElement LocVar.clusterStart] ++
        (if env.durationIsZero = false then
          progressCalls env (writeWinner env (openCluster env p) i gs o).globals
            (Percent.ratio (writeWinner env (openCluster env p) i gs o).minTimeMs)
         else []) := by
    rw [emitBlock_eq env p i gs o hav]
    by_cases hz : env.durationIsZero = false
    · rw [if_pos hz, if_pos hz]
    · rw [if_neg hz, if_neg hz]
      simp
  rw [hraw, hmin, hpc, hwlog, hol]
  unfold emitCalls
  simp

theorem blockCall_eq (w : GenericStream) (c : ULong) (hav : isAV w) :
    ∃ payload, blockCall w c =
      Event.writeSimpleBlock w.source.trackID (toShort (ulongSub w.source.blockTimeMs c))
        (if (if w.trackType = VideoMediaType then decide (w.vid.frame_type = kICMFrameType_I)
              else true) = true then 1 else 0) 0 0 payload := by
  rcases hav with hv | hs
  · refine ⟨w.vid.outBuf, ?_⟩
    rw [source_video hv]
    unfold blockCall
    simp only [if_pos hv]
    by_cases hk : w.vid.frame_type = kICMFrameType_I
    · simp [hk]
    · simp [hk]
  · have hnv : ¬ w.trackType = VideoMediaType := by rw [hs]; exact sound_ne_video
    refine ⟨w.aud.outBuf, ?_⟩
    rw [source_sound hs]
    unfold blockCall
    simp only [if_neg hnv]
    simp

/-- Every iteration that writes a block has the anatomy described by
`Anatomy`. -/
theorem emits_anatomy {env : Env} {s : Mux} {e : Emitted} (h : Emits env s e) :
    Anatomy env s e := by
  obtain ⟨_, _, _, i, w, _, _, hav, _, ht, hstep, he⟩ := emits_winner h
  have hoc := openCluster_clusterTime env (afterPass env s)
  have hof := openCluster_frame env (afterPass env s)
  have hfr := emitBlock_frame env (afterPass env s) i w s.offset hav
  have htime : e.minTimeMs = (afterPass env s).minTimeMs := by
    rw [he]; exact hof.2.2.1
  have hdec : e.newCluster = clusterDecision (afterPass env s) := by rw [he]; rfl
  have hcl : e.clusterTime = (openCluster env (afterPass env s)).globals.clusterTime := by
    rw [he]; rfl
  have hcluster : e.clusterTime =
      if e.newCluster = true then e.minTimeMs else s.globals.clusterTime := by
    rw [hcl, hoc, hdec, htime]
    rfl
  have hcode : e.timeCode = toShort (ulongSub e.minTimeMs e.clusterTime) := by
    rw [htime, ← ht, hcl, he]
    rfl
  refine ⟨htime, hdec, hcluster, ?_, hcode, ?_, ?_, ?_, ?_, ?_⟩
  · rw [hstep, hfr.2.2.2.2.2.2.2.2.2.2.1, hcl]
  · rw [he]
    unfold emittedRecord
    by_cases hv : w.trackType = VideoMediaType
    · simp [hv]
    · simp [hv]
  · intro hnv
    rw [he] at hnv ⊢
    unfold emittedRecord at hnv ⊢
    simp only at hnv ⊢
    rw [if_neg hnv]
  · rw [he]; exact hav
  · rw [he]; rfl
  · obtain ⟨payload, hbc⟩ := blockCall_eq w (openCluster env (afterPass env s)).globals.clusterTime hav
    refine ⟨payload, ?_⟩
    rw [hstep, emitBlock_log env _ i w s.offset hav]
    unfold emitCalls
    rw [hbc, ← hdec, ← htime]
    have h1 : e.trackID = w.source.trackID := by rw [he]; rfl
    have h2 : e.timeCode =
        toShort (ulongSub w.source.blockTimeMs (openCluster env (afterPass env s)).globals.clusterTime) := by
      rw [he]; rfl
    have h3 : e.isKeyFrame =
        (if w.trackType = VideoMediaType then decide (w.vid.frame_type = kICMFrameType_I)
         else true) := by
      rw [he]; rfl
    rw [← h1, ← h2, ← h3]
    have h4 : progressCalls env (afterPass env s).globals (Percent.ratio e.minTimeMs) =
        progressCalls env s.globals (Percent.ratio e.minTimeMs) :=
      progressCalls_congr env _ _ _ rfl rfl
    rw [h4]
    simp

theorem toShort_small {x : Nat} (h : x ≤ 32767) : toShort x = (x : Int) := by
  unfold toShort
  split_ifs <;> omega

theorem ulongSub_self (t : ULong) : ulongSub t t = 0 := by
  unfold ulongSub
  have := t.isLt
  omega

theorem clusterDecision_false {p : Mux} (h : clusterDecision p = false) :
    ulongSub p.minTimeMs p.globals.clusterTime ≤ 32767 ∧ p.startNewCluster = false := by
  unfold clusterDecision at h
  by_cases hgt : ulongSub p.minTimeMs p.globals.clusterTime > 32767
  · rw [if_pos hgt] at h
    exact Bool.noConfusion h
  · rw [if_neg hgt] at h
    exact ⟨by omega, h⟩

/-- The difference written with a block fits the time code. -/
theorem emits_diff_small {env : Env} {s : Mux} {e : Emitted} (h : Emits env s e) :
    ulongSub e.minTimeMs e.clusterTime ≤ 32767 := by
  have an := emits_anatomy h
  cases hn : e.newCluster with
  | true =>
    have hc := an.cluster
    rw [hn] at hc
    simp only [if_true] at hc
    rw [hc, ulongSub_self]
    omega
  | false =>
    have hc := an.cluster
    rw [hn] at hc
    simp only [Bool.false_eq_true, if_false] at hc
    have hd := an.decision
    rw [hn] at hd
    have h2 := (clusterDecision_false hd.symm).1
    rw [hc, an.time]
    exact h2

theorem emits_timeCodeSound {env : Env} {s : Mux} {e : Emitted} (h : Emits env s e) :
    TimeCodeSound env s e := by
  have an := emits_anatomy h
  have hsmall := emits_diff_small h
  have hcode : e.timeCode = ((ulongSub e.minTimeMs e.clusterTime : Nat) : Int) := by
    rw [an.code, toShort_small hsmall]
  refine ⟨by rw [hcode]; omega, by rw [hcode]; omega, hcode, ?_, ?_⟩
  · obtain ⟨payload, hl⟩ := an.calls
    refine ⟨(if e.isKeyFrame = true then 1 else 0), payload, ?_⟩
    rw [hl]
    simp
  · intro hlt
    rw [hcode]
    have hm := e.minTimeMs.isLt
    have hcl := an.cluster
    cases hn : e.newCluster with
    | true =>
      rw [hn] at hcl
      simp only [if_true] at hcl
      rw [hcl, ulongSub_self]
      omega
    | false =>
      rw [hn] at hcl
      simp only [Bool.false_eq_true, if_false] at hcl
      rw [hcl] at hsmall ⊢
      have hc := s.globals.clusterTime.isLt
      unfold ulongSub at hsmall ⊢
      omega

theorem emits_clusterStart {env : Env} {s : Mux} {e : Emitted} (h : Emits env s e)
    (hn : e.newCluster = true) : ClusterStartsAtWinner env s e := by
  have an := emits_anatomy h
  obtain ⟨_, _, _, i, w, _, hw, _, hq, ht, _, he⟩ := emits_winner h
  have hcl := an.cluster
  rw [hn] at hcl
  simp only [if_true] at hcl
  have hcode : e.timeCode = 0 := by
    rw [an.code, hcl, ulongSub_self]
    rfl
  refine ⟨hcl, hcode, ?_, ⟨w, List.getElem?_mem hw, hq, ?_, ?_⟩, ?_⟩
  · rw [an.cluster_after, hcl]
  · rw [ht, an.time]
  · rw [he]; rfl
  · obtain ⟨payload, hl⟩ := an.calls
    refine ⟨payload, ?_⟩
    rw [hl, hn, hcode]
    unfold clusterCalls
    simp

/-! ## The request for a new cluster -/

theorem produce_flag (env : Env) (bV bA : Bool) (i : Nat) (gs : GenericStream) (c : Sel) :
    (produce env bV bA i gs c).2.startNewCluster =
      (c.startNewCluster || keyFrameSeen env bV gs) := by
  unfold keyFrameSeen
  by_cases h1 : gs.trackType = VideoMediaType ∧ gs.vid.source.bQdFrame = false ∧ bV = true
  · rw [produce_video h1]
    cases hc : c.startNewCluster <;> simp [h1.1, h1.2.1, h1.2.2]
  · have hno : ¬ (gs.trackType = VideoMediaType ∧ gs.vid.source.bQdFrame = false ∧ bV = true ∧
        (_compressVideo env gs.vid).2.frame_type = kICMFrameType_I) :=
      fun h => h1 ⟨h.1, h.2.1, h.2.2.1⟩
    by_cases h3 : gs.trackType = SoundMediaType ∧ gs.aud.source.bQdFrame = false ∧ bA = true
    · rw [produce_audio h3]
      simp [hno]
    · rw [produce_none h1 h3]
      simp [hno]

/-- The request after a completed pass: the one pending before, or a key
frame seen during the pass. -/
theorem forStreams_flag (env : Env) (bV bA : Bool) (todo : List GenericStream) :
    ∀ (done : List GenericStream) (c : Sel),
      (forStreams env bV bA done todo c).2.2 = false →
      (forStreams env bV bA done todo c).2.1.startNewCluster =
        (c.startNewCluster || todo.any (keyFrameSeen env bV)) := by
  induction todo with
  | nil =>
    intro done c _
    simp [forStreams_nil]
  | cons g todo ih =>
    intro done c hb
    by_cases h : (produce env bV bA done.length g c).2.err ≠ 0
    · rw [forStreams_cons_bail h] at hb
      simp at hb
    · rw [forStreams_cons_go h] at hb ⊢
      rw [ih _ _ hb, consider_startNewCluster, produce_flag, List.any_cons, Bool.or_assoc]

theorem afterPass_flag (env : Env) (s : Mux) (h : (selectionPass env s).2.2 = false) :
    (afterPass env s).startNewCluster =
      (s.startNewCluster || s.globals.streams.any (keyFrameSeen env s.globals.bExportVideo)) :=
  forStreams_flag env _ _ _ _ _ h

theorem clusterDecision_iff (p : Mux) :
    clusterDecision p = true ↔
      (p.startNewCluster = true ∨ ulongSub p.minTimeMs p.globals.clusterTime > 32767) := by
  unfold clusterDecision
  by_cases hgt : ulongSub p.minTimeMs p.globals.clusterTime > 32767
  · simp [hgt]
  · simp [hgt]

/-- When a block is written the request for a new cluster is cleared. -/
theorem emits_flag_cleared {env : Env} {s : Mux} {e : Emitted} (h : Emits env s e) :
    (whileStep env s).startNewCluster = false := by
  obtain ⟨_, _, _, i, w, _, _, hav, _, _, hstep, _⟩ := emits_winner h
  have hw := (writeWinner_frame env (openCluster env (afterPass env s)) i w s.offset hav).2.2.2.2.2.2.2.1
  have hraw : (emitBlock env (afterPass env s) i w s.offset).startNewCluster =
      (writeWinner env (openCluster env (afterPass env s)) i w s.offset).startNewCluster := by
    rw [emitBlock_eq env _ i w s.offset hav]
    split_ifs <;> rfl
  rw [hstep, hraw, hw, openCluster_eq]
  cases hd : clusterDecision (afterPass env s) with
  | true => simp
  | false =>
    simp only [Bool.false_eq_true, if_false]
    exact (clusterDecision_false hd).2

/-- The rule for one iteration, in terms of the request pending before it. -/
theorem emits_newCluster_iff {env : Env} {s : Mux} {e : Emitted} (h : Emits env s e) :
    e.newCluster = true ↔
      (s.startNewCluster = true ∨
       (∃ gs ∈ s.globals.streams, keyFrameSeen env s.globals.bExportVideo gs = true) ∨
       ulongSub e.minTimeMs s.globals.clusterTime > 32767) := by
  have an := emits_anatomy h
  obtain ⟨_, _, hb, _⟩ := emits_winner h
  rw [an.decision, clusterDecision_iff, afterPass_flag env s hb, an.time, Bool.or_eq_true,
    List.any_eq_true]
  have hc : (afterPass env s).globals.clusterTime = s.globals.clusterTime := rfl
  rw [hc]
  exact or_assoc

/-- In a run, the request is pending at the top of an iteration exactly when
no block has been written yet. -/
theorem run_flag (env : Env) (g : WebMExportGlobals) (n : Nat) :
    (whileLoop env n (beforeLoop env g)).status = Status.running →
    ((whileLoop env n (beforeLoop env g)).startNewCluster = true ↔
      (whileLoop env n (beforeLoop env g)).emitted = []) := by
  apply whileLoop_induction env
    (fun s => s.status = Status.running → (s.startNewCluster = true ↔ s.emitted = []))
  · intro s hs hrun
    by_cases hr : s.status = Status.running
    · cases hd : s.allStreamsDone with
      | true =>
        rw [whileStep_done hr hd] at hrun
        simp at hrun
      | false =>
        rw [whileStep_body hr hd] at hrun
        rcases loopBody_cases env s with ⟨_, h2⟩ | ⟨_, _, h2⟩ | ⟨_, i, w, _, _, hav, _, _, h2⟩
        · rw [h2] at hrun; simp at hrun
        · rw [h2] at hrun; simp at hrun
        · have hem : Emits env s (emittedRecord (openCluster env (afterPass env s)) i w
              (clusterDecision (afterPass env s)) s.offset) := by
            unfold Emits
            rw [whileStep_body hr hd, h2]
            exact (emitBlock_frame env (afterPass env s) i w s.offset hav).2.2.2.2.2.2.1
          rw [emits_flag_cleared hem, hem]
          simp
    · rw [whileStep_stopped hr]
      exact hs (by rw [whileStep_stopped hr] at hrun; exact hrun)
  · intro _
    have hf := beforeLoop_fields env g
    rw [hf.1, hf.2.2.2.1]
    simp

/-! ## The cue table -/

/-- The function `_addCue` appends one entry to the table that is read. -/
theorem cueTable_addCue (g : WebMExportGlobals) (loc : Nat) (t : ULong) (tr bn : Nat) :
    cueTable (_addCue g loc t tr bn) =
      cueTable g ++ [{ loc := loc, timeVal := t, track := tr, blockNumber := bn }] := by
  unfold cueTable _addCue
  simp only [Nat.add_sub_cancel]
  have h1 : ∀ i ∈ List.range (g.cueCount + 1),
      ((List.range (g.cueCount + 1)).map fun i =>
          if i = g.cueCount then
            ({ loc := loc, timeVal := t, track := tr, blockNumber := bn } : WebMCuePoint)
          else g.cueHandle.getD i (WebMCuePoint.mk 0 0 0 0)).getD i (WebMCuePoint.mk 0 0 0 0) =
        if i = g.cueCount then
          ({ loc := loc, timeVal := t, track := tr, blockNumber := bn } : WebMCuePoint)
        else g.cueHandle.getD i (WebMCuePoint.mk 0 0 0 0) := by
    intro i hi
    rw [List.mem_range] at hi
    rw [List.getD_eq_getElem?_getD, List.getElem?_map, List.getElem?_range hi]
    rfl
  rw [List.map_congr_left h1, List.range_succ, List.map_append]
  congr 1
  · apply List.map_congr_left
    intro i hi
    rw [List.mem_range] at hi
    rw [if_neg (by omega)]
  · simp

theorem cueTable_congr {g1 g2 : WebMExportGlobals} (h1 : g1.cueCount = g2.cueCount)
    (h2 : g1.cueHandle = g2.cueHandle) : cueTable g1 = cueTable g2 := by
  unfold cueTable
  rw [h1, h2]

/-- The cue table after the winner has been written. -/
theorem emitBlock_cues (env : Env) (p : Mux) (i : Nat) (w : GenericStream) (o : Offset64)
    (hav : isAV w) :
    (emitBlock env p i w o).globals.cueCount =
      p.globals.cueCount +
        (if w.trackType = VideoMediaType ∧ w.vid.frame_type = kICMFrameType_I then 1 else 0) ∧
    cueTable (emitBlock env p i w o).globals =
      cueTable p.globals ++
        (if w.trackType = VideoMediaType ∧ w.vid.frame_type = kICMFrameType_I then
          [{ loc := cueLoc o p.firstL1Offset
             timeVal := (openCluster env p).globals.clusterTime
             track := w.vid.source.trackID
             blockNumber := (openCluster env p).blocksInCluster + 1 }]
         else []) := by
  have hof := openCluster_frame env p
  have hraw : (emitBlock env p i w o).globals.cueCount =
        (writeWinner env (openCluster env p) i w o).globals.cueCount ∧
      (emitBlock env p i w o).globals.cueHandle =
        (writeWinner env (openCluster env p) i w o).globals.cueHandle := by
    rw [emitBlock_eq env p i w o hav]
    split_ifs <;> exact ⟨rfl, rfl⟩
  have hbase : cueTable (openCluster env p).globals = cueTable p.globals :=
    cueTable_congr hof.2.2.2.2.2.2.2.2.2.2.1 hof.2.2.2.2.2.2.2.2.2.2.2.1
  rw [cueTable_congr hraw.1 hraw.2, hraw.1]
  by_cases hcond : w.trackType = VideoMediaType ∧ w.vid.frame_type = kICMFrameType_I
  · simp only [if_pos hcond]
    rw [writeWinner_video env _ i w o hcond.1]
    simp only [if_pos hcond.2]
    constructor
    · show (openCluster env p).globals.cueCount + 1 = _
      rw [hof.2.2.2.2.2.2.2.2.2.2.1]
    · rw [cueTable_addCue, ← hbase, hof.2.2.2.2.2.1]
      rfl
  · simp only [if_neg hcond, List.append_nil, Nat.add_zero]
    rw [← hbase, ← hof.2.2.2.2.2.2.2.2.2.2.1]
    by_cases hv : w.trackType = VideoMediaType
    · have hk : ¬ w.vid.frame_type = kICMFrameType_I := fun h => hcond ⟨hv, h⟩
      rw [writeWinner_video env _ i w o hv]
      simp only [if_neg hk]
      refine ⟨?_, ?_⟩ <;> first | rfl | trivial
    · have hs : w.trackType = SoundMediaType := hav.resolve_left hv
      rw [writeWinner_sound env _ i w o hs]
      exact ⟨rfl, rfl⟩

/-- The cue recorded with the block `e` written from loop state `s`. -/
theorem emits_cues {env : Env} {s : Mux} {e : Emitted} (h : Emits env s e) :
    (whileStep env s).globals.cueCount = s.globals.cueCount + (if e.cue = true then 1 else 0) ∧
    cueTable (whileStep env s).globals =
      cueTable s.globals ++
        (if e.cue = true then
          [{ loc := cueLoc e.blockOffset s.firstL1Offset
             timeVal := e.clusterTime
             track := e.trackID
             blockNumber := e.blockNumber }]
         else []) := by
  obtain ⟨_, _, _, i, w, _, _, hav, _, _, hstep, he⟩ := emits_winner h
  have hc := emitBlock_cues env (afterPass env s) i w s.offset hav
  have hcue : e.cue = decide (w.trackType = VideoMediaType ∧ w.vid.frame_type = kICMFrameType_I) := by
    rw [he]; rfl
  have htrack : e.cue = true → e.trackID = w.vid.source.trackID := by
    intro hct
    rw [hcue] at hct
    have hv : w.trackType = VideoMediaType := (of_decide_eq_true hct).1
    rw [he]
    show w.source.trackID = _
    rw [source_video hv]
  rw [hstep]
  by_cases hk : w.trackType = VideoMediaType ∧ w.vid.frame_type = kICMFrameType_I
  · have hct : e.cue = true := by rw [hcue]; exact decide_eq_true hk
    simp only [if_pos hk] at hc
    simp only [if_pos hct]
    refine ⟨hc.1, ?_⟩
    rw [hc.2, htrack hct]
    have h1 : e.blockOffset = s.offset := by rw [he]; rfl
    have h2 : e.clusterTime = (openCluster env (afterPass env s)).globals.clusterTime := by
      rw [he]; rfl
    have h3 : e.blockNumber = (openCluster env (afterPass env s)).blocksInCluster + 1 := by
      rw [he]; rfl
    rw [h1, h2, h3]
    rfl
  · have hct : ¬ e.cue = true := by
      rw [hcue]
      exact fun h => hk (of_decide_eq_true h)
    simp only [if_neg hk] at hc
    simp only [if_neg hct]
    exact ⟨hc.1, hc.2⟩

/-! ## Steps of the loop, by outcome -/

/-- A step of the loop writes a block, or does nothing, or ends the loop
leaving at most the streams, the result code and the log changed. -/
theorem whileStep_cases (env : Env) (s : Mux) :
    (∃ e, Emits env s e) ∨ whileStep env s = s ∨
    whileStep env s = { s with status := Status.finished } ∨
    whileStep env s = { afterPass env s with status := Status.bailed } ∨
    whileStep env s = { afterPass env s with status := Status.finished } := by
  by_cases hr : s.status = Status.running
  · by_cases hd : s.allStreamsDone = true
    · exact Or.inr (Or.inr (Or.inl (whileStep_done hr hd)))
    · have hd2 : s.allStreamsDone = false := by simpa using hd
      rw [whileStep_body hr hd2]
      rcases loopBody_cases env s with ⟨_, h2⟩ | ⟨_, _, h2⟩ | ⟨_, i, w, _, _, hav, _, _, h2⟩
      · exact Or.inr (Or.inr (Or.inr (Or.inl h2)))
      · exact Or.inr (Or.inr (Or.inr (Or.inr h2)))
      · left
        refine ⟨emittedRecord (openCluster env (afterPass env s)) i w
          (clusterDecision (afterPass env s)) s.offset, ?_⟩
        unfold Emits
        rw [whileStep_body hr hd2, h2]
        exact (emitBlock_frame env (afterPass env s) i w s.offset hav).2.2.2.2.2.2.1
  · exact Or.inr (Or.inl (whileStep_stopped hr))

/-- A step that writes no block changes neither the blocks, nor the cue
table, nor the cluster time, nor the offset of the first element. -/
theorem whileStep_quiet (env : Env) (s : Mux) (h : ¬ ∃ e, Emits env s e) :
    (whileStep env s).emitted = s.emitted ∧
    (whileStep env s).globals.cueCount = s.globals.cueCount ∧
    (whileStep env s).globals.cueHandle = s.globals.cueHandle ∧
    (whileStep env s).globals.clusterTime = s.globals.clusterTime ∧
    (whileStep env s).firstL1Offset = s.firstL1Offset ∧
    (whileStep env s).status ≠ Status.running ∨ whileStep env s = s := by
  rcases whileStep_cases env s with he | h1 | h1 | h1 | h1
  · exact absurd he h
  · exact Or.inr h1
  · left; rw [h1]; exact ⟨rfl, rfl, rfl, rfl, rfl, by simp⟩
  · left; rw [h1]; exact ⟨rfl, rfl, rfl, rfl, rfl, by simp⟩
  · left; rw [h1]; exact ⟨rfl, rfl, rfl, rfl, rfl, by simp⟩

theorem emits_firstL1Offset {env : Env} {s : Mux} {e : Emitted} (h : Emits env s e) :
    (whileStep env s).firstL1Offset = s.firstL1Offset ∧
    (whileStep env s).status = Status.running := by
  obtain ⟨hr, _, _, i, w, _, _, hav, _, _, hstep, _⟩ := emits_winner h
  have hfr := emitBlock_frame env (afterPass env s) i w s.offset hav
  rw [hstep]
  exact ⟨hfr.2.2.2.2.2.1, hfr.1.trans hr⟩

/-- The cue table after any number of iterations: what it held at entry,
followed by one cue for each key video block written. -/
theorem run_cues (env : Env) (g : WebMExportGlobals) (n : Nat) :
    (whileLoop env n (beforeLoop env g)).firstL1Offset = (beforeLoop env g).firstL1Offset ∧
    (whileLoop env n (beforeLoop env g)).globals.cueCount =
      g.cueCount +
        ((whileLoop env n (beforeLoop env g)).emitted.filter fun e => e.cue).length ∧
    cueTable (whileLoop env n (beforeLoop env g)).globals =
      cueTable g ++ cuesOf (beforeLoop env g).firstL1Offset
        (whileLoop env n (beforeLoop env g)).emitted := by
  apply whileLoop_induction env
    (fun s => s.firstL1Offset = (beforeLoop env g).firstL1Offset ∧
      s.globals.cueCount = g.cueCount + (s.emitted.filter fun e => e.cue).length ∧
      cueTable s.globals = cueTable g ++ cuesOf (beforeLoop env g).firstL1Offset s.emitted)
  · intro s ⟨hf, hc, ht⟩
    by_cases he : ∃ e, Emits env s e
    · obtain ⟨e, he⟩ := he
      have hcu := emits_cues he
      have hem : (whileStep env s).emitted = s.emitted ++ [e] := he
      refine ⟨(emits_firstL1Offset he).1.trans hf, ?_, ?_⟩
      · rw [hcu.1, hem, hc, List.filter_append]
        cases hq : e.cue <;> simp [List.filter_cons, hq]
        omega
      · rw [hcu.2, hem, ht, hf]
        unfold cuesOf
        rw [List.filter_append, List.map_append, List.append_assoc]
        cases hq : e.cue <;> simp [List.filter_cons, hq, cueOf]
    · rcases whileStep_quiet env s he with ⟨h1, h2, h3, _, h5, _⟩ | h1
      · exact ⟨h5.trans hf, by rw [h2, h1]; exact hc, by rw [cueTable_congr h2 h3, h1]; exact ht⟩
      · rw [h1]; exact ⟨hf, hc, ht⟩
  · have hb := beforeLoop_fields env g
    refine ⟨rfl, ?_, ?_⟩
    · rw [hb.2.2.2.2.2.1, hb.1]; simp
    · rw [cueTable_congr hb.2.2.2.2.2.1 hb.2.2.2.2.2.2.1, hb.1]
      simp [cuesOf]

/-! ## Properties of every block of a run -/

/-- Every block of a run has a property that every iteration gives its block,
possibly with the help of an invariant of the loop. -/
theorem run_all_emitted (env : Env) (g : WebMExportGlobals) (I : Mux → Prop)
    (P : Emitted → Prop) (h0 : I (beforeLoop env g))
    (hI : ∀ s, I s → I (whileStep env s))
    (hP : ∀ s e, I s → Emits env s e → P e) (n : Nat) :
    ∀ e ∈ (whileLoop env n (beforeLoop env g)).emitted, P e := by
  have h := whileLoop_induction env (fun s => I s ∧ ∀ e ∈ s.emitted, P e)
    (by
      intro s ⟨hi, hall⟩
      refine ⟨hI s hi, ?_⟩
      rcases whileStep_cases env s with ⟨e, he⟩ | h1 | h1 | h1 | h1
      · intro a ha
        have hem : (whileStep env s).emitted = s.emitted ++ [e] := he
        rw [hem] at ha
        rcases List.mem_append.1 ha with ha | ha
        · exact hall a ha
        · rw [List.mem_singleton.1 ha]
          exact hP s e hi he
      · rw [h1]; exact hall
      · rw [h1]; exact hall
      · rw [h1]; exact hall
      · rw [h1]; exact hall)
    (beforeLoop env g)
    ⟨h0, by rw [(beforeLoop_fields env g).1]; intro e he; simp at he⟩ n
  exact h.2

/-- Induction over the iterations of a run of `n` steps, in which each step
may use that the blocks written so far begin the blocks of the whole run. -/
theorem whileLoop_prefix_induction (env : Env) (s0 : Mux) (n : Nat) (P : Mux → Prop)
    (h0 : P s0)
    (hstep : ∀ s, P s →
      (∃ t, (whileLoop env n s0).emitted = (whileStep env s).emitted ++ t) →
      P (whileStep env s)) :
    P (whileLoop env n s0) := by
  have h := whileLoop_induction env
    (fun s => (∃ t, (whileLoop env n s0).emitted = s.emitted ++ t) → P s)
    (by
      intro s hs ⟨t, ht⟩
      obtain ⟨t2, ht2⟩ := whileStep_emitted env s
      apply hstep s (hs ⟨t2 ++ t, by rw [ht, ht2, List.append_assoc]⟩) ⟨t, ht⟩)
    s0 (fun _ => h0) n
  exact h ⟨[], by simp⟩

theorem muxRun_frame (env : Env) (g : WebMExportGlobals) (n : Nat) :
    FrameEq (whileLoop env n (beforeLoop env g)) (muxRun env g n) := by
  unfold muxRun
  simp only
  split_ifs
  · exact frameEq_afterLoop env _
  · exact FrameEq.refl _

/-- In a run, a running loop is not flagged done. -/
theorem run_not_done (env : Env) (g : WebMExportGlobals) (n : Nat) :
    (whileLoop env n (beforeLoop env g)).status = Status.running →
    (whileLoop env n (beforeLoop env g)).allStreamsDone = false := by
  apply whileLoop_induction env (fun s => s.status = Status.running → s.allStreamsDone = false)
  · intro s hs hrun
    rcases whileStep_cases env s with ⟨e, he⟩ | h1 | h1 | h1 | h1
    · obtain ⟨_, _, hb, i, w, hmin, _, hav, _, _, hstep, _⟩ := emits_winner he
      rw [hstep, (emitBlock_frame env (afterPass env s) i w s.offset hav).2.2.2.2.1]
      cases hflag : (afterPass env s).allStreamsDone with
      | false => rfl
      | true =>
        have := (afterPass_inv env s hb).flag.1 hflag
        rw [← afterPass_minTimeStream, hmin] at this
        simp at this
    · rw [h1] at hrun ⊢; exact hs hrun
    · rw [h1] at hrun; simp at hrun
    · rw [h1] at hrun; simp at hrun
    · rw [h1] at hrun; simp at hrun
  · intro _
    exact (beforeLoop_fields env g).2.2.1

theorem run_cue_flags (env : Env) (g : WebMExportGlobals) (n : Nat) :
    ∀ e ∈ (whileLoop env n (beforeLoop env g)).emitted,
      e.cue = decide (e.trackType = VideoMediaType ∧ e.isKeyFrame = true) :=
  run_all_emitted env g (fun _ => True)
    (fun e => e.cue = decide (e.trackType = VideoMediaType ∧ e.isKeyFrame = true))
    trivial (fun _ _ => trivial) (fun _ _ _ he => (emits_anatomy he).cue) n

theorem filter_cue_eq (l : List Emitted)
    (h : ∀ e ∈ l, e.cue = decide (e.trackType = VideoMediaType ∧ e.isKeyFrame = true)) :
    (l.filter fun e => e.cue) = keyVideoBlocks l := by
  unfold keyVideoBlocks
  apply List.filter_congr
  intro e he
  exact h e he

theorem cueLaw_run (env : Env) (g : WebMExportGlobals) (n : Nat) :
    CueLaw g (muxRun env g n) := by
  have hfr := muxRun_frame env g n
  have hc := run_cues env g n
  have hflags := run_cue_flags env g n
  have hfil := filter_cue_eq _ hflags
  have hcount : (muxRun env g n).globals.cueCount =
      g.cueCount + (keyVideoBlocks (muxRun env g n).emitted).length := by
    rw [hfr.cueCount, hfr.emitted, hc.2.1, hfil]
  refine ⟨?_, hcount, ?_, ?_⟩
  · intro e he
    rw [hfr.emitted] at he
    rw [hflags e he]
    simp
  · intro h0
    rw [hcount, h0, Nat.zero_add]
  · rw [cueTable_congr hfr.cueCount hfr.cueHandle, hc.2.2, hfr.emitted, hfr.firstL1Offset,
      hc.1]
    unfold cuesOf
    rw [hfil]

/-! ## A single video stream of key frames -/

theorem compressVideo_no_call {env : Env} {vs : VideoStream}
    (h : vs.source.bQdFrame = true ∨ vs.source.eos = true) :
    _compressVideo env vs = (noErr, vs) := by
  unfold _compressVideo
  rw [if_pos h]

/-- A visit that leaves a sample queued on a video stream that had none has
asked the encoder. -/
theorem produceStream_video_queued {env : Env} {bV bA : Bool} {gs : GenericStream}
    (hv : gs.trackType = VideoMediaType) (hq : gs.vid.source.bQdFrame = false)
    (hq2 : (produceStream env bV bA gs).vid.source.bQdFrame = true) :
    bV = true ∧ gs.vid.source.eos = false ∧
    produceStream env bV bA gs = { gs with vid := (_compressVideo env gs.vid).2 } ∧
    (_compressVideo env gs.vid).2.frame_type = (env.compressNextFrame gs.vid).2.frame_type := by
  have hns : ¬ gs.trackType = SoundMediaType := by rw [hv]; exact video_ne_sound
  by_cases hb : bV = true
  · have hps := @produceStream_video env bV bA gs ⟨hv, hq, hb⟩
    by_cases he : gs.vid.source.eos = true
    · rw [hps, compressVideo_no_call (Or.inr he)] at hq2
      rw [hq] at hq2
      exact Bool.noConfusion hq2
    · have hcall : ¬ (gs.vid.source.bQdFrame = true ∨ gs.vid.source.eos = true) := by
        rw [hq]; simp [he]
      exact ⟨hb, by simpa using he, hps, compressVideo_frame_type_of_call hcall⟩
  · rw [produceStream_none (by simp [hb]) (by simp [hns]), hq] at hq2
    exact Bool.noConfusion hq2

/-- With a single video stream whose frames are all key frames, every block
opens its own cluster. -/
theorem single_key_stream (env : Env) (g : WebMExportGlobals) (n : Nat) (gs : GenericStream)
    (hk : AllKey env) (hg : g.streams = [gs]) (hv : gs.trackType = VideoMediaType)
    (hq : gs.vid.source.bQdFrame = false) :
    OwnClusterEach (whileLoop env n (beforeLoop env g)).emitted := by
  apply run_all_emitted env g
    (fun s => s.status = Status.running →
      ∃ gs, s.globals.streams = [gs] ∧ gs.trackType = VideoMediaType ∧
        gs.vid.source.bQdFrame = false)
  · intro _
    exact ⟨gs, by rw [(beforeLoop_fields env g).2.2.2.2.1, hg], hv, hq⟩
  · intro s hs hrun
    rcases whileStep_cases env s with ⟨e, he⟩ | h1 | h1 | h1 | h1
    · obtain ⟨hr, _, hb, i, w, _, hw, hav, _, _, hstep, _⟩ := emits_winner he
      obtain ⟨gs1, hgs1, hv1, _⟩ := hs hr
      have hst : (afterPass env s).globals.streams =
          [produceStream env s.globals.bExportVideo s.globals.bExportAudio gs1] := by
        rw [afterPass_streams, (selectionPass_ok env s hb).1, hgs1]
        rfl
      rw [hst] at hw
      have hi : i = 0 := by
        rcases Nat.eq_zero_or_pos i with h0 | hpos
        · exact h0
        · rw [List.getElem?_eq_none (by simpa using hpos)] at hw
          simp at hw
      subst hi
      have hwv : w.trackType = VideoMediaType := by
        have : w = produceStream env s.globals.bExportVideo s.globals.bExportAudio gs1 := by
          simpa using hw.symm
        rw [this, produceStream_trackType]
        exact hv1
      refine ⟨writtenStream env w, ?_, ?_, ?_⟩
      · rw [hstep, (emitBlock_frame env (afterPass env s) 0 w s.offset hav).2.2.2.2.2.2.2.1, hst]
        rfl
      · rw [writtenStream_trackType]; exact hwv
      · have := writtenStream_not_queued env w hav
        rw [source_video (by rw [writtenStream_trackType]; exact hwv)] at this
        exact this
    · rw [h1] at hrun ⊢; exact hs hrun
    · rw [h1] at hrun; simp at hrun
    · rw [h1] at hrun; simp at hrun
    · rw [h1] at hrun; simp at hrun
  · intro s e hs he
    obtain ⟨hr, _, hb, i, w, _, hw, hav, hwq, _, _, hrec⟩ := emits_winner he
    obtain ⟨gs1, hgs1, hv1, hq1⟩ := hs hr
    have hst : (afterPass env s).globals.streams =
        [produceStream env s.globals.bExportVideo s.globals.bExportAudio gs1] := by
      rw [afterPass_streams, (selectionPass_ok env s hb).1, hgs1]
      rfl
    have hwmem := List.getElem?_mem hw
    rw [hst, List.mem_singleton] at hwmem
    have hwv : w.trackType = VideoMediaType := by
      rw [hwmem, produceStream_trackType]; exact hv1
    have hwq2 : (produceStream env s.globals.bExportVideo s.globals.bExportAudio
        gs1).vid.source.bQdFrame = true := by
      rw [← hwmem, ← source_video hwv]; exact hwq
    obtain ⟨hbv, _, hps, hft⟩ := produceStream_video_queued hv1 hq1 hwq2
    have hframe : w.vid.frame_type = kICMFrameType_I := by
      rw [hwmem, hps]
      show (_compressVideo env gs1.vid).2.frame_type = _
      rw [hft]
      exact hk gs1.vid
    have hseen : keyFrameSeen env s.globals.bExportVideo gs1 = true := by
      unfold keyFrameSeen
      apply decide_eq_true
      exact ⟨hv1, hq1, hbv, by rw [hft]; exact hk gs1.vid⟩
    have hnew : e.newCluster = true :=
      (emits_newCluster_iff he).2 (Or.inr (Or.inl ⟨gs1, by rw [hgs1]; simp, hseen⟩))
    have hcs := emits_clusterStart he hnew
    have htt : e.trackType = VideoMediaType := by rw [hrec]; exact hwv
    have hkey : e.isKeyFrame = true := by
      rw [hrec]
      show (if w.trackType = VideoMediaType then decide (w.vid.frame_type = kICMFrameType_I)
        else true) = true
      rw [if_pos hwv]
      exact decide_eq_true hframe
    refine ⟨htt, hkey, hnew, hcs.1, hcs.2.1, ?_⟩
    rw [(emits_anatomy he).cue]
    exact decide_eq_true ⟨htt, hkey⟩

/-! ## Order of the cues -/

theorem whileLoop_add (env : Env) (m k : Nat) (s : Mux) :
    whileLoop env (m + k) s = whileLoop env k (whileLoop env m s) := by
  induction m generalizing s with
  | zero => simp [whileLoop]
  | succ m ih =>
    rw [Nat.succ_add]
    show whileLoop env (m + k) (whileStep env s) = whileLoop env k (whileLoop env m (whileStep env s))
    exact ih _

theorem cueTable_length (g : WebMExportGlobals) : (cueTable g).length = g.cueCount := by
  unfold cueTable
  rw [List.length_map, List.length_range]

theorem allKeyEnv_allKey : AllKey allKeyEnv := fun _ => rfl

theorem forStreams_append (env : Env) (bV bA : Bool) (a b : List GenericStream) :
    ∀ (done : List GenericStream) (c : Sel),
      forStreams env bV bA done (a ++ b) c =
        if (forStreams env bV bA done a c).2.2 = true then
          ((forStreams env bV bA done a c).1 ++ b, (forStreams env bV bA done a c).2.1, true)
        else
          forStreams env bV bA (forStreams env bV bA done a c).1 b
            (forStreams env bV bA done a c).2.1 := by
  induction a with
  | nil =>
    intro done c
    simp [forStreams_nil]
  | cons g a ih =>
    intro done c
    by_cases h : (produce env bV bA done.length g c).2.err ≠ 0
    · rw [List.cons_append, forStreams_cons_bail h, forStreams_cons_bail h]
      simp
    · rw [List.cons_append, forStreams_cons_go h, forStreams_cons_go h]
      exact ih _ _

theorem whileLoop_stopped (env : Env) (k : Nat) (s : Mux) (h : s.status ≠ Status.running) :
    whileLoop env k s = s := by
  induction k with
  | zero => rfl
  | succ k ih =>
    show whileLoop env k (whileStep env s) = s
    rw [whileStep_stopped h]
    exact ih

theorem compressVideo_err_call {env : Env} {vs : VideoStream} {e : ComponentResult}
    (h : (_compressVideo env vs).1 = e) (he : e ≠ 0) (i : Nat) :
    _compressVideoCalls i vs = [Event.compressNextFrame i] := by
  unfold _compressVideoCalls
  by_cases hc : vs.source.bQdFrame = true ∨ vs.source.eos = true
  · rw [compressVideo_no_call hc] at h
    exact absurd h.symm he
  · rw [if_neg hc]

/-- The pass of an iteration in which the producer of stream `i` fails:
it leaves through `goto bail` with that code, right after the failing call. -/
theorem selectionPass_fails {env : Env} {s : Mux} {i : Nat} {e : ComponentResult}
    (h : ProducerFails env s i e) :
    (selectionPass env s).2.2 = true ∧ (selectionPass env s).2.1.err = e ∧
    ∃ gs, s.globals.streams[i]? = some gs ∧
      (selectionPass env s).2.1.log = (passUpTo env s i).2.1.log ++ [producerCall gs i] := by
  obtain ⟨_, _, hok, he, gs, hgs, hfail⟩ := h
  have hlen : i < s.globals.streams.length := by
    rcases Nat.lt_or_ge i s.globals.streams.length with h | h
    · exact h
    · rw [List.getElem?_eq_none h] at hgs
      simp at hgs
  have hsplit : s.globals.streams =
      s.globals.streams.take i ++ gs :: s.globals.streams.drop (i + 1) := by
    have h1 := (List.take_append_drop i s.globals.streams).symm
    have h2 : s.globals.streams.drop i = gs :: s.globals.streams.drop (i + 1) := by
      rw [List.drop_eq_getElem_cons hlen]
      congr 1
      have := List.getElem?_eq_getElem hlen
      rw [hgs] at this
      exact (Option.some.inj this).symm
    rw [h2] at h1
    exact h1
  have hpre := forStreams_ok env s.globals.bExportVideo s.globals.bExportAudio
    (s.globals.streams.take i) [] _ (passInv_init s.err s.startNewCluster s.log) hok
  have hdone : (passUpTo env s i).1.length = i := by
    unfold passUpTo
    rw [hpre.1]
    simp
    omega
  have hsp : selectionPass env s =
      forStreams env s.globals.bExportVideo s.globals.bExportAudio (passUpTo env s i).1
        (gs :: s.globals.streams.drop (i + 1)) (passUpTo env s i).2.1 := by
    unfold selectionPass
    conv_lhs => rw [hsplit]
    rw [forStreams_append]
    have hok2 : ¬ (forStreams env s.globals.bExportVideo s.globals.bExportAudio []
        (List.take i s.globals.streams)
        { err := s.err, startNewCluster := s.startNewCluster, minTimeMs := ULONG_MAX,
          minTimeStream := none, allStreamsDone := true, log := s.log }).2.2 = true := by
      have : (passUpTo env s i).2.2 = false := hok
      unfold passUpTo at this
      rw [this]
      simp
    rw [if_neg hok2]
    rfl
  have hprod : (produce env s.globals.bExportVideo s.globals.bExportAudio i gs
        (passUpTo env s i).2.1).2.err = e ∧
      (produce env s.globals.bExportVideo s.globals.bExportAudio i gs
        (passUpTo env s i).2.1).2.log = (passUpTo env s i).2.1.log ++ [producerCall gs i] := by
    rcases hfail with ⟨hv, hq, hb, herr⟩ | ⟨hso, hq, hb, herr⟩
    · rw [produce_video ⟨hv, hq, hb⟩]
      refine ⟨herr, ?_⟩
      show _ ++ _compressVideoCalls i gs.vid = _
      rw [compressVideo_err_call herr he]
      unfold producerCall
      rw [if_pos hv]
    · have hnv : ¬ gs.trackType = VideoMediaType := by rw [hso]; exact sound_ne_video
      rw [produce_audio ⟨hso, hq, hb⟩]
      refine ⟨herr, ?_⟩
      show _ ++ _compressAudioCalls i gs.aud = _
      unfold _compressAudioCalls producerCall
      rw [if_neg (by rw [hq]; simp), if_neg hnv]
  have hbail : (produce env s.globals.bExportVideo s.globals.bExportAudio
      (passUpTo env s i).1.length gs (passUpTo env s i).2.1).2.err ≠ 0 := by
    rw [hdone, hprod.1]
    exact he
  rw [hsp, forStreams_cons_bail hbail, hdone]
  exact ⟨rfl, hprod.1, gs, hgs, hprod.2⟩

/-- A failing producer aborts the run. -/
theorem producer_failure_aborts (env : Env) (g : WebMExportGlobals) (n k i : Nat)
    (e : ComponentResult) (h : ProducerFails env (whileLoop env n (beforeLoop env g)) i e) :
    AbortedBy env g (n + 1 + k) (whileLoop env n (beforeLoop env g)) i e := by
  obtain ⟨hbail, herr, gs, hgs, hlog⟩ := selectionPass_fails h
  have hstep : whileStep env (whileLoop env n (beforeLoop env g)) =
      { afterPass env (whileLoop env n (beforeLoop env g)) with status := Status.bailed } := by
    rw [whileStep_body h.1 h.2.1]
    exact loopBody_bail hbail
  have hloop : whileLoop env (n + 1 + k) (beforeLoop env g) =
      { afterPass env (whileLoop env n (beforeLoop env g)) with status := Status.bailed } := by
    rw [whileLoop_add, whileLoop_succ, hstep]
    exact whileLoop_stopped env k _ (by simp)
  have hrun : muxRun env g (n + 1 + k) =
      { afterPass env (whileLoop env n (beforeLoop env g)) with status := Status.bailed } := by
    unfold muxRun
    simp only [hloop]
    rfl
  refine ⟨?_, ?_, gs, hgs, ?_⟩
  · unfold muxStreams
    simp only [hrun]
    exact congrArg some herr
  · rw [hrun]
    rfl
  · rw [hrun]
    exact hlog

/-! ## The arguments of `writeSimpleBlock` -/

theorem produce_log (env : Env) (bV bA : Bool) (i : Nat) (gs : GenericStream) (c : Sel) :
    ∃ calls, (produce env bV bA i gs c).2.log = c.log ++ calls ∧
      ∀ ev ∈ calls, isProducerCall ev = true := by
  by_cases h1 : gs.trackType = VideoMediaType ∧ gs.vid.source.bQdFrame = false ∧ bV = true
  · rw [produce_video h1]
    refine ⟨_compressVideoCalls i gs.vid, rfl, ?_⟩
    intro ev hev
    unfold _compressVideoCalls at hev
    split_ifs at hev
    · simp at hev
    · simp at hev
      rw [hev]; rfl
  · by_cases h3 : gs.trackType = SoundMediaType ∧ gs.aud.source.bQdFrame = false ∧ bA = true
    · rw [produce_audio h3]
      refine ⟨_compressAudioCalls i gs.aud, rfl, ?_⟩
      intro ev hev
      unfold _compressAudioCalls at hev
      split_ifs at hev
      · simp at hev
      · simp at hev
        rw [hev]; rfl
    · rw [produce_none h1 h3]
      exact ⟨[], by simp, by simp⟩

/-- A selection pass only calls encoders. -/
theorem forStreams_log (env : Env) (bV bA : Bool) (todo : List GenericStream) :
    ∀ (done : List GenericStream) (c : Sel),
      ∃ calls, (forStreams env bV bA done todo c).2.1.log = c.log ++ calls ∧
        ∀ ev ∈ calls, isProducerCall ev = true := by
  induction todo with
  | nil =>
    intro done c
    exact ⟨[], by simp [forStreams_nil], by simp⟩
  | cons gs todo ih =>
    intro done c
    obtain ⟨c1, hc1, hp1⟩ := produce_log env bV bA done.length gs c
    by_cases herr : (produce env bV bA done.length gs c).2.err ≠ 0
    · rw [forStreams_cons_bail herr]
      exact ⟨c1, hc1, hp1⟩
    · rw [forStreams_cons_go herr]
      obtain ⟨c2, hc2, hp2⟩ := ih (done ++ [(produce env bV bA done.length gs c).1])
        (consider done.length (produce env bV bA done.length gs c).1
          (produce env bV bA done.length gs c).2)
      refine ⟨c1 ++ c2, ?_, ?_⟩
      · rw [hc2, consider_log, hc1, List.append_assoc]
      · intro ev hev
        rcases List.mem_append.mp hev with h | h
        · exact hp1 ev h
        · exact hp2 ev h

theorem afterPass_log (env : Env) (s : Mux) :
    ∃ calls, (afterPass env s).log = s.log ++ calls ∧
      ∀ ev ∈ calls, isProducerCall ev = true :=
  forStreams_log env s.globals.bExportVideo s.globals.bExportAudio s.globals.streams [] _

theorem blockCall_winnerBlock (w : GenericStream) (c : ULong) (hav : isAV w)
    (hsmall : ulongSub w.source.blockTimeMs c ≤ 32767) : blockCall w c = winnerBlock w c := by
  unfold blockCall winnerBlock
  rcases hav with hv | hs
  · rw [source_video hv] at hsmall ⊢
    simp only [if_pos hv]
    rw [toShort_small hsmall]
  · have hnv : ¬ w.trackType = VideoMediaType := by rw [hs]; exact sound_ne_video
    rw [source_sound hs] at hsmall ⊢
    simp only [if_neg hnv]
    rw [toShort_small hsmall]

theorem emits_blockArguments {env : Env} {s : Mux} {e : Emitted} (h : Emits env s e) :
    BlockArguments env s e := by
  have an := emits_anatomy h
  have hsmall := emits_diff_small h
  obtain ⟨_, _, _, i, w, hi, hw, hav, hq, ht, hstep, he⟩ := emits_winner h
  obtain ⟨calls, hcalls, hprod⟩ := afterPass_log env s
  have hfr := emitBlock_frame env (afterPass env s) i w s.offset hav
  have hcl : e.clusterTime = (openCluster env (afterPass env s)).globals.clusterTime := by
    rw [he]; rfl
  have hsm : ulongSub w.source.blockTimeMs e.clusterTime ≤ 32767 := by
    rw [ht, ← an.time]; exact hsmall
  have hlen : i < (afterPass env s).globals.streams.length := by
    rcases List.getElem?_eq_some_iff.mp hw with ⟨hlt, _⟩
    exact hlt
  refine ⟨i, w, writtenStream env w, calls, hi, hw, hav, hq, ?_, ?_, hcalls, hprod, ?_,
    toShort_small hsm, ?_, writtenStream_not_queued env w hav⟩
  · rw [he]; rfl
  · rw [he]; rfl
  · rw [hstep, emitBlock_log env _ i w s.offset hav]
    unfold emitCalls
    rw [← hcl, blockCall_winnerBlock w e.clusterTime hav hsm, ← an.decision, ← an.time]
    have h4 : progressCalls env (afterPass env s).globals (Percent.ratio e.minTimeMs) =
        progressCalls env s.globals (Percent.ratio e.minTimeMs) :=
      progressCalls_congr env _ _ _ rfl rfl
    rw [h4]
    simp
  · rw [hstep, hfr.2.2.2.2.2.2.2.1]
    rw [List.getElem?_set_self hlen]

/-! ## The `Cues` element -/

theorem writeCuePoint_log (env : Env) (s : Mux) (cue : WebMCuePoint) :
    (writeCuePoint env s cue).log = s.log ++ cuePointCalls cue ∧
    (writeCuePoint env s cue).globals = s.globals := by
  simp [writeCuePoint, ebmlCall, cuePointCalls]

theorem foldl_writeCuePoint_log (env : Env) (f : Nat → WebMCuePoint) (l : List Nat) :
    ∀ s : Mux,
      (l.foldl (fun acc i => writeCuePoint env acc (f i)) s).log =
        s.log ++ ((l.map f).map cuePointCalls).flatten ∧
      (l.foldl (fun acc i => writeCuePoint env acc (f i)) s).globals = s.globals := by
  induction l with
  | nil => intro s; simp
  | cons a l ih =>
    intro s
    obtain ⟨h1, h2⟩ := ih (writeCuePoint env s (f a))
    obtain ⟨h3, h4⟩ := writeCuePoint_log env s (f a)
    rw [List.foldl_cons, h1, h2, h3, h4]
    simp

theorem writeCues_log (env : Env) (s : Mux) :
    (_writeCues env s).log = s.log ++ writeCuesCalls (cueTable s.globals) ∧
    (_writeCues env s).globals = s.globals := by
  obtain ⟨h1, h2⟩ := foldl_writeCuePoint_log env
    (fun i => s.globals.cueHandle.getD i (WebMCuePoint.mk 0 0 0 0))
    (List.range s.globals.cueCount)
    (ebmlCall env s (Event.Ebml_StartSubElement LocVar.cuesLoc EbmlID.Cues))
  have e1 : (_writeCues env s).log =
      ((List.range s.globals.cueCount).foldl
        (fun acc i => writeCuePoint env acc
          (s.globals.cueHandle.getD i (WebMCuePoint.mk 0 0 0 0)))
        (ebmlCall env s (Event.Ebml_StartSubElement LocVar.cuesLoc EbmlID.Cues))).log ++
      [Event.Ebml_EndSubElement LocVar.cuesLoc] := rfl
  have e2 : (_writeCues env s).globals =
      ((List.range s.globals.cueCount).foldl
        (fun acc i => writeCuePoint env acc
          (s.globals.cueHandle.getD i (WebMCuePoint.mk 0 0 0 0)))
        (ebmlCall env s (Event.Ebml_StartSubElement LocVar.cuesLoc EbmlID.Cues))).globals := rfl
  constructor
  · rw [e1, h1]
    unfold writeCuesCalls cueTable ebmlCall
    simp
  · rw [e2, h2]
    rfl

theorem closesLifo_cuePoints (table : List WebMCuePoint) (stack : List LocVar)
    (rest : List Event) :
    closesLifo stack ((table.map cuePointCalls).flatten ++ rest) = closesLifo stack rest := by
  induction table with
  | nil => simp
  | cons c table ih =>
    simp only [List.map_cons, List.flatten_cons, List.append_assoc]
    rw [← ih]
    simp [cuePointCalls, closesLifo]

theorem closesLifo_writeCuesCalls (table : List WebMCuePoint) :
    closesLifo [] (writeCuesCalls table) = true := by
  show closesLifo [LocVar.cuesLoc]
    ((table.map cuePointCalls).flatten ++ [Event.Ebml_EndSubElement LocVar.cuesLoc]) = true
  rw [closesLifo_cuePoints]
  rfl

theorem opened_append (c : EbmlID) (a b : List Event) :
    opened c (a ++ b) = opened c a + opened c b := by
  simp [opened]

theorem opened_cuePoints (c : EbmlID) (table : List WebMCuePoint) :
    opened c (table.map cuePointCalls).flatten =
      table.length * opened c (cuePointCalls (WebMCuePoint.mk 0 0 0 0)) := by
  induction table with
  | nil => simp [opened]
  | cons a table ih =>
    simp only [List.map_cons, List.flatten_cons, opened_append, ih, List.length_cons]
    have : opened c (cuePointCalls a) = opened c (cuePointCalls (WebMCuePoint.mk 0 0 0 0)) :=
      rfl
    rw [this]
    ring

theorem cuesWritten (env : Env) (s : Mux) : CuesWritten env s := by
  have hlen := cueTable_length s.globals
  refine ⟨(writeCues_log env s).1, hlen, ?_, ?_, ?_, ?_, ?_, closesLifo_writeCuesCalls _,
    (writeCues_log env s).2⟩
  · intro i hi
    unfold cueTable
    simp [hi]
  · intro h
    unfold cueTable
    apply List.ext_getElem?
    intro i
    by_cases hi : i < s.globals.cueCount
    · have hi2 : i < s.globals.cueHandle.length := by omega
      simp [hi, List.getD_eq_getElem?_getD, List.getElem?_eq_getElem hi2]
    · have hi2 : ¬ i < s.globals.cueHandle.length := by omega
      simp [List.getElem?_eq_none (Nat.le_of_not_lt hi2), Nat.le_of_not_lt hi]
  · unfold writeCuesCalls
    rw [opened_append, opened_append, opened_cuePoints]
    simp [opened, cuePointCalls]
  · unfold writeCuesCalls
    rw [opened_append, opened_append, opened_cuePoints, hlen]
    simp [opened, cuePointCalls]
  · unfold writeCuesCalls
    rw [opened_append, opened_append, opened_cuePoints, hlen]
    simp [opened, cuePointCalls]

/-! ## The fields of a cue -/

theorem blocksInCurrentCluster_append (l : List Emitted) (e : Emitted) :
    blocksInCurrentCluster (l ++ [e]) =
      (if e.newCluster = true then 0 else blocksInCurrentCluster l) + 1 := by
  unfold blocksInCurrentCluster
  rw [List.foldl_append]
  simp only [List.foldl_cons, List.foldl_nil]
  split_ifs <;> rfl

theorem openCluster_blocksInCluster (env : Env) (p : Mux) :
    (openCluster env p).blocksInCluster =
      if clusterDecision p = true then 0 else p.blocksInCluster := by
  rw [openCluster_eq]
  split_ifs <;> rfl

theorem writeWinner_blocksInCluster (env : Env) (s : Mux) (i : Nat) (gs : GenericStream)
    (o : Offset64) (hav : isAV gs) :
    (writeWinner env s i gs o).blocksInCluster = s.blocksInCluster + 1 := by
  rcases hav with hv | hs
  · rw [writeWinner_video env s i gs o hv]
  · rw [writeWinner_sound env s i gs o hs]

theorem emitBlock_blocksInCluster (env : Env) (p : Mux) (i : Nat) (gs : GenericStream)
    (o : Offset64) (hav : isAV gs) :
    (emitBlock env p i gs o).blocksInCluster = (openCluster env p).blocksInCluster + 1 := by
  rw [emitBlock_eq env p i gs o hav]
  split_ifs
  · exact writeWinner_blocksInCluster env _ i gs o hav
  · exact writeWinner_blocksInCluster env _ i gs o hav

/-- The counter `blocksInCluster` across an iteration that writes a block. -/
theorem emits_blockNumber {env : Env} {s : Mux} {e : Emitted} (h : Emits env s e) :
    e.blockNumber = (if e.newCluster = true then 0 else s.blocksInCluster) + 1 ∧
    (whileStep env s).blocksInCluster = e.blockNumber := by
  obtain ⟨_, _, _, i, w, _, _, hav, _, _, hstep, he⟩ := emits_winner h
  have h1 : e.blockNumber = (openCluster env (afterPass env s)).blocksInCluster + 1 := by
    rw [he]; rfl
  have h2 : e.newCluster = clusterDecision (afterPass env s) := by rw [he]; rfl
  have h3 : (afterPass env s).blocksInCluster = s.blocksInCluster := rfl
  constructor
  · rw [h1, openCluster_blocksInCluster, h2, h3]
  · rw [hstep, emitBlock_blocksInCluster env _ i w s.offset hav, h1]

/-- In a run, `blocksInCluster` counts the blocks of the current cluster. -/
theorem run_blocksInCluster (env : Env) (g : WebMExportGlobals) (n : Nat) :
    (whileLoop env n (beforeLoop env g)).blocksInCluster =
      blocksInCurrentCluster (whileLoop env n (beforeLoop env g)).emitted := by
  apply whileLoop_induction env
    (fun s => s.blocksInCluster = blocksInCurrentCluster s.emitted)
  · intro s hs
    rcases whileStep_cases env s with ⟨e, he⟩ | h1 | h1 | h1 | h1
    · have hb := emits_blockNumber he
      have hem : (whileStep env s).emitted = s.emitted ++ [e] := he
      show (whileStep env s).blocksInCluster = blocksInCurrentCluster (whileStep env s).emitted
      rw [hb.2, hb.1, hem, blocksInCurrentCluster_append, hs]
    · rw [h1]; exact hs
    · rw [h1]; exact hs
    · rw [h1]; exact hs
    · rw [h1]; exact hs
  · show (beforeLoop env g).blocksInCluster = blocksInCurrentCluster (beforeLoop env g).emitted
    rw [(beforeLoop_fields env g).1]
    rfl

theorem beforeLoop_firstL1Offset (env : Env) (g : WebMExportGlobals) :
    (beforeLoop env g).firstL1Offset =
      env.ebmlOffset (env.ebmlOffset 0 Event.writeHeader)
        (Event.Ebml_StartSubElement LocVar.startSegment EbmlID.Segment) := by
  have key : ∀ s4 : Mux, FrameEq s4
      (_updateProgressBar env
        { (_writeTracks env s4).1 with log := (_writeTracks env s4).1.log ++ [Event.HLock] }
        Percent.zero).1 := by
    intro s4
    have h3 : FrameEq (_writeTracks env s4).1
        { (_writeTracks env s4).1 with log := (_writeTracks env s4).1.log ++ [Event.HLock] } :=
      rfl
    exact ((frameEq_writeTracks env s4).trans h3).trans (frameEq_updateProgressBar env _ _)
  unfold beforeLoop
  exact (key _).firstL1Offset

/-- The cue appended for a key video block of a run. -/
theorem run_cue_fields (env : Env) (g : WebMExportGlobals) (n : Nat) (e : Emitted)
    (h : Emits env (whileLoop env n (beforeLoop env g)) e) (hc : e.cue = true) :
    CueFields env (whileLoop env n (beforeLoop env g)) := by
  obtain ⟨_, _, _, i, w, hi, hw, hav, _, _, _, he⟩ := emits_winner h
  have an := emits_anatomy h
  have hcues := emits_cues h
  simp only [if_pos hc] at hcues
  have hb := emits_blockNumber h
  have hrun := run_blocksInCluster env g n
  have hfirst := (run_cues env g n).1
  have hcue : e.cue = decide (w.trackType = VideoMediaType ∧ w.vid.frame_type = kICMFrameType_I) := by
    rw [he]; rfl
  rw [hcue] at hc
  have hk := of_decide_eq_true hc
  have htrack : e.trackID = w.vid.source.trackID := by
    rw [he]
    show w.source.trackID = _
    rw [source_video hk.1]
  have hem : (whileStep env (whileLoop env n (beforeLoop env g))).emitted =
      (whileLoop env n (beforeLoop env g)).emitted ++ [e] := h
  refine ⟨i, w, hi, hw, hk.1, hk.2, hcues.1, ?_⟩
  rw [hcues.2, an.cluster_after, hem, blocksInCurrentCluster_append, ← hrun, ← hb.1, an.offset,
    hfirst, beforeLoop_firstL1Offset, htrack]

/-! ## Progress reports -/

theorem progressMsgs_append (a b : List Event) :
    progressMsgs (a ++ b) = progressMsgs a ++ progressMsgs b := by
  induction a with
  | nil => rfl
  | cons ev a ih =>
    cases ev <;> simp [progressMsgs, ih]

theorem progressMsgs_producer {calls : List Event}
    (h : ∀ ev ∈ calls, isProducerCall ev = true) : progressMsgs calls = [] := by
  induction calls with
  | nil => rfl
  | cons ev calls ih =>
    have h1 := h ev (List.mem_cons_self _ _)
    have h2 := ih fun e he => h e (List.mem_cons_of_mem _ he)
    cases ev <;> simp [isProducerCall] at h1 <;> simp [progressMsgs, h2]

theorem progressMsgs_clusterCalls (t : ULong) : progressMsgs (clusterCalls t) = [] := by
  unfold clusterCalls
  split_ifs <;> rfl

theorem progressMsgs_afterPass (env : Env) (s : Mux) :
    progressMsgs (afterPass env s).log = progressMsgs s.log := by
  obtain ⟨calls, hc, hp⟩ := afterPass_log env s
  rw [hc, progressMsgs_append, progressMsgs_producer hp, List.append_nil]

/-- A step that writes no block sends nothing to the progress procedure. -/
theorem whileStep_quiet_progress (env : Env) (s : Mux) (h : ¬ ∃ e, Emits env s e) :
    progressMsgs (whileStep env s).log = progressMsgs s.log := by
  rcases whileStep_cases env s with he | h1 | h1 | h1 | h1
  · exact absurd he h
  · rw [h1]
  · rw [h1]
  · rw [h1]; exact progressMsgs_afterPass env s
  · rw [h1]; exact progressMsgs_afterPass env s

/-- The calls of an iteration up to and including `Ebml_EndSubElement`. -/
theorem emits_progress {env : Env} {s : Mux} {e : Emitted} (h : Emits env s e) :
    ∃ (calls : List Event) (payload : List Nat),
      progressMsgs calls = [] ∧
      (whileStep env s).log = s.log ++ calls ++
        [Event.writeSimpleBlock e.trackID e.timeCode (if e.isKeyFrame = true then 1 else 0) 0 0
          payload,
         Event.Ebml_EndSubElement LocVar.clusterStart] ++
        (if env.durationIsZero = false then
          progressCalls env s.globals (Percent.ratio e.minTimeMs) else []) := by
  obtain ⟨payload, hl⟩ := (emits_anatomy h).calls
  obtain ⟨calls, hc, hp⟩ := afterPass_log env s
  refine ⟨calls ++ (if e.newCluster = true then clusterCalls e.minTimeMs else []), payload, ?_, ?_⟩
  · rw [progressMsgs_append, progressMsgs_producer hp]
    split_ifs
    · exact progressMsgs_clusterCalls _
    · rfl
  · rw [hl, hc]
    simp

theorem emits_zero_progress {env : Env} {s : Mux} {e : Emitted} (h : Emits env s e)
    (hz : env.durationIsZero = true) :
    progressMsgs (whileStep env s).log = progressMsgs s.log := by
  obtain ⟨calls, payload, hc, hl⟩ := emits_progress h
  have hz2 : ¬ env.durationIsZero = false := by simp [hz]
  rw [hl, if_neg hz2]
  simp [progressMsgs_append, hc, progressMsgs]

theorem whileStep_zero_progress (env : Env) (s : Mux) (hz : env.durationIsZero = true) :
    progressMsgs (whileStep env s).log = progressMsgs s.log := by
  by_cases he : ∃ e, Emits env s e
  · obtain ⟨e, he⟩ := he
    exact emits_zero_progress he hz
  · exact whileStep_quiet_progress env s he

theorem whileLoop_zero_progress (env : Env) (s : Mux) (hz : env.durationIsZero = true)
    (n : Nat) : progressMsgs (whileLoop env n s).log = progressMsgs s.log := by
  apply whileLoop_induction env (fun t => progressMsgs t.log = progressMsgs s.log)
  · intro t ht
    show progressMsgs (whileStep env t).log = progressMsgs s.log
    rw [whileStep_zero_progress env t hz, ht]
  · rfl

/-- The last action of an iteration that writes a block, when the duration is
not zero, is the call of `_updateProgressBar`. -/
theorem emitBlock_progress (env : Env) (p : Mux) (i : Nat) (gs : GenericStream) (o : Offset64)
    (hav : isAV gs) (hz : env.durationIsZero = false) :
    ∃ s4 : Mux, emitBlock env p i gs o = (_updateProgressBar env s4 (Percent.ratio p.minTimeMs)).1 ∧
      s4.globals.progressOpen = p.globals.progressOpen ∧
      s4.globals.progressProc = p.globals.progressProc := by
  have hav2 : gs.trackType = VideoMediaType ∨ gs.trackType = SoundMediaType := hav
  have hmin : (writeWinner env (openCluster env p) i gs o).minTimeMs = p.minTimeMs := by
    rw [(writeWinner_frame env (openCluster env p) i gs o hav).2.2.1, (openCluster_frame env p).2.2.1]
  refine ⟨ebmlCall env
    { writeWinner env (openCluster env p) i gs o with
        emitted := (writeWinner env (openCluster env p) i gs o).emitted ++
          [emittedRecord (openCluster env p) i gs (clusterDecision p) o] }
    (Event.Ebml_EndSubElement LocVar.clusterStart), ?_, ?_, ?_⟩
  · unfold emitBlock
    simp only [if_pos hav2, if_pos hz]
    have : (ebmlCall env
        { writeWinner env (openCluster env p) i gs o with
            emitted := (writeWinner env (openCluster env p) i gs o).emitted ++
              [emittedRecord (openCluster env p) i gs (clusterDecision p) o] }
        (Event.Ebml_EndSubElement LocVar.clusterStart)).minTimeMs = p.minTimeMs := hmin
    rw [this]
  · show (writeWinner env (openCluster env p) i gs o).globals.progressOpen = _
    rw [(writeWinner_progress env _ i gs o hav).1, (openCluster_progress env p).1]
  · show (writeWinner env (openCluster env p) i gs o).globals.progressProc = _
    rw [(writeWinner_progress env _ i gs o hav).2, (openCluster_progress env p).2]

theorem progressRule (env : Env) (s : Mux) : ProgressRule env s where
  zero := whileStep_zero_progress env s
  quiet := whileStep_quiet_progress env s
  after_block := by
    intro hz e he
    obtain ⟨_, _, _, i, w, _, _, hav, _, _, hstep, _⟩ := emits_winner he
    obtain ⟨s4, h4, hopen, hproc⟩ := emitBlock_progress env (afterPass env s) i w s.offset hav hz
    obtain ⟨calls, payload, hc, hl⟩ := emits_progress he
    have htime := (emits_anatomy he).time
    rw [if_pos hz] at hl
    have hpc : progressCalls env s4.globals (Percent.ratio e.minTimeMs) =
        progressCalls env s.globals (Percent.ratio e.minTimeMs) :=
      progressCalls_congr env _ _ _ hopen hproc
    have hlog4 : (whileStep env s).log =
        s4.log ++ progressCalls env s.globals (Percent.ratio e.minTimeMs) := by
      rw [hstep, h4, updateProgressBar_eq, ← htime, ← hpc]
    have hs4 : s4.log = s.log ++ calls ++
        [Event.writeSimpleBlock e.trackID e.timeCode (if e.isKeyFrame = true then 1 else 0) 0 0
          payload,
         Event.Ebml_EndSubElement LocVar.clusterStart] := by
      rw [hlog4] at hl
      exact List.append_cancel_right hl
    refine ⟨s4, calls, payload, ?_, hs4, ?_, hlog4⟩
    · rw [hstep, h4, htime]
    · rw [hs4]
      simp [progressMsgs_append, hc, progressMsgs]

theorem progressInLoop (env : Env) (s : Mux) : ProgressInLoop env s :=
  ⟨progressRule env s, fun hz n => whileLoop_zero_progress env s hz n⟩

/-! ## The unbuffered reader -/

theorem toLong_small {x : Int} (h0 : 0 ≤ x) (h1 : x ≤ 2147483647) : toLong x = x := by
  unfold toLong
  omega

theorem read_bad {dh : DataH} {r : MkvReaderQT} {position length : Int}
    (h : badRequest r position length) :
    r.Read dh position length = { code := -1, calls := [], buffer := none } := by
  have h2 : r.m_dataRef = 0 ∨ position < 0 ∨ length < 0 ∨ position ≥ r.m_length := h
  unfold MkvReaderQT.Read
  rw [if_pos h2]

theorem read_zero {dh : DataH} {r : MkvReaderQT} {position length : Int}
    (h : ¬ badRequest r position length) (hl : length = 0) :
    r.Read dh position length = { code := 0, calls := [], buffer := none } := by
  have h2 : ¬ (r.m_dataRef = 0 ∨ position < 0 ∨ length < 0 ∨ position ≥ r.m_length) := h
  unfold MkvReaderQT.Read
  rw [if_neg h2, if_pos hl]

theorem read_call {dh : DataH} {r : MkvReaderQT} {position length : Int}
    (h : ¬ badRequest r position length) (hl : length ≠ 0) :
    r.Read dh position length =
      { code := if (dh.DataHScheduleData r.m_dataHandler (toLong position) length).1 ≠ 0
          then -2 else 0
        calls := [(r.m_dataHandler, toLong position, length)]
        buffer := some (dh.DataHScheduleData r.m_dataHandler (toLong position) length).2 } := by
  have h2 : ¬ (r.m_dataRef = 0 ∨ position < 0 ∨ length < 0 ∨ position ≥ r.m_length) := h
  unfold MkvReaderQT.Read
  rw [if_neg h2, if_neg hl]

theorem readerContract (dh : DataH) (r : MkvReaderQT) (position length : Int) :
    ReaderContract dh r position length := by
  refine ⟨?_, ?_, ?_, ?_, ?_⟩
  · constructor
    · intro hc
      by_contra hb
      by_cases hl : length = 0
      · rw [read_zero hb hl] at hc
        simp at hc
      · rw [read_call hb hl] at hc
        simp only at hc
        split_ifs at hc
        simp at hc
    · intro hb
      rw [read_bad hb]
  · intro hb
    rw [read_bad hb]
  · intro hb hl
    rw [read_zero hb hl]
    exact ⟨rfl, rfl⟩
  · intro hb hl
    rw [read_call hb hl]
    refine ⟨rfl, ?_, ?_, ?_⟩
    · intro hlen
      unfold badRequest at hb
      unfold LengthIsLong at hlen
      apply toLong_small <;> omega
    · intro h0
      simp [h0]
    · intro h0
      simp [h0]
  · intro total available
    exact ⟨rfl, rfl, rfl⟩

theorem open_busy (dh : DataH) (r : MkvReaderQT) (dataRef dataRefType : Nat)
    (h0 : dataRef ≠ 0) (h1 : r.m_dataRef ≠ 0) : (r.Open dh dataRef dataRefType).1 = -2 := by
  unfold MkvReaderQT.Open
  rw [if_neg h0, if_pos (Or.inl h1)]

/-- The state in which `Open` returns one of its codes -3 .. -6. -/
theorem open_failed (dh : DataH) (r : MkvReaderQT) (dataRef dataRefType : Nat)
    (hc : (r.Open dh dataRef dataRefType).1 = -3 ∨ (r.Open dh dataRef dataRefType).1 = -4 ∨
      (r.Open dh dataRef dataRefType).1 = -5 ∨ (r.Open dh dataRef dataRefType).1 = -6) :
    dataRef ≠ 0 ∧ r.m_dataRef = 0 ∧
    (r.Open dh dataRef dataRefType).2 = { r with m_dataRef := dataRef } := by
  unfold MkvReaderQT.Open at hc ⊢
  by_cases h0 : dataRef = 0
  · rw [if_pos h0] at hc
    simp at hc
  · by_cases h1 : r.m_dataRef ≠ 0 ∨ r.m_dataHandler ≠ 0
    · rw [if_neg h0, if_pos h1] at hc
      simp at hc
    · have h2 : r.m_dataRef = 0 := by
        by_contra h; exact h1 (Or.inl h)
      rw [if_neg h0, if_neg h1] at hc ⊢
      refine ⟨h0, h2, ?_⟩
      by_cases h3 : (dh.OpenAComponent dataRef dataRefType).1 ≠ 0
      · simp only [if_pos h3]
      · simp only [if_neg h3] at hc ⊢
        by_cases h4 : dh.DataHSetDataRef (dh.OpenAComponent dataRef dataRefType).2 dataRef ≠ 0
        · simp only [if_pos h4]
        · simp only [if_neg h4] at hc ⊢
          by_cases h5 : dh.DataHOpenForRead (dh.OpenAComponent dataRef dataRefType).2 ≠ 0
          · simp only [if_pos h5]
          · simp only [if_neg h5] at hc ⊢
            by_cases h6 : (dh.DataHGetFileSize (dh.OpenAComponent dataRef dataRefType).2).1 ≠ 0
            · simp only [if_pos h6]
            · simp only [if_neg h6] at hc
              simp at hc

/-! ## The buffered reader -/

theorem popToOutbuf_eq (n : Nat) :
    ∀ (q : List Nat) (pos : Int) (out : List Nat), n ≤ q.length →
      popToOutbuf n q pos out = (q.drop n, pos + n, out ++ q.take n) := by
  induction n with
  | zero => intro q pos out _; simp [popToOutbuf]
  | succ n ih =>
    intro q pos out h
    cases q with
    | nil => simp at h
    | cons a q =>
      have h2 : n ≤ q.length := by simpa using h
      show popToOutbuf n q (pos + 1) (out ++ [a]) = _
      rw [ih q (pos + 1) (out ++ [a]) h2]
      simp only [List.drop_succ_cons, List.take_succ_cons, List.append_assoc, List.singleton_append,
        Nat.cast_add, Nat.cast_one]
      congr 2
      ring

theorem readFromBuffer_eq (b : MkvBufferedReaderQT) (len : Int) (h0 : 0 < len)
    (hk : len.toNat ≤ b.m_buffer.length) :
    readFromBuffer b len =
      (0, { b with m_buffer := b.m_buffer.drop len.toNat, m_bufpos := b.m_bufpos + len },
        b.m_buffer.take len.toNat) := by
  unfold readFromBuffer
  rw [if_pos h0, popToOutbuf_eq _ _ _ _ hk]
  have : ((len.toNat : Nat) : Int) = len := Int.toNat_of_nonneg (le_of_lt h0)
  simp [this]

theorem toSizeT_small {x : Int} (h0 : 0 ≤ x) (h1 : x < 4294967296) : toSizeT x = x.toNat := by
  unfold toSizeT
  rw [Int.emod_eq_of_lt h0 h1]

/-- A contiguous request longer than the queue whose read from the file
succeeds: the bytes are read at `requestedPos`, put behind the bytes already
queued, and the request is served from the front of the queue. -/
theorem bufferedRead_grow (dh : DataH) (b : MkvBufferedReaderQT) (len : Int) (g : Nat)
    (h0 : 0 < len) (h1 : len < 2147483648) (hk : b.m_buffer.length < len.toNat)
    (hg : g = if len.toNat < b.m_chunksize then b.m_chunksize else len.toNat)
    (hcode : (b.toMkvReaderQT.Read dh b.m_bufpos (toLong g)).code = 0) :
    b.Read dh b.m_bufpos len =
      (0,
       { b with
          m_buffer := (b.m_buffer ++
            bytesRead (b.toMkvReaderQT.Read dh b.m_bufpos (toLong g)) g).drop len.toNat
          m_bufpos := b.m_bufpos + len },
       (b.m_buffer ++ bytesRead (b.toMkvReaderQT.Read dh b.m_bufpos (toLong g)) g).take
          len.toNat) := by
  have hs : toSizeT len = len.toNat := toSizeT_small (le_of_lt h0) (by omega)
  have hgl : len.toNat ≤ g := by
    rw [hg]; split_ifs <;> omega
  unfold MkvBufferedReaderQT.Read
  simp only [ne_eq, not_true_eq_false, if_false, hs, if_pos hk, ← hg, hcode]
  rw [readFromBuffer_eq _ _ h0]
  · rfl
  · simp only [List.length_append, List.length_map, List.length_range]
    omega

theorem chunkFile_getD (c i : Nat) (h : i < 2 * c) : (chunkFile c).getD i 0 = i % 256 := by
  unfold chunkFile
  rw [List.getD_eq_getElem?_getD, List.getElem?_map, List.getElem?_range h]
  rfl

theorem chunkFile_length (c : Nat) : (chunkFile c).length = 2 * c := by
  simp [chunkFile]

/-- A read of `len` bytes at offset `pos` that lies inside `chunkFile c`
succeeds and yields the bytes of the file. -/
theorem chunkFile_read (c pos len : Nat) (r : MkvReaderQT) (hr : r.m_dataRef ≠ 0)
    (hm : r.m_length = ((2 * c : Nat) : Int)) (hlen : 0 < len) (hin : pos + len ≤ 2 * c)
    (hc : c < 1073741824) :
    (r.Read (fileDataH (chunkFile c)) (pos : Int) (toLong (len : Nat))).code = 0 ∧
    bytesRead (r.Read (fileDataH (chunkFile c)) (pos : Int) (toLong (len : Nat))) len =
      (List.range len).map fun i => (pos + i) % 256 := by
  have hl : toLong ((len : Nat) : Int) = (len : Int) := toLong_small (by omega) (by omega)
  have hp : toLong ((pos : Nat) : Int) = (pos : Int) := toLong_small (by omega) (by omega)
  have hb : ¬ badRequest r (pos : Int) (len : Int) := by
    unfold badRequest
    rw [hm]
    push_neg
    refine ⟨hr, by omega, by omega, by omega⟩
  have hl0 : (len : Int) ≠ 0 := by omega
  rw [hl, read_call hb hl0, hp]
  have hcond : (0 : Int) ≤ (pos : Int) ∧ (0 : Int) ≤ (len : Int) ∧
      (pos : Int) + (len : Int) ≤ ((chunkFile c).length : Int) := by
    rw [chunkFile_length]
    refine ⟨by omega, by omega, by omega⟩
  have hd : (fileDataH (chunkFile c)).DataHScheduleData r.m_dataHandler (pos : Int) (len : Int) =
      (0, fun i => (chunkFile c).getD (pos + i) 0) := by
    show (if _ then _ else _) = _
    rw [if_pos hcond]
    simp
  rw [hd]
  refine ⟨by simp, ?_⟩
  unfold bytesRead
  apply List.map_congr_left
  intro i hi
  have hi2 : i < len := List.mem_range.mp hi
  simp only [Option.getD_some]
  exact chunkFile_getD c (pos + i) (by omega)

theorem firstRead_eq (m : Nat) (hc : m + 2 < 1073741824) :
    firstRead (m + 2) =
      (0,
       { openedReader (2 * (m + 2)) (m + 2) with
          m_buffer := [(m + 1) % 256], m_bufpos := (m : Int) + 1 },
       (List.range (m + 1)).map fun i => i % 256) := by
  have hread := chunkFile_read (m + 2) 0 (m + 2) (openedReader (2 * (m + 2)) (m + 2)).toMkvReaderQT
    (by simp [openedReader]) rfl (by omega) (by omega) hc
  have hlen : (((m + 2 : Nat) : Int) - 1).toNat = m + 1 := by omega
  have hgrow := bufferedRead_grow (fileDataH (chunkFile (m + 2)))
    (openedReader (2 * (m + 2)) (m + 2)) (((m + 2 : Nat) : Int) - 1) (m + 2)
    (by omega) (by omega) (by rw [hlen]; exact Nat.succ_pos m)
    (by rw [hlen]; simp [openedReader]) hread.1
  unfold firstRead
  have hpos : (openedReader (2 * (m + 2)) (m + 2)).m_bufpos = 0 := rfl
  rw [hpos] at hgrow
  have h0 : ((0 : Nat) : Int) = 0 := rfl
  rw [h0] at hread
  rw [hgrow, hread.2, hlen]
  have hq : (openedReader (2 * (m + 2)) (m + 2)).m_buffer = [] := rfl
  rw [hq]
  simp only [List.nil_append, zero_add]
  have hr : List.range (m + 2) = List.range (m + 1) ++ [m + 1] := List.range_succ (m + 1)
  rw [hr, List.map_append]
  have hl1 : ((List.range (m + 1)).map fun i => i % 256).length = m + 1 := by simp
  rw [List.drop_left' hl1, List.take_left' hl1]
  simp only [List.map_cons, List.map_nil]
  congr 2
  · simp [openedReader]
    omega

theorem secondRead_eq (m : Nat) (hc : m + 2 < 1073741824) :
    secondRead (m + 2) =
      (0,
       { openedReader (2 * (m + 2)) (m + 2) with
          m_buffer := (List.range (m + 1)).map fun i => (m + 2 + i) % 256
          m_bufpos := (m : Int) + 3 },
       [(m + 1) % 256, (m + 1) % 256]) := by
  unfold secondRead
  rw [firstRead_eq m hc]
  have hpos : ((m + 2 : Nat) : Int) - 1 = ((m + 1 : Nat) : Int) := by omega
  have hread := chunkFile_read (m + 2) (m + 1) (m + 2)
    (openedReader (2 * (m + 2)) (m + 2)).toMkvReaderQT
    (by simp [openedReader]) rfl (by omega) (by omega) hc
  have hgrow := bufferedRead_grow (fileDataH (chunkFile (m + 2)))
    { openedReader (2 * (m + 2)) (m + 2) with
        m_buffer := [(m + 1) % 256], m_bufpos := ((m + 1 : Nat) : Int) }
    2 (m + 2) (by omega) (by omega) (by simp)
    (by
      show m + 2 = if (2 : Int).toNat < m + 2 then m + 2 else (2 : Int).toNat
      have : (2 : Int).toNat = 2 := rfl
      rw [this]
      split_ifs <;> omega)
    hread.1
  have hcast : ((m : Int) + 1) = ((m + 1 : Nat) : Int) := by omega
  simp only at hgrow
  rw [hpos, hcast, hgrow, hread.2]
  have h2 : (2 : Int).toNat = 2 := rfl
  rw [h2]
  have hr : List.range (m + 2) = 0 :: (List.range (m + 1)).map Nat.succ :=
    List.range_succ_eq_map (m + 1)
  rw [hr]
  simp only [List.map_cons, List.map_map, List.singleton_append, List.take_succ_cons,
    List.take_zero, List.drop_succ_cons, List.drop_zero, add_zero]
  congr 2
  · congr 1
    · apply List.map_congr_left
      intro i _
      simp only [Function.comp, Nat.succ_eq_add_one]
      congr 1
      omega

/-! ## Deferred-size handles -/

theorem useAfter_append (h : LocVar) (a b : List Event) :
    useAfter h (a ++ b) = useFrom h (useAfter h a) b := by
  unfold useAfter useFrom
  rw [List.foldl_append]

theorem useFrom_append (h : LocVar) (u : HandleUse) (a b : List Event) :
    useFrom h u (a ++ b) = useFrom h (useFrom h u a) b := by
  unfold useFrom
  rw [List.foldl_append]

theorem useFrom_nil (h : LocVar) (u : HandleUse) : useFrom h u [] = u := rfl

theorem useFrom_cons (h : LocVar) (u : HandleUse) (ev : Event) (l : List Event) :
    useFrom h u (ev :: l) = useFrom h (useStep h u ev) l := rfl

theorem useStep_not_touch {h : LocVar} {ev : Event} (u : HandleUse)
    (ht : touches h ev = false) : useStep h u ev = u := by
  cases ev <;> simp [touches] at ht <;> simp [useStep, ht]

theorem useFrom_not_touch {h : LocVar} {seg : List Event} (u : HandleUse)
    (ht : ∀ ev ∈ seg, touches h ev = false) : useFrom h u seg = u := by
  induction seg generalizing u with
  | nil => rfl
  | cons ev seg ih =>
    rw [useFrom_cons, useStep_not_touch u (ht ev (List.mem_cons_self _ _))]
    exact ih u fun e he => ht e (List.mem_cons_of_mem _ he)

theorem touches_of_not_op {ev : Event} (h : LocVar) (hop : isEbmlOp ev = false) :
    touches h ev = false := by
  cases ev <;> simp [isEbmlOp] at hop <;> rfl

theorem isEbmlOp_producer {ev : Event} (hp : isProducerCall ev = true) :
    isEbmlOp ev = false := by
  cases ev <;> simp [isProducerCall] at hp <;> rfl

theorem isEbmlOp_progressCalls (env : Env) (g : WebMExportGlobals) (p : Percent) :
    ∀ ev ∈ progressCalls env g p, isEbmlOp ev = false := by
  intro ev hev
  unfold progressCalls at hev
  simp only [List.mem_append] at hev
  rcases hev with (hev | hev) | hev <;> split_ifs at hev <;> simp at hev <;> rw [hev] <;> rfl

theorem touches_clusterCalls {h : LocVar} (hh : h ≠ LocVar.clusterStart) (t : ULong) :
    ∀ ev ∈ clusterCalls t, touches h ev = false := by
  intro ev hev
  have hne : ¬ LocVar.clusterStart = h := fun e => hh e.symm
  unfold clusterCalls at hev
  simp only [List.mem_append] at hev
  rcases hev with hev | hev
  · split_ifs at hev <;> simp at hev
    rw [hev]
    simp [touches, hne]
  · simp at hev
    rcases hev with hev | hev <;> rw [hev] <;> simp [touches, hne]

theorem atLeastOnce_cluster_segment (u : HandleUse) (hu : AtLeastOnce u) (b : Bool) (t : ULong)
    (trackID : Nat) (tc : Int) (key : Nat) (payload : List Nat) :
    AtLeastOnce (useFrom LocVar.clusterStart u
      ((if b = true then clusterCalls t else []) ++
        [Event.writeSimpleBlock trackID tc key 0 0 payload,
         Event.Ebml_EndSubElement LocVar.clusterStart])) := by
  obtain ⟨p, cl⟩ := u
  obtain ⟨h1, h2⟩ := hu
  simp only at h1 h2
  cases b with
  | false =>
    cases p with
    | none =>
      simp only [Bool.false_eq_true, if_false, List.nil_append, useFrom, List.foldl, useStep,
        if_true, Option.map_none']
      exact ⟨h1, fun k hk => by simp at hk⟩
    | some k0 =>
      simp only [Bool.false_eq_true, if_false, List.nil_append, useFrom, List.foldl, useStep,
        if_true, Option.map_some']
      refine ⟨h1, fun k hk => ?_⟩
      simp at hk
      omega
  | true =>
    by_cases ht : t ≠ 0
    · cases p with
      | none =>
        simp only [clusterCalls, if_pos ht, if_true, List.append_assoc, List.singleton_append,
          List.cons_append, List.nil_append, useFrom, List.foldl, useStep, Option.map_none',
          Option.toList, List.append_nil, Option.map_some']
        refine ⟨h1, fun k hk => ?_⟩
        simp at hk
        omega
      | some k0 =>
        simp only [clusterCalls, if_pos ht, if_true, List.append_assoc, List.singleton_append,
          List.cons_append, List.nil_append, useFrom, List.foldl, useStep, Option.map_some',
          Option.toList]
        refine ⟨fun k hk => ?_, fun k hk => ?_⟩
        · simp at hk
          rcases hk with hk | hk
          · exact h1 k hk
          · omega
        · simp at hk
          omega
    · cases p with
      | none =>
        simp only [clusterCalls, if_neg ht, if_true, List.append_assoc, List.singleton_append,
          List.cons_append, List.nil_append, useFrom, List.foldl, useStep, Option.map_some',
          Option.toList, List.append_nil]
        refine ⟨h1, fun k hk => ?_⟩
        simp at hk
        omega
      | some k0 =>
        simp only [clusterCalls, if_neg ht, if_true, List.append_assoc, List.singleton_append,
          List.cons_append, List.nil_append, useFrom, List.foldl, useStep, Option.map_some',
          Option.toList]
        refine ⟨fun k hk => ?_, fun k hk => ?_⟩
        · simp at hk
          rcases hk with hk | hk
          · exact h1 k hk
          · rw [hk]; exact h2 k0 rfl
        · simp at hk
          omega

/-- The calls a step of the loop adds to the log: none on a handle other than
`globals->clusterStart`, and on that one none that leaves an element without an
`Ebml_EndSubElement`. -/
theorem whileStep_handles (env : Env) (s : Mux) :
    ∃ seg, (whileStep env s).log = s.log ++ seg ∧
      (∀ h, h ≠ LocVar.clusterStart → ∀ ev ∈ seg, touches h ev = false) ∧
      (∀ u, AtLeastOnce u → AtLeastOnce (useFrom LocVar.clusterStart u seg)) := by
  obtain ⟨pc, hpc, hprod⟩ := afterPass_log env s
  have hpcn : ∀ h : LocVar, ∀ ev ∈ pc, touches h ev = false := fun h ev hev =>
    touches_of_not_op h (isEbmlOp_producer (hprod ev hev))
  have quiet : ∀ seg : List Event, (∀ h : LocVar, ∀ ev ∈ seg, touches h ev = false) →
      (∀ h, h ≠ LocVar.clusterStart → ∀ ev ∈ seg, touches h ev = false) ∧
      (∀ u, AtLeastOnce u → AtLeastOnce (useFrom LocVar.clusterStart u seg)) := by
    intro seg hseg
    refine ⟨fun h _ => hseg h, fun u hu => ?_⟩
    rw [useFrom_not_touch u (hseg LocVar.clusterStart)]
    exact hu
  rcases whileStep_cases env s with ⟨e, he⟩ | h1 | h1 | h1 | h1
  · obtain ⟨payload, hl⟩ := (emits_anatomy he).calls
    refine ⟨pc ++ ((if e.newCluster = true then clusterCalls e.minTimeMs else []) ++
      [Event.writeSimpleBlock e.trackID e.timeCode (if e.isKeyFrame = true then 1 else 0) 0 0
        payload, Event.Ebml_EndSubElement LocVar.clusterStart]) ++
      (if env.durationIsZero = false then
        progressCalls env s.globals (Percent.ratio e.minTimeMs) else []), ?_, ?_, ?_⟩
    · rw [hl, hpc]
      simp
    · intro h hh ev hev
      have hne : ¬ LocVar.clusterStart = h := fun e => hh e.symm
      simp only [List.mem_append] at hev
      rcases hev with (hev | hev | hev) | hev
      · exact hpcn h ev hev
      · split_ifs at hev
        · exact touches_clusterCalls hh _ ev hev
        · simp at hev
      · simp at hev
        rcases hev with hev | hev <;> rw [hev] <;> simp [touches, hne]
      · split_ifs at hev
        · exact touches_of_not_op h (isEbmlOp_progressCalls env _ _ ev hev)
        · simp at hev
    · intro u hu
      rw [useFrom_append, useFrom_append, useFrom_not_touch u (hpcn LocVar.clusterStart)]
      have h2 := atLeastOnce_cluster_segment u hu e.newCluster e.minTimeMs e.trackID e.timeCode
        (if e.isKeyFrame = true then 1 else 0) payload
      rw [useFrom_not_touch]
      · exact h2
      · intro ev hev
        split_ifs at hev
        · exact touches_of_not_op _ (isEbmlOp_progressCalls env _ _ ev hev)
        · simp at hev
  · exact ⟨[], by rw [h1]; simp, quiet [] (by simp)⟩
  · exact ⟨[], by rw [h1]; simp, quiet [] (by simp)⟩
  · exact ⟨pc, by rw [h1]; exact hpc, quiet pc hpcn⟩
  · exact ⟨pc, by rw [h1]; exact hpc, quiet pc hpcn⟩

/-- The same for any number of steps. -/
theorem whileLoop_handles (env : Env) (s : Mux) (n : Nat) :
    ∃ seg, (whileLoop env n s).log = s.log ++ seg ∧
      (∀ h, h ≠ LocVar.clusterStart → ∀ ev ∈ seg, touches h ev = false) ∧
      (∀ u, AtLeastOnce u → AtLeastOnce (useFrom LocVar.clusterStart u seg)) := by
  apply whileLoop_induction env (fun t => ∃ seg, t.log = s.log ++ seg ∧
      (∀ h, h ≠ LocVar.clusterStart → ∀ ev ∈ seg, touches h ev = false) ∧
      (∀ u, AtLeastOnce u → AtLeastOnce (useFrom LocVar.clusterStart u seg)))
  · intro t ⟨seg, hlog, hother, hcl⟩
    obtain ⟨seg2, hlog2, hother2, hcl2⟩ := whileStep_handles env t
    refine ⟨seg ++ seg2, ?_, ?_, ?_⟩
    · rw [hlog2, hlog, List.append_assoc]
    · intro h hh ev hev
      rcases List.mem_append.mp hev with hev | hev
      · exact hother h hh ev hev
      · exact hother2 h hh ev hev
    · intro u hu
      rw [useFrom_append]
      exact hcl2 _ (hcl u hu)
  · exact ⟨[], by simp, by simp, fun u hu => hu⟩

theorem writeTracksLoop_log (env : Env) (l : List GenericStream) :
    ∀ (i : Nat) (s : Mux) (err : ComponentResult),
      ∃ tr, (writeTracksLoop env i l s err).1.log = s.log ++ tr ∧
        ∀ ev ∈ tr, isEbmlOp ev = false := by
  induction l with
  | nil => intro i s err; exact ⟨[], by simp [writeTracksLoop], by simp⟩
  | cons gs rest ih =>
    intro i s err
    have step : ∀ (ev : Event) (e2 : ComponentResult), isEbmlOp ev = false →
        ∃ tr, (writeTracksLoop env (i + 1) rest (ebmlCall env s ev) e2).1.log = s.log ++ tr ∧
          ∀ e ∈ tr, isEbmlOp e = false := by
      intro ev e2 hev
      obtain ⟨tr, h1, h2⟩ := ih (i + 1) (ebmlCall env s ev) e2
      refine ⟨ev :: tr, ?_, ?_⟩
      · rw [h1]
        simp [ebmlCall]
      · intro e he
        rcases List.mem_cons.mp he with he | he
        · rw [he]; exact hev
        · exact h2 e he
    unfold writeTracksLoop
    split_ifs
    · exact step _ _ rfl
    · exact ⟨[], by simp, by simp⟩
    · exact step _ _ rfl
    · exact step _ _ rfl
    · exact ih _ _ _

/-- The calls made before the loop when `_writeTracks` runs to its end. -/
theorem beforeLoop_log (env : Env) (g : WebMExportGlobals) (ht : TracksComplete env g) :
    ∃ tr prog, (beforeLoop env g).log =
      [Event.writeHeader,
       Event.Ebml_StartSubElement LocVar.startSegment EbmlID.Segment,
       Event.writeSegmentInformation g.webmTimeCodeScale,
       Event.Ebml_StartSubElement LocVar.trackStart EbmlID.Tracks] ++ tr ++
      [Event.Ebml_EndSubElement LocVar.trackStart, Event.HLock] ++ prog ∧
      (∀ ev ∈ tr, isEbmlOp ev = false) ∧ (∀ ev ∈ prog, isEbmlOp ev = false) := by
  obtain ⟨tr, htr, hop⟩ := writeTracksLoop_log env g.streams 0
    (ebmlCall env (beforeTracks env g)
      (Event.Ebml_StartSubElement LocVar.trackStart EbmlID.Tracks)) noErr
  have hwt : (_writeTracks env (beforeTracks env g)).1.log =
      [Event.writeHeader,
       Event.Ebml_StartSubElement LocVar.startSegment EbmlID.Segment,
       Event.writeSegmentInformation g.webmTimeCodeScale,
       Event.Ebml_StartSubElement LocVar.trackStart EbmlID.Tracks] ++ tr ++
      [Event.Ebml_EndSubElement LocVar.trackStart] := by
    have ht2 : (writeTracksLoop env 0
        (ebmlCall env (beforeTracks env g)
          (Event.Ebml_StartSubElement LocVar.trackStart EbmlID.Tracks)).globals.streams
        (ebmlCall env (beforeTracks env g)
          (Event.Ebml_StartSubElement LocVar.trackStart EbmlID.Tracks)) noErr).2.2 = false := ht
    have hne : ¬ (writeTracksLoop env 0
        (ebmlCall env (beforeTracks env g)
          (Event.Ebml_StartSubElement LocVar.trackStart EbmlID.Tracks)).globals.streams
        (ebmlCall env (beforeTracks env g)
          (Event.Ebml_StartSubElement LocVar.trackStart EbmlID.Tracks)) noErr).2.2 = true := by
      rw [ht2]; simp
    unfold _writeTracks
    simp only [if_neg hne]
    show (writeTracksLoop env 0 g.streams _ noErr).1.log ++ _ = _
    rw [htr]
    rfl
  refine ⟨tr, progressCalls env (_writeTracks env (beforeTracks env g)).1.globals Percent.zero,
    ?_, hop, isEbmlOp_progressCalls env _ _⟩
  show (_updateProgressBar env
    { (_writeTracks env (beforeTracks env g)).1 with
        log := (_writeTracks env (beforeTracks env g)).1.log ++ [Event.HLock] }
    Percent.zero).1.log = _
  rw [updateProgressBar_eq]
  simp only [hwt]
  simp

/-- The calls made after the loop. -/
theorem afterLoop_log (env : Env) (s : Mux) :
    ∃ prog, (afterLoop env s).log =
      s.log ++ writeCuesCalls (cueTable s.globals) ++
        [Event.Ebml_EndSubElement LocVar.startSegment, Event.HUnlock] ++ prog ∧
      ∀ ev ∈ prog, isEbmlOp ev = false := by
  refine ⟨progressCalls env (_writeCues env s).globals Percent.hundred, ?_,
    isEbmlOp_progressCalls env _ _⟩
  unfold afterLoop
  simp only
  rw [updateProgressBar_eq]
  simp only [ebmlCall, (writeCues_log env s).1]
  simp

theorem touches_cuePoints {h : LocVar} (h1 : h ≠ LocVar.cueHead) (h2 : h ≠ LocVar.trackLoc)
    (table : List WebMCuePoint) :
    ∀ ev ∈ (table.map cuePointCalls).flatten, touches h ev = false := by
  have n1 : ¬ LocVar.cueHead = h := fun e => h1 e.symm
  have n2 : ¬ LocVar.trackLoc = h := fun e => h2 e.symm
  intro ev hev
  simp only [List.mem_flatten, List.mem_map] at hev
  obtain ⟨l, ⟨cue, _, rfl⟩, hev⟩ := hev
  simp only [cuePointCalls, List.mem_cons, List.mem_singleton] at hev
  rcases hev with rfl | rfl | rfl | rfl | rfl | rfl | rfl | rfl | hnil
  · simp [touches, n1]
  · rfl
  · simp [touches, n2]
  · rfl
  · rfl
  · rfl
  · simp [touches, n2]
  · simp [touches, n1]
  · simp at hnil

theorem exactlyOnce_cuePoint (h : LocVar) (hh : h = LocVar.cueHead ∨ h = LocVar.trackLoc)
    (u : HandleUse) (hu : ExactlyOnce u) (cue : WebMCuePoint) :
    ExactlyOnce (useFrom h u (cuePointCalls cue)) := by
  obtain ⟨p, cl⟩ := u
  obtain ⟨h1, h2⟩ := hu
  simp only at h1 h2
  have hcl : ∀ k ∈ cl ++ p.toList, k = 1 := by
    intro k hk
    rcases List.mem_append.mp hk with hk | hk
    · exact h1 k hk
    · cases p with
      | none => simp at hk
      | some k0 =>
        simp at hk
        rw [hk]
        exact h2 k0 rfl
  rcases hh with rfl | rfl
  · simp only [cuePointCalls, useFrom, List.foldl, useStep, if_true]
    refine ⟨hcl, fun k hk => ?_⟩
    simp at hk
    omega
  · simp only [cuePointCalls, useFrom, List.foldl, useStep, if_true]
    refine ⟨hcl, fun k hk => ?_⟩
    simp at hk
    omega

theorem exactlyOnce_cuePoints (h : LocVar) (hh : h = LocVar.cueHead ∨ h = LocVar.trackLoc)
    (table : List WebMCuePoint) :
    ∀ u, ExactlyOnce u → ExactlyOnce (useFrom h u (table.map cuePointCalls).flatten) := by
  induction table with
  | nil => intro u hu; exact hu
  | cons cue table ih =>
    intro u hu
    simp only [List.map_cons, List.flatten_cons]
    rw [useFrom_append]
    exact ih _ (exactlyOnce_cuePoint h hh u hu cue)

/-- The use of a handle other than `globals->clusterStart` in a log made of
the calls before the loop, calls that do not touch the handle, and the calls
after the loop. -/
theorem exactlyOnce_run (h : LocVar) (hh : h ≠ LocVar.clusterStart) (scale : Nat)
    (tr prog0 seg prog : List Event) (table : List WebMCuePoint)
    (htr : ∀ ev ∈ tr, isEbmlOp ev = false) (hprog0 : ∀ ev ∈ prog0, isEbmlOp ev = false)
    (hseg : ∀ ev ∈ seg, touches h ev = false) (hprog : ∀ ev ∈ prog, isEbmlOp ev = false) :
    ExactlyOnce (useAfter h
      ([Event.writeHeader,
        Event.Ebml_StartSubElement LocVar.startSegment EbmlID.Segment,
        Event.writeSegmentInformation scale,
        Event.Ebml_StartSubElement LocVar.trackStart EbmlID.Tracks] ++ tr ++
       [Event.Ebml_EndSubElement LocVar.trackStart, Event.HLock] ++ prog0 ++ seg ++
       writeCuesCalls table ++
       [Event.Ebml_EndSubElement LocVar.startSegment, Event.HUnlock] ++ prog)) := by
  have n1 : ∀ u, useFrom h u tr = u := fun u =>
    useFrom_not_touch u fun ev hev => touches_of_not_op h (htr ev hev)
  have n2 : ∀ u, useFrom h u prog0 = u := fun u =>
    useFrom_not_touch u fun ev hev => touches_of_not_op h (hprog0 ev hev)
  have n3 : ∀ u, useFrom h u seg = u := fun u => useFrom_not_touch u hseg
  have n4 : ∀ u, useFrom h u prog = u := fun u =>
    useFrom_not_touch u fun ev hev => touches_of_not_op h (hprog ev hev)
  unfold writeCuesCalls
  simp only [useAfter_append, useFrom_append, n1, n2, n3, n4]
  by_cases hc : h = LocVar.cueHead ∨ h = LocVar.trackLoc
  · have hcue := exactlyOnce_cuePoints h hc table
    have hstart : useFrom h
        (useFrom h
          (useAfter h
            [Event.writeHeader,
             Event.Ebml_StartSubElement LocVar.startSegment EbmlID.Segment,
             Event.writeSegmentInformation scale,
             Event.Ebml_StartSubElement LocVar.trackStart EbmlID.Tracks])
          [Event.Ebml_EndSubElement LocVar.trackStart, Event.HLock])
        [Event.Ebml_StartSubElement LocVar.cuesLoc EbmlID.Cues] = {} := by
      rcases hc with rfl | rfl <;> rfl
    rw [hstart]
    have hend : ∀ u, useFrom h
        (useFrom h u [Event.Ebml_EndSubElement LocVar.cuesLoc])
        [Event.Ebml_EndSubElement LocVar.startSegment, Event.HUnlock] = u := by
      intro u
      rcases hc with rfl | rfl <;> rfl
    rw [hend]
    exact hcue _ ⟨by simp, by simp⟩
  · have hc1 : h ≠ LocVar.cueHead := fun e => hc (Or.inl e)
    have hc2 : h ≠ LocVar.trackLoc := fun e => hc (Or.inr e)
    rw [useFrom_not_touch _ (touches_cuePoints hc1 hc2 table)]
    cases h
    all_goals first
      | exact absurd rfl hh
      | exact absurd rfl hc1
      | exact absurd rfl hc2
      | (refine ⟨?_, ?_⟩ <;> simp [useAfter, useFrom, useStep])

/-- The handles of a run that reaches the end of the loop. -/
theorem run_handlesClosed (env : Env) (g : WebMExportGlobals) (n : Nat)
    (hfin : (muxRun env g n).status = Status.finished) (ht : TracksComplete env g) :
    HandlesClosed (muxRun env g n).log := by
  have hrun : muxRun env g n = afterLoop env (whileLoop env n (beforeLoop env g)) := by
    unfold muxRun at hfin ⊢
    simp only at hfin ⊢
    by_cases hs : (whileLoop env n (beforeLoop env g)).status = Status.finished
    · rw [if_pos hs]
    · rw [if_neg hs] at hfin
      exact absurd hfin hs
  obtain ⟨tr, prog0, hpre, htr, hprog0⟩ := beforeLoop_log env g ht
  obtain ⟨seg, hseg, hother, hcl⟩ := whileLoop_handles env (beforeLoop env g) n
  obtain ⟨prog, hpost, hprog⟩ := afterLoop_log env (whileLoop env n (beforeLoop env g))
  have hlog : (muxRun env g n).log =
      [Event.writeHeader,
        Event.Ebml_StartSubElement LocVar.startSegment EbmlID.Segment,
        Event.writeSegmentInformation g.webmTimeCodeScale,
        Event.Ebml_StartSubElement LocVar.trackStart EbmlID.Tracks] ++ tr ++
       [Event.Ebml_EndSubElement LocVar.trackStart, Event.HLock] ++ prog0 ++ seg ++
       writeCuesCalls (cueTable (whileLoop env n (beforeLoop env g)).globals) ++
       [Event.Ebml_EndSubElement LocVar.startSegment, Event.HUnlock] ++ prog := by
    rw [hrun, hpost, hseg, hpre]
  constructor
  · intro h hh k hk
    have hex := exactlyOnce_run h hh g.webmTimeCodeScale tr prog0 seg prog
      (cueTable (whileLoop env n (beforeLoop env g)).globals) htr hprog0 (hother h hh) hprog
    rw [← hlog] at hex
    unfold handleUses at hk
    rcases List.mem_append.mp hk with hk | hk
    · exact hex.1 k hk
    · cases hp : (useAfter h (muxRun env g n).log).pending with
      | none => rw [hp] at hk; simp at hk
      | some k0 =>
        rw [hp] at hk
        simp at hk
        rw [hk]
        exact hex.2 k0 hp
  · have hpre0 : useAfter LocVar.clusterStart (beforeLoop env g).log = {} := by
      rw [hpre]
      simp only [useAfter_append]
      rw [useFrom_not_touch _ fun ev hev => touches_of_not_op _ (hprog0 ev hev)]
      have h1 : ∀ u, useFrom LocVar.clusterStart u
          [Event.Ebml_EndSubElement LocVar.trackStart, Event.HLock] = u := fun _ => rfl
      rw [h1, useFrom_not_touch _ fun ev hev => touches_of_not_op _ (htr ev hev)]
      rfl
    have hpost0 : ∀ u, useFrom LocVar.clusterStart u
        (writeCuesCalls (cueTable (whileLoop env n (beforeLoop env g)).globals) ++
          [Event.Ebml_EndSubElement LocVar.startSegment, Event.HUnlock] ++ prog) = u := by
      intro u
      unfold writeCuesCalls
      simp only [useFrom_append]
      rw [useFrom_not_touch _ fun ev hev => touches_of_not_op _ (hprog ev hev)]
      have h1 : ∀ v, useFrom LocVar.clusterStart v
          [Event.Ebml_EndSubElement LocVar.startSegment, Event.HUnlock] = v := fun _ => rfl
      have h2 : ∀ v, useFrom LocVar.clusterStart v
          [Event.Ebml_EndSubElement LocVar.cuesLoc] = v := fun _ => rfl
      have h3 : ∀ v, useFrom LocVar.clusterStart v
          [Event.Ebml_StartSubElement LocVar.cuesLoc EbmlID.Cues] = v := fun _ => rfl
      rw [h1, h2, useFrom_not_touch _ (touches_cuePoints (by decide) (by decide) _), h3]
    have hall : AtLeastOnce (useAfter LocVar.clusterStart (muxRun env g n).log) := by
      rw [hrun, hpost, List.append_assoc, List.append_assoc, useAfter_append,
        ← List.append_assoc, hpost0, hseg, useAfter_append, hpre0]
      exact hcl _ ⟨by simp, by simp⟩
    intro k hk
    unfold handleUses at hk
    rcases List.mem_append.mp hk with hk | hk
    · exact hall.1 k hk
    · cases hp : (useAfter LocVar.clusterStart (muxRun env g n).log).pending with
      | none => rw [hp] at hk; simp at hk
      | some k0 =>
        rw [hp] at hk
        simp at hk
        rw [hk]
        exact hall.2 k0 hp

/-! ## The seek head -/

theorem writeSeekElement_eq (wd : Widths) (w : EbmlGlobal) (binaryId : EbmlID) (Loc : Nat) :
    _writeSeekElement wd w binaryId Loc =
      { w with
          offset := w.offset + seekSize wd Loc
          start := w.offset + wd.id EbmlID.Seek
          calls := w.calls ++ seekCalls wd w.offset binaryId Loc } := by
  simp [_writeSeekElement, Ebml_StartSubElement, Ebml_WriteBinary, Ebml_SerializeUnsigned64,
    Ebml_EndSubElement, EbmlGlobal.setLoc, seekCalls, seekSize, Nat.add_assoc]

theorem seekInfoWritten (wd : Widths) (w : EbmlGlobal) (trackLoc cueLoc clusterLoc : Nat) :
    SeekInfoWritten wd w trackLoc cueLoc clusterLoc := by
  unfold SeekInfoWritten _writeMetaSeekInformation
  simp only [writeSeekElement_eq, Bool.false_eq_true, if_false, if_true]
  refine ⟨⟨?_, ?_, ?_⟩, ?_, ?_⟩
  · simp [Ebml_SetEbmlLoc, Ebml_GetEbmlLoc, EbmlGlobal.setLoc, EbmlGlobal.getLoc]
  · simp [Ebml_SetEbmlLoc, Ebml_GetEbmlLoc, EbmlGlobal.setLoc, EbmlGlobal.getLoc]
  · simp [Ebml_SetEbmlLoc, Ebml_GetEbmlLoc, EbmlGlobal.setLoc, EbmlGlobal.getLoc, threeSeeks]
  · simp [Ebml_StartSubElement, Ebml_EndSubElement, EbmlGlobal.setLoc, threeSeeks]
  · simp [Ebml_StartSubElement, Ebml_EndSubElement, EbmlGlobal.setLoc]

/-! ## Runs on producers with finitely many samples -/

theorem sum_set_succ {α : Type} (f : α → Nat) (l : List α) :
    ∀ (i : Nat) (x y : α), l[i]? = some x → f x = f y + 1 →
      ((l.set i y).map f).sum + 1 = (l.map f).sum := by
  induction l with
  | nil => intro i x y h; simp at h
  | cons a l ih =>
    intro i x y h hf
    cases i with
    | zero =>
      simp at h
      subst h
      simp [hf]
      omega
    | succ i =>
      simp at h
      have := ih i x y h hf
      simp only [List.set_cons_succ, List.map_cons, List.sum_cons]
      omega

theorem writtenOf_append_same (i : Nat) (l : List Emitted) (e : Emitted) (h : e.iStream = i) :
    writtenOf i (l ++ [e]) = writtenOf i l ++ [(e.minTimeMs, e.isKeyFrame)] := by
  simp [writtenOf, List.filter_append, h]

theorem writtenOf_append_other (i : Nat) (l : List Emitted) (e : Emitted) (h : e.iStream ≠ i) :
    writtenOf i (l ++ [e]) = writtenOf i l := by
  simp [writtenOf, List.filter_append, h]

/-- The visit of the selection pass to a scripted stream: the producer does
not fail, the samples still to be written are the same, and if any is left
one is queued afterwards. -/
theorem produce_script (z : Bool) (gs : GenericStream) (hwf : ScriptWF gs) :
    producerErr (scriptEnv z) true true gs = 0 ∧
    ScriptWF (produceStream (scriptEnv z) true true gs) ∧
    remaining (produceStream (scriptEnv z) true true gs) = remaining gs ∧
    (remaining gs ≠ [] → (produceStream (scriptEnv z) true true gs).source.bQdFrame = true) := by
  by_cases hq : gs.source.bQdFrame = true
  · have hps := produceStream_queued (scriptEnv z) true true hq
    rw [hps]
    refine ⟨?_, hwf, rfl, fun _ => hq⟩
    unfold producerErr
    rcases hwf.av with hv | hs
    · rw [source_video hv] at hq
      simp [hv, hq, video_ne_sound]
    · rw [source_sound hs] at hq
      simp [hs, hq, sound_ne_video]
  · have hq2 : gs.source.bQdFrame = false := by simpa using hq
    rcases hwf.av with hv | hs
    · have hsrc := source_video hv
      rw [hsrc] at hq2
      have hwf2 := hwf
      obtain ⟨_, hscript, _, hnext, heos⟩ := hwf2
      rw [hsrc] at hscript hnext heos
      have hps := @produceStream_video (scriptEnv z) true true gs ⟨hv, hq2, rfl⟩
      rw [hps]
      have hnv : ¬ (gs.vid.source.bQdFrame = true) := by simp [hq2]
      cases hr : gs.vid.source.refCon with
      | nil =>
        by_cases he : gs.vid.source.eos = true
        · have hc : _compressVideo (scriptEnv z) gs.vid = (noErr, gs.vid) :=
            compressVideo_no_call (Or.inr he)
          refine ⟨?_, ?_, ?_, ?_⟩
          · unfold producerErr
            simp [hv, hq2, hc, noErr]
          · rw [hc]
            exact hwf
          · rw [hc]
          · intro hne
            exfalso
            apply hne
            simp [remaining, hsrc, hq2, hr]
        · have he2 : gs.vid.source.eos = false := by simpa using he
          have hc : _compressVideo (scriptEnv z) gs.vid =
              (0, { gs.vid with source := { gs.vid.source with eos := true } }) := by
            simp [_compressVideo, hq2, he2, scriptEnv, scriptCompressNextFrame, hr]
          refine ⟨?_, ?_, ?_, ?_⟩
          · unfold producerErr
            simp [hv, hq2, hc]
          · rw [hc]
            refine ⟨Or.inl hv, ?_, ?_, ?_, ?_⟩
            · simp [GenericStream.source, hv, hr]
            · simp [GenericStream.source, hv, hq2]
            · simp [GenericStream.source, hv, hr]
            · simp [GenericStream.source, hv, hr, hq2]
          · rw [hc]
            simp [remaining, GenericStream.source, hv, hq2, hr]
          · intro hne
            exfalso
            apply hne
            simp [remaining, hsrc, hq2, hr]
      | cons p rest =>
        have he2 : gs.vid.source.eos = false := by
          by_contra he
          have := (heos (by simpa using he)).1
          rw [hr] at this
          simp at this
        have hp := hscript p (by rw [hr]; exact List.mem_cons_self _ _)
        have hbt := hnext hq2 p rest hr
        have hc : _compressVideo (scriptEnv z) gs.vid =
            (0, { gs.vid with
                    source := { gs.vid.source with refCon := rest, bQdFrame := true }
                    frame_type := p.frame_type
                    outBuf := p.data }) := by
          simp [_compressVideo, hq2, he2, scriptEnv, scriptCompressNextFrame, hr, hp.1]
        refine ⟨?_, ?_, ?_, ?_⟩
        · unfold producerErr
          simp [hv, hq2, hc]
        · rw [hc]
          refine ⟨Or.inl hv, ?_, ?_, ?_, ?_⟩
          · intro q hq3
            simp only [GenericStream.source, hv, if_true] at hq3
            exact hscript q (by rw [hr]; exact List.mem_cons_of_mem _ hq3)
          · intro _
            simp only [GenericStream.source, hv, if_true]
            rw [hbt]
            exact hp.2
          · simp [GenericStream.source, hv]
          · simp [GenericStream.source, hv, he2]
        · rw [hc]
          simp [remaining, GenericStream.source, hv, hq2, hr, hbt, keyOf, pendingKey]
        · intro _
          rw [hc]
          simp [GenericStream.source, hv]
    · have hnv : ¬ gs.trackType = VideoMediaType := by rw [hs]; exact sound_ne_video
      have hsrc := source_sound hs
      rw [hsrc] at hq2
      have hwf2 := hwf
      obtain ⟨_, hscript, _, hnext, heos⟩ := hwf2
      rw [hsrc] at hscript hnext heos
      have hps := @produceStream_audio (scriptEnv z) true true gs ⟨hs, hq2, rfl⟩
      rw [hps]
      cases hr : gs.aud.source.refCon with
      | nil =>
        have hc : _compressAudio (scriptEnv z) gs.aud =
            (0, { gs.aud with source := { gs.aud.source with eos := true } }) := by
          simp [_compressAudio, hq2, scriptEnv, scriptCompressAudio, hr]
        refine ⟨?_, ?_, ?_, ?_⟩
        · unfold producerErr
          simp [hs, hq2, hc, sound_ne_video]
        · rw [hc]
          refine ⟨Or.inr hs, ?_, ?_, ?_, ?_⟩
          · simp [GenericStream.source, hnv, hr]
          · simp [GenericStream.source, hnv, hq2]
          · simp [GenericStream.source, hnv, hr]
          · simp [GenericStream.source, hnv, hr, hq2]
        · rw [hc]
          simp [remaining, GenericStream.source, hnv, hq2, hr]
        · intro hne
          exfalso
          apply hne
          simp [remaining, hsrc, hq2, hr]
      | cons p rest =>
        have he2 : gs.aud.source.eos = false := by
          by_contra he
          have := (heos (by simpa using he)).1
          rw [hr] at this
          simp at this
        have hp := hscript p (by rw [hr]; exact List.mem_cons_self _ _)
        have hbt := hnext hq2 p rest hr
        have hc : _compressAudio (scriptEnv z) gs.aud =
            (0, { gs.aud with
                    source := { gs.aud.source with refCon := rest, bQdFrame := true }
                    currentEncodedFrames := gs.aud.currentEncodedFrames + 1
                    outBuf := p.data }) := by
          simp [_compressAudio, hq2, he2, scriptEnv, scriptCompressAudio, hr, hp.1]
        refine ⟨?_, ?_, ?_, ?_⟩
        · unfold producerErr
          simp [hs, hq2, hc, sound_ne_video]
        · rw [hc]
          refine ⟨Or.inr hs, ?_, ?_, ?_, ?_⟩
          · intro q hq3
            simp only [GenericStream.source, hnv, if_false] at hq3
            exact hscript q (by rw [hr]; exact List.mem_cons_of_mem _ hq3)
          · intro _
            simp only [GenericStream.source, hnv, if_false]
            rw [hbt]
            exact hp.2
          · simp [GenericStream.source, hnv]
          · simp [GenericStream.source, hnv, he2]
        · rw [hc]
          simp [remaining, GenericStream.source, hnv, hq2, hr, hbt, keyOf, pendingKey]
        · intro _
          rw [hc]
          simp [GenericStream.source, hnv]

/-- Writing the queued sample of a scripted stream: the sample written is the
first of those still to be written, and the others stay. -/
theorem written_script (z : Bool) (gs : GenericStream) (hwf : ScriptWF gs)
    (hq : gs.source.bQdFrame = true) :
    ScriptWF (writtenStream (scriptEnv z) gs) ∧
    remaining gs =
      (gs.source.blockTimeMs, keyOf gs) :: remaining (writtenStream (scriptEnv z) gs) := by
  have hne : gs.source.eos = false := by
    by_contra he
    have := (hwf.eos (by simpa using he)).2
    rw [hq] at this
    simp at this
  rcases hwf.av with hv | hs
  · have hsrc := source_video hv
    rw [hsrc] at hq hne
    have hscript := hwf.script
    rw [hsrc] at hscript
    constructor
    · refine ⟨Or.inl (by rw [writtenStream_trackType]; exact hv), ?_, ?_, ?_, ?_⟩
      · simpa [writtenStream, GenericStream.source, hv] using hscript
      · simp [writtenStream, GenericStream.source, hv]
      · intro _ p rest hr
        simp only [writtenStream, GenericStream.source, hv, if_true] at hr ⊢
        simp [scriptEnv, scriptNextTime, hr]
      · simp [writtenStream, GenericStream.source, hv, hne]
    · simp [remaining, writtenStream, GenericStream.source, hv, hq, keyOf, pendingKey]
  · have hnv : ¬ gs.trackType = VideoMediaType := by rw [hs]; exact sound_ne_video
    have hsrc := source_sound hs
    rw [hsrc] at hq hne
    have hscript := hwf.script
    rw [hsrc] at hscript
    constructor
    · refine ⟨Or.inr (by rw [writtenStream_trackType]; exact hs), ?_, ?_, ?_, ?_⟩
      · simpa [writtenStream, GenericStream.source, hnv] using hscript
      · simp [writtenStream, GenericStream.source, hnv]
      · intro _ p rest hr
        simp only [writtenStream, GenericStream.source, hnv, if_false] at hr ⊢
        simp [scriptEnv, scriptNextTime, hr]
      · simp [writtenStream, GenericStream.source, hnv, hne]
    · simp [remaining, writtenStream, GenericStream.source, hnv, hq, keyOf, pendingKey]

theorem produce_err_zero (env : Env) (bV bA : Bool) (i : Nat) (gs : GenericStream) (c : Sel)
    (hc : c.err = 0) (hp : producerErr env bV bA gs = 0) :
    (produce env bV bA i gs c).2.err = 0 := by
  unfold producerErr at hp
  by_cases h1 : gs.trackType = VideoMediaType ∧ gs.vid.source.bQdFrame = false ∧ bV = true
  · rw [if_pos h1] at hp
    rw [produce_video h1]
    exact hp
  · rw [if_neg h1] at hp
    by_cases h3 : gs.trackType = SoundMediaType ∧ gs.aud.source.bQdFrame = false ∧ bA = true
    · rw [if_pos h3] at hp
      rw [produce_audio h3]
      exact hp
    · rw [produce_none h1 h3]
      exact hc

/-- A pass in which no producer fails, entered without a pending error, does
not leave through `goto bail`. -/
theorem forStreams_no_bail (env : Env) (bV bA : Bool) (todo : List GenericStream) :
    ∀ (done : List GenericStream) (c : Sel), c.err = 0 →
      (∀ gs ∈ todo, producerErr env bV bA gs = 0) →
      (forStreams env bV bA done todo c).2.2 = false := by
  induction todo with
  | nil => intro done c _ _; rfl
  | cons gs todo ih =>
    intro done c hc hp
    have herr := produce_err_zero env bV bA done.length gs c hc
      (hp gs (List.mem_cons_self _ _))
    have hgo : ¬ (produce env bV bA done.length gs c).2.err ≠ 0 := by simp [herr]
    rw [forStreams_cons_go hgo]
    apply ih
    · rw [consider_err]; exact herr
    · intro g hg
      exact hp g (List.mem_cons_of_mem _ hg)

theorem selectionPass_no_bail (env : Env) (s : Mux) (hc : s.err = 0)
    (hp : ∀ gs ∈ s.globals.streams,
      producerErr env s.globals.bExportVideo s.globals.bExportAudio gs = 0) :
    (selectionPass env s).2.2 = false :=
  forStreams_no_bail env _ _ s.globals.streams [] _ hc hp

/-- The pass of a scripted run: it is not left through `goto bail`, every
stream keeps the samples it has to write, and every stream that has one to
write has one queued. -/
theorem scriptPass (z : Bool) (s : Mux) (inv : ScriptInv s) :
    (selectionPass (scriptEnv z) s).2.2 = false ∧
    (afterPass (scriptEnv z) s).globals.streams =
      s.globals.streams.map (produceStream (scriptEnv z) true true) ∧
    (∀ gs ∈ (afterPass (scriptEnv z) s).globals.streams, ScriptWF gs) ∧
    (∀ gs ∈ (afterPass (scriptEnv z) s).globals.streams,
      remaining gs ≠ [] → gs.source.bQdFrame = true) ∧
    pendingTotal (afterPass (scriptEnv z) s).globals.streams = pendingTotal s.globals.streams ∧
    (afterPass (scriptEnv z) s).err = 0 := by
  have hb : (selectionPass (scriptEnv z) s).2.2 = false := by
    apply selectionPass_no_bail _ _ inv.err
    intro gs hgs
    rw [inv.bV, inv.bA]
    exact (produce_script z gs (inv.wf gs hgs)).1
  have hok := selectionPass_ok (scriptEnv z) s hb
  have hst : (afterPass (scriptEnv z) s).globals.streams =
      s.globals.streams.map (produceStream (scriptEnv z) true true) := by
    rw [afterPass_streams, hok.1, inv.bV, inv.bA]
  refine ⟨hb, hst, ?_, ?_, ?_, ?_⟩
  · intro gs hgs
    rw [hst] at hgs
    obtain ⟨g0, hg0, rfl⟩ := List.mem_map.mp hgs
    exact (produce_script z g0 (inv.wf g0 hg0)).2.1
  · intro gs hgs hne
    rw [hst] at hgs
    obtain ⟨g0, hg0, rfl⟩ := List.mem_map.mp hgs
    have h := produce_script z g0 (inv.wf g0 hg0)
    rw [h.2.2.1] at hne
    exact h.2.2.2 hne
  · unfold pendingTotal
    rw [hst, List.map_map]
    congr 1
    apply List.map_congr_left
    intro g0 hg0
    simp only [Function.comp]
    rw [(produce_script z g0 (inv.wf g0 hg0)).2.2.1]
  · by_cases hne : s.globals.streams = []
    · show (selectionPass (scriptEnv z) s).2.1.err = 0
      unfold selectionPass
      rw [hne, forStreams_nil]
      exact inv.err
    · exact hok.2.2 hne

theorem pendingTotal_pos {l : List GenericStream} (h : 0 < pendingTotal l) :
    ∃ gs ∈ l, remaining gs ≠ [] := by
  induction l with
  | nil => simp [pendingTotal] at h
  | cons a l ih =>
    by_cases ha : remaining a = []
    · have h2 : 0 < pendingTotal l := by
        simp only [pendingTotal, List.map_cons, List.sum_cons, ha, List.length_nil,
          zero_add] at h
        exact h
      obtain ⟨gs, hgs, hne⟩ := ih h2
      exact ⟨gs, List.mem_cons_of_mem _ hgs, hne⟩
    · exact ⟨a, List.mem_cons_self _ _, ha⟩

theorem pendingTotal_zero {l : List GenericStream} (h : pendingTotal l = 0) :
    ∀ gs ∈ l, remaining gs = [] := by
  intro gs hgs
  by_contra hne
  have hmem : (remaining gs).length ∈ l.map fun g => (remaining g).length :=
    List.mem_map.mpr ⟨gs, hgs, rfl⟩
  have hle := List.single_le_sum (fun x _ => Nat.zero_le x) _ hmem
  have hpos : 0 < (remaining gs).length := List.length_pos.mpr hne
  unfold pendingTotal at h
  omega

theorem selectable_of_queued {gs : GenericStream} (hwf : ScriptWF gs)
    (hq : gs.source.bQdFrame = true) : selectable gs := by
  rcases hwf.av with hv | hs
  · exact (selectable_iff_video hv).mpr ⟨hq, hwf.queued hq⟩
  · exact (selectable_iff_sound hs).mpr hq

theorem remaining_nil_not_selectable {gs : GenericStream} (h : remaining gs = []) :
    ¬ selectable gs := by
  intro hsel
  have hq : gs.source.bQdFrame = true := by
    rcases hsel with ⟨hs, hq⟩ | ⟨hv, hq, _⟩
    · rw [source_sound hs]; exact hq
    · rw [source_video hv]; exact hq
  simp [remaining, hq] at h

/-- A step of a scripted run in which a sample is still to be written: it
writes one block, the first sample still to be written of the winning
stream. -/
theorem scriptStep_emit (z : Bool) (init : List GenericStream) (s : Mux) (inv : ScriptInv s)
    (hpos : 0 < pendingTotal s.globals.streams) :
    ∃ e, Emits (scriptEnv z) s e ∧ ScriptInv (whileStep (scriptEnv z) s) ∧
      pendingTotal (whileStep (scriptEnv z) s).globals.streams + 1 =
        pendingTotal s.globals.streams ∧
      (Progress init s → Progress init (whileStep (scriptEnv z) s)) := by
  obtain ⟨hb, hst, hwf, hqd, htot, herr⟩ := scriptPass z s inv
  have hpos2 : 0 < pendingTotal (afterPass (scriptEnv z) s).globals.streams := by
    rw [htot]; exact hpos
  obtain ⟨g1, hg1, hne1⟩ := pendingTotal_pos hpos2
  have hsel : selectable g1 := selectable_of_queued (hwf g1 hg1) (hqd g1 hg1 hne1)
  have hms := minimumSelected_of_pass (scriptEnv z) s hb
  have hsome : (afterPass (scriptEnv z) s).minTimeStream ≠ none := by
    intro hn
    exact (hms.1.mp hn) g1 hg1 hsel
  rcases loopBody_cases (scriptEnv z) s with ⟨hb2, _⟩ | ⟨_, hn, _⟩ | ⟨_, i, w, hi, hw, hav, hq, ht, hbody⟩
  · rw [hb] at hb2
    exact absurd hb2 (by simp)
  · exact absurd hn hsome
  · have hstep : whileStep (scriptEnv z) s =
        emitBlock (scriptEnv z) (afterPass (scriptEnv z) s) i w s.offset := by
      rw [whileStep_body inv.running inv.notDone, hbody]
    have hfr := emitBlock_frame (scriptEnv z) (afterPass (scriptEnv z) s) i w s.offset hav
    obtain ⟨f1, f2, _, f4, f5, _, f7, f8, f9, f10, _, _⟩ := hfr
    have hwmem : w ∈ (afterPass (scriptEnv z) s).globals.streams := List.getElem?_mem hw
    have hwwf := hwf w hwmem
    have hws := written_script z w hwwf hq
    have hflag := (afterPass_inv (scriptEnv z) s hb).flag
    have hem : (whileStep (scriptEnv z) s).emitted = s.emitted ++
        [emittedRecord (openCluster (scriptEnv z) (afterPass (scriptEnv z) s)) i w
          (clusterDecision (afterPass (scriptEnv z) s)) s.offset] := by
      rw [hstep, f7]
      rfl
    refine ⟨_, hem, ?_, ?_, ?_⟩
    · refine ⟨?_, ?_, ?_, ?_, ?_, ?_⟩
      · rw [hstep, f1]; exact inv.running
      · rw [hstep, f5]
        show (selectionPass (scriptEnv z) s).2.1.allStreamsDone = false
        by_contra hd
        have hd2 : (selectionPass (scriptEnv z) s).2.1.allStreamsDone = true := by simpa using hd
        have := hflag.mp hd2
        rw [← afterPass_minTimeStream] at this
        exact hsome this
      · rw [hstep, f2]; exact herr
      · rw [hstep, f9]; exact inv.bV
      · rw [hstep, f10]; exact inv.bA
      · intro gs hgs
        rw [hstep, f8] at hgs
        rcases List.mem_or_eq_of_mem_set hgs with h | h
        · exact hwf gs h
        · rw [h]; exact hws.1
    · rw [hstep, f8, ← htot]
      unfold pendingTotal
      apply sum_set_succ (fun gs => (remaining gs).length) _ i w _ hw
      rw [hws.2]
      rfl
    · intro hprog
      obtain ⟨hlen, hrel⟩ := hprog
      constructor
      · rw [hstep, f8, List.length_set, hst, List.length_map]
        exact hlen
      · intro j gs0 gs hj0 hj
        rw [hem]
        rw [hstep, f8] at hj
        have hjlt : j < s.globals.streams.length := by
          rw [hlen]
          exact (List.getElem?_eq_some_iff.mp hj0).1
        obtain ⟨gj, hgj⟩ : ∃ gj, s.globals.streams[j]? = some gj :=
          ⟨s.globals.streams[j], List.getElem?_eq_getElem hjlt⟩
        have hpj : (afterPass (scriptEnv z) s).globals.streams[j]? =
            some (produceStream (scriptEnv z) true true gj) := by
          rw [hst, List.getElem?_map, hgj]
          rfl
        have hrem : remaining (produceStream (scriptEnv z) true true gj) = remaining gj :=
          (produce_script z gj (inv.wf gj (List.getElem?_mem hgj))).2.2.1
        have hbase := hrel j gs0 gj hj0 hgj
        by_cases hji : j = i
        · subst hji
          have hjlt2 : j < (afterPass (scriptEnv z) s).globals.streams.length := by
            rw [hst, List.length_map]; exact hjlt
          rw [List.getElem?_set_self hjlt2] at hj
          have hgs : gs = writtenStream (scriptEnv z) w := (Option.some.inj hj).symm
          have hw2 : w = produceStream (scriptEnv z) true true gj := by
            rw [hw] at hpj
            exact Option.some.inj hpj
          rw [writtenOf_append_same j _ _ rfl, hbase, ← hrem, ← hw2, hws.2, hgs,
            List.append_assoc]
          congr 1
          simp only [List.singleton_append, List.cons.injEq, and_true]
          show (w.source.blockTimeMs, keyOf w) =
            ((openCluster (scriptEnv z) (afterPass (scriptEnv z) s)).minTimeMs, keyOf w)
          rw [(openCluster_frame (scriptEnv z) (afterPass (scriptEnv z) s)).2.2.1, ht]
        · have hne : i ≠ j := fun e => hji e.symm
          rw [List.getElem?_set_ne hne] at hj
          rw [hpj] at hj
          have hgs : gs = produceStream (scriptEnv z) true true gj := (Option.some.inj hj).symm
          rw [writtenOf_append_other j _ _ (by exact hne), hbase, hgs, hrem]

/-- A pass left through `goto bail` carries a result code other than `0`. -/
theorem forStreams_bail_err (env : Env) (bV bA : Bool) (todo : List GenericStream) :
    ∀ (done : List GenericStream) (c : Sel),
      (forStreams env bV bA done todo c).2.2 = true →
      (forStreams env bV bA done todo c).2.1.err ≠ 0 := by
  induction todo with
  | nil =>
    intro done c hb
    rw [forStreams_nil] at hb
    simp at hb
  | cons g todo ih =>
    intro done c hb
    by_cases h : (produce env bV bA done.length g c).2.err ≠ 0
    · rw [forStreams_cons_bail h]
      exact h
    · rw [forStreams_cons_go h] at hb ⊢
      exact ih _ _ hb

/-- The last step of a scripted run: with no sample left to write, the pass
finds no stream and the loop is left through `break`. -/
theorem scriptStep_final (z : Bool) (s : Mux) (inv : ScriptInv s)
    (h0 : pendingTotal s.globals.streams = 0) :
    whileStep (scriptEnv z) s = { afterPass (scriptEnv z) s with status := Status.finished } ∧
    (afterPass (scriptEnv z) s).err = 0 ∧
    (afterPass (scriptEnv z) s).emitted = s.emitted ∧
    (afterPass (scriptEnv z) s).globals.streams.length = s.globals.streams.length ∧
    ∀ gs ∈ (afterPass (scriptEnv z) s).globals.streams, remaining gs = [] := by
  obtain ⟨hb, hst, _, _, htot, herr⟩ := scriptPass z s inv
  have hrem : ∀ gs ∈ (afterPass (scriptEnv z) s).globals.streams, remaining gs = [] :=
    pendingTotal_zero (by rw [htot]; exact h0)
  have hnone : (afterPass (scriptEnv z) s).minTimeStream = none :=
    (minimumSelected_of_pass (scriptEnv z) s hb).1.mpr
      fun gs hgs => remaining_nil_not_selectable (hrem gs hgs)
  refine ⟨?_, herr, rfl, ?_, hrem⟩
  · rw [whileStep_body inv.running inv.notDone, loopBody_none hb hnone]
  · rw [hst, List.length_map]

theorem updateProgressBar_script_err (z : Bool) (s : Mux) (p : Percent) :
    (_updateProgressBar (scriptEnv z) s p).2 = 0 := by
  unfold _updateProgressBar
  simp only
  split_ifs <;> rfl

/-- The state in which a run on scripted streams enters the loop. -/
theorem beforeLoop_script (z : Bool) (g : WebMExportGlobals)
    (hV : g.bExportVideo = true) (hA : g.bExportAudio = true)
    (hwf : ∀ gs ∈ g.streams, ScriptWF gs) :
    ScriptInv (beforeLoop (scriptEnv z) g) ∧ Progress g.streams (beforeLoop (scriptEnv z) g) ∧
    (beforeLoop (scriptEnv z) g).emitted = [] ∧
    (beforeLoop (scriptEnv z) g).globals.streams = g.streams := by
  obtain ⟨h1, h2, h3, _, h5, _, _, _, h9, h10⟩ := beforeLoop_fields (scriptEnv z) g
  have herr : (beforeLoop (scriptEnv z) g).err = 0 := by
    unfold beforeLoop
    exact updateProgressBar_script_err z _ _
  refine ⟨⟨h2, h3, herr, h9.trans hV, h10.trans hA, ?_⟩, ⟨?_, ?_⟩, h1, h5⟩
  · intro gs hgs
    rw [h5] at hgs
    exact hwf gs hgs
  · rw [h5]
  · intro i gs0 gs hi0 hi
    rw [h5, hi0] at hi
    rw [h1, ← Option.some.inj hi]
    simp [writtenOf]

/-- The first iterations of a scripted run: as long as a sample is left, each
iteration writes one block. -/
theorem scriptRun_steps (z : Bool) (init : List GenericStream) (s0 : Mux) (inv0 : ScriptInv s0)
    (hp : Progress init s0) (k : Nat) (hk : k ≤ pendingTotal s0.globals.streams) :
    ScriptInv (whileLoop (scriptEnv z) k s0) ∧ Progress init (whileLoop (scriptEnv z) k s0) ∧
    pendingTotal (whileLoop (scriptEnv z) k s0).globals.streams + k =
      pendingTotal s0.globals.streams ∧
    (whileLoop (scriptEnv z) k s0).emitted.length = s0.emitted.length + k := by
  induction k with
  | zero => exact ⟨inv0, hp, rfl, rfl⟩
  | succ k ih =>
    obtain ⟨inv, hpk, htot, hlen⟩ := ih (by omega)
    have hpos : 0 < pendingTotal (whileLoop (scriptEnv z) k s0).globals.streams := by omega
    obtain ⟨e, he, inv2, htot2, hp2⟩ := scriptStep_emit z init _ inv hpos
    rw [whileLoop_succ]
    refine ⟨inv2, hp2 hpk, by omega, ?_⟩
    have he2 : (whileStep (scriptEnv z) (whileLoop (scriptEnv z) k s0)).emitted =
        (whileLoop (scriptEnv z) k s0).emitted ++ [e] := he
    rw [he2, List.length_append, hlen]
    rfl

/-- A scripted run ends: one iteration after the last sample was written the
loop is left through `break`, with every sample written. -/
theorem scriptRun_end (z : Bool) (g : WebMExportGlobals)
    (hV : g.bExportVideo = true) (hA : g.bExportAudio = true)
    (hwf : ∀ gs ∈ g.streams, ScriptWF gs) (k : Nat) :
    (whileLoop (scriptEnv z) (pendingTotal g.streams + 1 + k) (beforeLoop (scriptEnv z) g)).status =
      Status.finished ∧
    (whileLoop (scriptEnv z) (pendingTotal g.streams + 1 + k) (beforeLoop (scriptEnv z) g)).err =
      0 ∧
    (whileLoop (scriptEnv z) (pendingTotal g.streams + 1 + k)
      (beforeLoop (scriptEnv z) g)).emitted.length = pendingTotal g.streams ∧
    ∀ i gs0, g.streams[i]? = some gs0 →
      writtenOf i (whileLoop (scriptEnv z) (pendingTotal g.streams + 1 + k)
        (beforeLoop (scriptEnv z) g)).emitted = remaining gs0 := by
  obtain ⟨inv0, hp0, hem0, hst0⟩ := beforeLoop_script z g hV hA hwf
  have hN : pendingTotal g.streams ≤ pendingTotal (beforeLoop (scriptEnv z) g).globals.streams := by
    rw [hst0]
  obtain ⟨inv, hp, htot, hlen⟩ := scriptRun_steps z g.streams _ inv0 hp0 (pendingTotal g.streams) hN
  rw [hst0] at htot
  have hzero : pendingTotal (whileLoop (scriptEnv z) (pendingTotal g.streams)
      (beforeLoop (scriptEnv z) g)).globals.streams = 0 := by omega
  obtain ⟨hstep, herr, hem, hl, hrem⟩ := scriptStep_final z _ inv hzero
  have hfin : whileLoop (scriptEnv z) (pendingTotal g.streams + 1 + k) (beforeLoop (scriptEnv z) g) =
      { afterPass (scriptEnv z) (whileLoop (scriptEnv z) (pendingTotal g.streams)
          (beforeLoop (scriptEnv z) g)) with status := Status.finished } := by
    rw [whileLoop_add, whileLoop_succ, hstep]
    exact whileLoop_stopped _ _ _ (by simp)
  rw [hfin]
  refine ⟨rfl, herr, ?_, ?_⟩
  · show (whileLoop (scriptEnv z) (pendingTotal g.streams)
      (beforeLoop (scriptEnv z) g)).emitted.length = _
    rw [hlen, hem0]
    simp
  · intro i gs0 hi
    show writtenOf i (whileLoop (scriptEnv z) (pendingTotal g.streams)
      (beforeLoop (scriptEnv z) g)).emitted = _
    obtain ⟨hlen2, hrel⟩ := hp
    have hilt : i < g.streams.length := (List.getElem?_eq_some_iff.mp hi).1
    have hb := (scriptPass z _ inv).1
    have hst := (scriptPass z _ inv).2.1
    obtain ⟨gi, hgi⟩ : ∃ gi, (whileLoop (scriptEnv z) (pendingTotal g.streams)
        (beforeLoop (scriptEnv z) g)).globals.streams[i]? = some gi :=
      ⟨_, List.getElem?_eq_getElem (by rw [hlen2]; exact hilt)⟩
    have hbase := hrel i gs0 gi hi hgi
    have hpi : (afterPass (scriptEnv z) (whileLoop (scriptEnv z) (pendingTotal g.streams)
        (beforeLoop (scriptEnv z) g))).globals.streams[i]? =
        some (produceStream (scriptEnv z) true true gi) := by
      rw [hst, List.getElem?_map, hgi]
      rfl
    have h1 := hrem _ (List.getElem?_mem hpi)
    rw [(produce_script z gi (inv.wf gi (List.getElem?_mem hgi))).2.2.1] at h1
    rw [hbase, h1, List.append_nil]

theorem not_emits_of_emitted {env : Env} {s : Mux} (h : (whileStep env s).emitted = s.emitted) :
    ¬ ∃ e, Emits env s e := by
  rintro ⟨e, he⟩
  unfold Emits at he
  rw [h] at he
  simp at he

theorem exitLaw (env : Env) (s : Mux) (hr : s.status = Status.running)
    (hd : s.allStreamsDone = false) : ExitLaw env s := by
  rcases loopBody_cases env s with ⟨hb, h⟩ | ⟨hb, hn, h⟩ | ⟨hb, i, w, hi, hw, hav, hq, ht, h⟩
  · have hstep : whileStep env s = { afterPass env s with status := Status.bailed } := by
      rw [whileStep_body hr hd, h]
    have hst : (whileStep env s).status = Status.bailed := by rw [hstep]
    have hem : (whileStep env s).emitted = s.emitted := by rw [hstep]; rfl
    refine ⟨?_, ?_, ?_, ?_, ?_⟩
    · rw [hst, hb]; simp
    · rw [hst]; intro hc; simp at hc
    · rw [hst, hb]; simp
    · intro _
      rw [hstep]
      exact forStreams_bail_err env _ _ _ _ _ hb
    · rw [hst]
      constructor
      · intro hc; simp at hc
      · intro he; exact absurd he (not_emits_of_emitted hem)
  · have hstep : whileStep env s = { afterPass env s with status := Status.finished } := by
      rw [whileStep_body hr hd, h]
    have hst : (whileStep env s).status = Status.finished := by rw [hstep]
    have hem : (whileStep env s).emitted = s.emitted := by rw [hstep]; rfl
    refine ⟨?_, ?_, ?_, ?_, ?_⟩
    · rw [hst]
      simp only [true_iff]
      exact ⟨hb, (minimumSelected_of_pass env s hb).1.mp hn⟩
    · intro _ hne
      rw [hstep]
      exact (selectionPass_ok env s hb).2.2 hne
    · rw [hst, hb]; simp
    · rw [hst]; intro hc; simp at hc
    · rw [hst]
      constructor
      · intro hc; simp at hc
      · intro he; exact absurd he (not_emits_of_emitted hem)
  · have hstep : whileStep env s = emitBlock env (afterPass env s) i w s.offset := by
      rw [whileStep_body hr hd, h]
    have hfr := emitBlock_frame env (afterPass env s) i w s.offset hav
    have hst : (whileStep env s).status = Status.running := by
      rw [hstep, hfr.1]; exact hr
    refine ⟨?_, ?_, ?_, ?_, ?_⟩
    · rw [hst]
      constructor
      · intro hc; simp at hc
      · rintro ⟨_, hnone⟩
        have := (minimumSelected_of_pass env s hb).1.mpr hnone
        rw [hi] at this
        simp at this
    · rw [hst]; intro hc; simp at hc
    · rw [hst, hb]; simp
    · rw [hst]; intro hc; simp at hc
    · rw [hst]
      simp only [true_iff]
      refine ⟨emittedRecord (openCluster env (afterPass env s)) i w
        (clusterDecision (afterPass env s)) s.offset, ?_⟩
      unfold Emits
      rw [hstep]
      exact hfr.2.2.2.2.2.2.1

theorem scriptVideo_wf (trackID : Nat) (samples : List (Nat × Bool))
    (h : ∀ p ∈ samples, p.1 < 4294967295) : ScriptWF (scriptVideo trackID samples) := by
  have hsrc : (scriptVideo trackID samples).source = (scriptVideo trackID samples).vid.source :=
    source_video rfl
  refine ⟨Or.inl rfl, ?_, ?_, ?_, ?_⟩
  · intro p hp
    rw [hsrc] at hp
    simp only [scriptVideo, List.mem_map] at hp
    obtain ⟨q, hq, rfl⟩ := hp
    refine ⟨rfl, ?_⟩
    have := h q hq
    show (Fin.ofNat q.1 : ULong).val < 4294967295
    simp only [Fin.ofNat, ULong] at *
    omega
  · intro hq
    rw [hsrc] at hq
    simp [scriptVideo] at hq
  · intro _ p rest hp
    rw [hsrc] at hp ⊢
    cases samples with
    | nil => simp [scriptVideo] at hp
    | cons q qs =>
      simp only [scriptVideo, List.map_cons, List.cons.injEq] at hp
      rw [← hp.1]
      rfl
  · intro he
    rw [hsrc] at he
    simp [scriptVideo] at he

theorem scriptAudio_wf (trackID : Nat) (times : List Nat)
    (h : ∀ t ∈ times, t < 4294967295) : ScriptWF (scriptAudio trackID times) := by
  have hsrc : (scriptAudio trackID times).source = (scriptAudio trackID times).aud.source :=
    source_sound rfl
  refine ⟨Or.inr rfl, ?_, ?_, ?_, ?_⟩
  · intro p hp
    rw [hsrc] at hp
    simp only [scriptAudio, List.mem_map] at hp
    obtain ⟨q, hq, rfl⟩ := hp
    refine ⟨rfl, ?_⟩
    have := h q hq
    show (Fin.ofNat q : ULong).val < 4294967295
    simp only [Fin.ofNat, ULong] at *
    omega
  · intro hq
    rw [hsrc] at hq
    simp [scriptAudio] at hq
  · intro _ p rest hp
    rw [hsrc] at hp ⊢
    cases times with
    | nil => simp [scriptAudio] at hp
    | cons q qs =>
      simp only [scriptAudio, List.map_cons, List.cons.injEq] at hp
      rw [← hp.1]
      rfl
  · intro he
    rw [hsrc] at he
    simp [scriptAudio] at he

theorem scriptedRun (z : Bool) (g : WebMExportGlobals)
    (hV : g.bExportVideo = true) (hA : g.bExportAudio = true)
    (hwf : ∀ gs ∈ g.streams, ScriptWF gs) : ScriptedRun z g := by
  obtain ⟨inv0, hp0, hem0, hst0⟩ := beforeLoop_script z g hV hA hwf
  have hsteps : ∀ k, k ≤ pendingTotal g.streams →
      ScriptInv (whileLoop (scriptEnv z) k (beforeLoop (scriptEnv z) g)) ∧
      pendingTotal (whileLoop (scriptEnv z) k (beforeLoop (scriptEnv z) g)).globals.streams + k =
        pendingTotal g.streams := by
    intro k hk
    obtain ⟨inv, _, htot, _⟩ :=
      scriptRun_steps z g.streams _ inv0 hp0 k (by rw [hst0]; exact hk)
    rw [hst0] at htot
    exact ⟨inv, htot⟩
  have hframe : ∀ k, FrameEq
      (whileLoop (scriptEnv z) (pendingTotal g.streams + 1 + k) (beforeLoop (scriptEnv z) g))
      (muxRun (scriptEnv z) g (pendingTotal g.streams + 1 + k)) :=
    fun k => muxRun_frame (scriptEnv z) g _
  refine ⟨?_, ?_, ?_, ?_, ?_⟩
  · intro k hk
    obtain ⟨inv, htot⟩ := hsteps k (Nat.le_of_lt hk)
    obtain ⟨e, he, _⟩ := scriptStep_emit z g.streams _ inv (by omega)
    exact ⟨inv.running, e, he⟩
  · exact ⟨(hsteps _ (Nat.le_refl _)).1.running, (scriptRun_end z g hV hA hwf 0).1⟩
  · intro k
    obtain ⟨h1, h2, _, _⟩ := scriptRun_end z g hV hA hwf k
    unfold muxStreams
    simp only
    rw [(hframe k).status, (hframe k).err, h1, h2]
    simp
  · intro k
    rw [(hframe k).emitted]
    exact (scriptRun_end z g hV hA hwf k).2.2.1
  · intro k i gs0 hi
    rw [(hframe k).emitted]
    exact (scriptRun_end z g hV hA hwf k).2.2.2 i gs0 hi

/-- The request is set by a key frame the visit queued or by one left over
from the last frame written. -/
theorem keyFrameSeen_iff (env : Env) (bV : Bool) (gs : GenericStream) :
    keyFrameSeen env bV gs = true ↔
      (keyFrameQueued env bV gs = true ∨ staleKeyFrame env bV gs = true) := by
  unfold keyFrameSeen keyFrameQueued staleKeyFrame
  simp only [decide_eq_true_eq]
  constructor
  · rintro ⟨h1, h2, h3, h4⟩
    cases hq : (_compressVideo env gs.vid).2.source.bQdFrame with
    | true => exact Or.inl ⟨h1, h2, h3, rfl, h4⟩
    | false => exact Or.inr ⟨h1, h2, h3, rfl, h4⟩
  · rintro (⟨h1, h2, h3, _, h4⟩ | ⟨h1, h2, h3, _, h4⟩)
    · exact ⟨h1, h2, h3, h4⟩
    · exact ⟨h1, h2, h3, h4⟩

/-- The left-over key frame at work: in the run on `staleKeyGlobals` the video
stream is at end of stream from the third pass on, with the `frame_type` of
its only frame, a key frame; each of the audio packets at 20, 40 and 60 ms
then opens a cluster of its own, four clusters in all for five blocks that
lie within 60 ms. -/
theorem stale_key_frame_run :
    muxStreams (scriptEnv true) staleKeyGlobals 10 = some 0 ∧
    (muxRun (scriptEnv true) staleKeyGlobals 10).emitted.length = 5 ∧
    ((muxRun (scriptEnv true) staleKeyGlobals 10).log.filter
      (fun ev => ev = Event.Ebml_StartSubElement LocVar.clusterStart EbmlID.Cluster)).length = 4 ∧
    (whileLoop (scriptEnv true) 3 (beforeLoop (scriptEnv true) staleKeyGlobals)).globals.streams.any
      (staleKeyFrame (scriptEnv true) true) = true := by
  decide

/-! ## The claims -/

/-- C1: in the selection pass of an iteration (any stream array, any order),
when a video stream `v` and an audio stream `a` both have a queued sample at
the same time `t` and `t` is the least time of a queued sample, the stream
selected is an audio stream whose sample has time `t`; the iteration writes
that audio block and `v` is still in the stream array, untouched, afterwards,
so the audio block precedes the video block of equal time. -/
theorem C1_audio_first_on_tie (env : Env) (s : Mux) (v a : GenericStream) (t : ULong)
    (hpass : (selectionPass env s).2.2 = false)
    (hv : v ∈ (afterPass env s).globals.streams) (hvt : v.trackType = VideoMediaType)
    (_hvq : v.source.bQdFrame = true) (_hvtime : v.source.blockTimeMs = t)
    (ha : a ∈ (afterPass env s).globals.streams) (hat : a.trackType = SoundMediaType)
    (haq : a.source.bQdFrame = true) (hatime : a.source.blockTimeMs = t)
    (hmin : ∀ gs ∈ (afterPass env s).globals.streams, isAV gs → gs.source.bQdFrame = true →
      t.val ≤ gs.source.blockTimeMs.val) :
    AudioWrittenFirst env s v t :=
  audio_wins_tie env s v a t hpass hv hvt ha hat haq hatime hmin

/-- C1 at scenario 2: video and audio both at 100 ms, video first in the
array. -/
theorem C1_audio_first_on_tie_witness :
    AudioWrittenFirst (scriptEnv true) (beforeLoop (scriptEnv true) tieGlobals)
      tieVideoQueued 100 :=
  C1_audio_first_on_tie (scriptEnv true) (beforeLoop (scriptEnv true) tieGlobals)
    tieVideoQueued tieAudioQueued 100 (by decide) (by decide) (by decide) (by decide)
    (by decide) (by decide) (by decide) (by decide) (by decide) (by decide)

/-- C2 fails as stated: a video stream whose queued sample has time
`ULONG_MAX` is never selected, so the pass ends with `minTimeStream` `NULL`
although a stream has a queued sample. -/
theorem C2_counterexample :
    (selectionPass (scriptEnv true) (beforeLoop (scriptEnv true) lateVideoGlobals)).2.2 = false ∧
    (afterPass (scriptEnv true) (beforeLoop (scriptEnv true) lateVideoGlobals)).minTimeStream
      = none ∧
    ∃ gs ∈ (afterPass (scriptEnv true) (beforeLoop (scriptEnv true) lateVideoGlobals)).globals.streams,
      gs.trackType = VideoMediaType ∧ gs.source.bQdFrame = true ∧
      gs.source.blockTimeMs = ULONG_MAX := by
  decide

/-- C2 (amended): after a selection pass that was not left through
`goto bail`, `minTimeStream` is `NULL` exactly when no stream is selectable (an
audio stream with a queued sample, or a video stream with a queued sample at
a time below `ULONG_MAX`); otherwise the selected stream is a video or audio
stream with a queued sample, `minTimeMs` is its `blockTimeMs`, and that value
is at most the `blockTimeMs` of every video or audio stream with a queued
sample. -/
theorem C2_selection_minimum (env : Env) (s : Mux)
    (hpass : (selectionPass env s).2.2 = false) : MinimumSelected (afterPass env s) :=
  minimumSelected_of_pass env s hpass

/-- C2 (amended) at scenario 2. -/
theorem C2_selection_minimum_witness :
    (selectionPass (scriptEnv true) (beforeLoop (scriptEnv true) tieGlobals)).2.2 = false ∧
    MinimumSelected (afterPass (scriptEnv true) (beforeLoop (scriptEnv true) tieGlobals)) :=
  ⟨by decide, C2_selection_minimum _ _ (by decide)⟩

/-- C3: in every run of `muxStreams` (any number of iterations) in which the
blocks of each stream are written at non-decreasing times, the absolute times
`minTimeMs` of the blocks written are non-decreasing over the whole file.
The audio encoder is assumed to keep to the producer protocol of the spec
(`ProducerProtocol`). -/
theorem C3_block_times_non_decreasing (env : Env) (g : WebMExportGlobals) (n : Nat)
    (hp : ProducerProtocol env) (hm : PerStreamMonotone (muxRun env g n).emitted) :
    TimesNonDecreasing (muxRun env g n).emitted := by
  rw [muxRun_emitted] at hm ⊢
  exact (run_times_sorted env g n hp hm).sorted

/-- C3 on a run that interleaves two streams and returns. -/
theorem C3_block_times_non_decreasing_witness :
    muxStreams (scriptEnv true) interleavedGlobals 10 = some 0 ∧
    (muxRun (scriptEnv true) interleavedGlobals 10).emitted.length = 5 ∧
    TimesNonDecreasing (muxRun (scriptEnv true) interleavedGlobals 10).emitted :=
  ⟨by decide, by decide,
    C3_block_times_non_decreasing (scriptEnv true) interleavedGlobals 10
      (scriptEnv_protocol true) (by unfold PerStreamMonotone; decide)⟩

/-- C4 fails as stated: a video stream whose sample times go from 4294967000
ms back to 100 ms has its second block written into the cluster that starts
at 4294967000 with time code 396 (the `unsigned long` difference wraps to 396,
which passes the boundary test), while the true difference -4294966900 is
outside `[-32768, 32767]`. -/
theorem C4_counterexample :
    muxStreams (scriptEnv true) wrapGlobals 10 = some 0 ∧
    Emits (scriptEnv true) (whileLoop (scriptEnv true) 1 (beforeLoop (scriptEnv true) wrapGlobals))
      wrapBlock ∧
    Event.writeSimpleBlock 1 396 0 0 0 [] ∈ (muxRun (scriptEnv true) wrapGlobals 10).log ∧
    wrapBlock.timeCode ≠ (wrapBlock.minTimeMs.val : Int) - (wrapBlock.clusterTime.val : Int) ∧
    ¬ (-32768 ≤ (wrapBlock.minTimeMs.val : Int) - (wrapBlock.clusterTime.val : Int)) := by
  refine ⟨by decide, by unfold Emits; decide, by decide, by decide, by decide⟩

/-- C4 (amended): for every block written by an iteration of `muxStreams`
(from any loop state), the `unsigned long` difference `blockTimeMs -
clusterTime` computed in `_writeVideo` / `_writeAudio` lies in `[0, 32767]`,
so the `(short)` value passed to `writeSimpleBlock` is that difference
unchanged; it equals the true difference between the sample time and the
start time of the cluster the block is written into whenever the cluster time
before the iteration is less than `2^32 - 32767` ms above the sample time (in
particular whenever the sample is not earlier than the cluster, and whenever
all times are below `2^31`). -/
theorem C4_time_code (env : Env) (s : Mux) (e : Emitted) (h : Emits env s e) :
    TimeCodeSound env s e :=
  emits_timeCodeSound h

/-- C4 (amended) on the second block of scenario 3. -/
theorem C4_time_code_witness :
    Emits (scriptEnv true) (whileLoop (scriptEnv true) 1 (beforeLoop (scriptEnv true) farGlobals))
      farBlock ∧
    TimeCodeSound (scriptEnv true)
      (whileLoop (scriptEnv true) 1 (beforeLoop (scriptEnv true) farGlobals)) farBlock :=
  ⟨by unfold Emits; decide, C4_time_code _ _ _ (by unfold Emits; decide)⟩

/-- C5: whenever an iteration of `muxStreams` opens a cluster (through
`_startNewCluster`), the cluster's `Timecode` is the absolute time of the
winning sample, and the first `SimpleBlock` written into the cluster is that
sample, with relative time code `0`. -/
theorem C5_cluster_starts_at_winner (env : Env) (s : Mux) (e : Emitted)
    (h : Emits env s e) (hn : e.newCluster = true) : ClusterStartsAtWinner env s e :=
  emits_clusterStart h hn

/-- C5 at scenario 3: video samples at 0 and 40000 ms give two clusters, and
the first block of the second cluster has relative time 0. -/
theorem C5_cluster_starts_at_winner_witness :
    muxStreams (scriptEnv true) farGlobals 10 = some 0 ∧
    ((muxRun (scriptEnv true) farGlobals 10).log.filter
      (fun ev => ev = Event.Ebml_StartSubElement LocVar.clusterStart EbmlID.Cluster)).length = 2 ∧
    (muxRun (scriptEnv true) farGlobals 10).emitted.get? 1 = some farBlock ∧
    ClusterStartsAtWinner (scriptEnv true)
      (whileLoop (scriptEnv true) 1 (beforeLoop (scriptEnv true) farGlobals)) farBlock :=
  ⟨by decide, by decide, by decide,
    C5_cluster_starts_at_winner _ _ _ (by unfold Emits; decide) (by decide)⟩

/-- C6 fails as stated: in the run on `interleavedGlobals` the third block is
an audio packet at 20 ms, written while a cluster starting at 0 is open (two
blocks have been written into it), so the difference is in range; yet the
iteration opens a new cluster, because the same pass has asked the video
stream and found a key frame. -/
theorem C6_counterexample :
    Emits (scriptEnv true)
      (whileLoop (scriptEnv true) 2 (beforeLoop (scriptEnv true) interleavedGlobals))
      interleavedThird ∧
    (whileLoop (scriptEnv true) 2 (beforeLoop (scriptEnv true) interleavedGlobals)).emitted.length
      = 2 ∧
    (whileLoop (scriptEnv true) 2
      (beforeLoop (scriptEnv true) interleavedGlobals)).globals.clusterTime = 0 ∧
    interleavedThird.trackType = SoundMediaType ∧
    ulongSub interleavedThird.minTimeMs 0 ≤ 32767 ∧
    interleavedThird.newCluster = true := by
  refine ⟨by unfold Emits; decide, by decide, by decide, by decide, by decide, by decide⟩

/-- C6 (amended): an iteration of a run of `muxStreams` that writes a block
opens a new cluster if (a) no block has been written yet, or (b) during the
selection pass of this iteration some video stream that had no sample queued
was visited while video is exported and the visit queued a sample whose
`frame_type` is `kICMFrameType_I`, whichever stream wins, or (c) the
`unsigned long` difference `minTimeMs - clusterTime` exceeds 32767; and only
if (a), (b) or (c), provided the pass visited no video stream that it left
without a queued sample while its `frame_type` still is `kICMFrameType_I`. -/
theorem C6_new_cluster_rule (env : Env) (g : WebMExportGlobals) (n : Nat) (e : Emitted)
    (h : Emits env (whileLoop env n (beforeLoop env g)) e) :
    NewClusterRule env (whileLoop env n (beforeLoop env g)) e := by
  have hiff := emits_newCluster_iff h
  rw [run_flag env g n (emits_winner h).1] at hiff
  unfold NewClusterRule ClusterDue
  constructor
  · intro hdue
    apply hiff.mpr
    rcases hdue with ha | ⟨gs, hgs, hq⟩ | hc
    · exact Or.inl ha
    · exact Or.inr (Or.inl ⟨gs, hgs, (keyFrameSeen_iff env _ gs).mpr (Or.inl hq)⟩)
    · exact Or.inr (Or.inr hc)
  · intro hstale
    rw [hiff]
    constructor
    · rintro (ha | ⟨gs, hgs, hseen⟩ | hc)
      · exact Or.inl ha
      · rcases (keyFrameSeen_iff env _ gs).mp hseen with hq | hs
        · exact Or.inr (Or.inl ⟨gs, hgs, hq⟩)
        · rw [hstale gs hgs] at hs
          simp at hs
      · exact Or.inr (Or.inr hc)
    · rintro (ha | ⟨gs, hgs, hq⟩ | hc)
      · exact Or.inl ha
      · exact Or.inr (Or.inl ⟨gs, hgs, (keyFrameSeen_iff env _ gs).mpr (Or.inl hq)⟩)
      · exact Or.inr (Or.inr hc)

/-- C6 (amended) on the third block of the interleaved run: the pass queues
the key frame at 40 ms, no video stream holds a left-over key frame, and the
audio packet at 20 ms opens a new cluster. -/
theorem C6_new_cluster_rule_witness :
    Emits (scriptEnv true)
      (whileLoop (scriptEnv true) 2 (beforeLoop (scriptEnv true) interleavedGlobals))
      interleavedThird ∧
    (whileLoop (scriptEnv true) 2 (beforeLoop (scriptEnv true) interleavedGlobals)).globals.streams.any
      (keyFrameQueued (scriptEnv true) true) = true ∧
    (whileLoop (scriptEnv true) 2 (beforeLoop (scriptEnv true) interleavedGlobals)).globals.streams.any
      (staleKeyFrame (scriptEnv true) true) = false ∧
    NewClusterRule (scriptEnv true)
      (whileLoop (scriptEnv true) 2 (beforeLoop (scriptEnv true) interleavedGlobals))
      interleavedThird :=
  ⟨by unfold Emits; decide, by decide, by decide,
    C6_new_cluster_rule _ _ 2 _ (by unfold Emits; decide)⟩

/-- C7 fails as stated: for one video stream with key frames at 0, 40 and
80 ms the run opens three clusters, not one, and the three blocks are written
with relative time codes 0, 0, 0, not 0, 40, 80 (three cues are recorded). -/
theorem C7_counterexample :
    muxStreams allKeyEnv threeKeyGlobals 10 = some 0 ∧
    clustersOpened (muxRun allKeyEnv threeKeyGlobals 10).log = 3 ∧
    blockTimeCodes (muxRun allKeyEnv threeKeyGlobals 10).log = [0, 0, 0] ∧
    (muxRun allKeyEnv threeKeyGlobals 10).emitted.map (fun e => e.minTimeMs.val) = [0, 40, 80] ∧
    (muxRun allKeyEnv threeKeyGlobals 10).globals.cueCount = 3 := by
  refine ⟨by decide, by decide, by decide, by decide, by decide⟩

/-- C7 (amended): in every run of `muxStreams` with a single video stream that
has no sample queued at entry and whose samples are all key samples (whether
or not they lie within 32767 ms of the first), every sample written opens a
cluster of its own whose time is the sample's time and is written into it as
a `SimpleBlock` with relative time code `0`, and one cue is recorded per
sample written. -/
theorem C7_cluster_per_key_sample (env : Env) (g : WebMExportGlobals) (n : Nat)
    (gs : GenericStream) (hk : AllKey env) (hg : g.streams = [gs])
    (hv : gs.trackType = VideoMediaType) (hq : gs.vid.source.bQdFrame = false) :
    OwnClusterEach (muxRun env g n).emitted ∧
    (muxRun env g n).globals.cueCount = g.cueCount + (muxRun env g n).emitted.length := by
  have hfr := muxRun_frame env g n
  have hall : OwnClusterEach (muxRun env g n).emitted := by
    rw [hfr.emitted]
    exact single_key_stream env g n gs hk hg hv hq
  refine ⟨hall, ?_⟩
  rw [(cueLaw_run env g n).2.1]
  unfold keyVideoBlocks
  rw [List.filter_eq_self.2]
  intro e he
  exact decide_eq_true ⟨(hall e he).1, (hall e he).2.1⟩

/-- C7 (amended) at scenario 1: samples at 0, 40, 80 ms give three clusters,
each with one block at relative time 0, and three cues. -/
theorem C7_cluster_per_key_sample_witness :
    muxStreams allKeyEnv threeKeyGlobals 10 = some 0 ∧
    (muxRun allKeyEnv threeKeyGlobals 10).emitted.length = 3 ∧
    OwnClusterEach (muxRun allKeyEnv threeKeyGlobals 10).emitted ∧
    (muxRun allKeyEnv threeKeyGlobals 10).globals.cueCount =
      threeKeyGlobals.cueCount + (muxRun allKeyEnv threeKeyGlobals 10).emitted.length :=
  ⟨by decide, by decide,
    C7_cluster_per_key_sample allKeyEnv threeKeyGlobals 10
      (scriptVideo 1 [(0, true), (40, true), (80, true)]) allKeyEnv_allKey rfl rfl rfl⟩

/-- C10: in every run of `muxStreams` in which, in some iteration, the
producer of a stream (`_compressVideo` or `_compressAudio`) returns a non-zero
error, `muxStreams` returns exactly that code (for any fuel that reaches the
iteration), and the log of calls ends with the failing call: after it no
producer is invoked, no `SimpleBlock` or `Cluster` is written, the `Cues`
element is not written and the `Segment` is not closed. -/
theorem C10_producer_error_aborts (env : Env) (g : WebMExportGlobals) (n k i : Nat)
    (e : ComponentResult) (h : ProducerFails env (whileLoop env n (beforeLoop env g)) i e) :
    AbortedBy env g (n + 1 + k) (whileLoop env n (beforeLoop env g)) i e :=
  producer_failure_aborts env g n k i e h

/-- C10 on a run whose audio encoder fails with -50 in the second
iteration. -/
theorem C10_producer_error_aborts_witness :
    ProducerFails (scriptEnv true)
      (whileLoop (scriptEnv true) 1 (beforeLoop (scriptEnv true) failGlobals)) 1 (-50) ∧
    AbortedBy (scriptEnv true) failGlobals (1 + 1 + 5)
      (whileLoop (scriptEnv true) 1 (beforeLoop (scriptEnv true) failGlobals)) 1 (-50) :=
  ⟨by unfold ProducerFails; decide,
    C10_producer_error_aborts (scriptEnv true) failGlobals 1 5 1 (-50)
      (by unfold ProducerFails; decide)⟩

/-- C11 fails on the code: `muxStreams` drops the result of `_writeTracks`
(line 394).  With a video and an audio stream whose description steps fail
with `-50`, `_writeTracks` returns `-50` (from inside its loop, at the audio
track), yet `muxStreams` goes on from the state `_writeTracks` leaves, opens
a cluster, writes both blocks into it and returns `noErr`. -/
theorem C11_tracks_error_ignored :
    (_writeTracks tracksFailEnv (beforeTracks tracksFailEnv tieGlobals)).2 = -50 ∧
    beforeLoop tracksFailEnv tieGlobals =
      afterTracks tracksFailEnv (_writeTracks tracksFailEnv (beforeTracks tracksFailEnv tieGlobals)).1 ∧
    muxStreams tracksFailEnv tieGlobals 10 = some 0 ∧
    clustersOpened (muxRun tracksFailEnv tieGlobals 10).log = 1 ∧
    blockTimeCodes (muxRun tracksFailEnv tieGlobals 10).log = [0, 0] := by
  refine ⟨by decide, rfl, by decide, by decide, by decide⟩

/-- C12: for every block written by an iteration of `muxStreams` (from any
loop state), the one `writeSimpleBlock` call of the iteration has the
arguments: track number of the winning stream; relative time code `blockTimeMs
- clusterTime` (the `unsigned long` difference of the source, which the
`(short)` cast leaves unchanged); key-frame flag `frame_type ==
kICMFrameType_I` for a video stream and `1` for an audio stream; lacing flag
`0`; discardable `0`; the output buffer of the stream as payload.  After the
iteration the winning stream has `bQdFrame` false. -/
theorem C12_block_arguments (env : Env) (s : Mux) (e : Emitted) (h : Emits env s e) :
    BlockArguments env s e :=
  emits_blockArguments h

/-- C12 on the second block of the run on `payloadGlobals`: track 7, time code
40, not a key frame, payload `4, 5`. -/
theorem C12_block_arguments_witness :
    Emits (scriptEnv false)
      (whileLoop (scriptEnv false) 1 (beforeLoop (scriptEnv false) payloadGlobals))
      payloadSecond ∧
    Event.writeSimpleBlock 7 40 0 0 0 [4, 5] ∈
      (whileLoop (scriptEnv false) 2 (beforeLoop (scriptEnv false) payloadGlobals)).log ∧
    BlockArguments (scriptEnv false)
      (whileLoop (scriptEnv false) 1 (beforeLoop (scriptEnv false) payloadGlobals))
      payloadSecond :=
  ⟨by unfold Emits; decide, by decide, C12_block_arguments _ _ _ (by unfold Emits; decide)⟩

/-- C13: for every state (every cue table `cueHandle` and every `cueCount`),
`_writeCues` emits one `Cues` element containing exactly `cueCount` `CuePoint`
sub-elements in index order; the `i`-th holds `CueTime = cue[i].timeVal` and one
`CueTrackPositions` with `CueTrack = cue[i].track`, `CueClusterPosition =
cue[i].loc` and `CueBlockNumber = 1` whatever `cue[i].blockNumber` is; every
sub-element opened is closed, last-opened first. -/
theorem C13_write_cues (env : Env) (s : Mux) : CuesWritten env s :=
  cuesWritten env s

/-- C14 fails on the code, in its last sentence.  In the run on
`threeKeyGlobals` the second iteration writes a key video block and calls
`_addCue` with `cueCount` 1 and a handle that is not `NULL`; `_addCue` asks
`SetHandleSize` for `sizeof(CuePoint) * 2` bytes, where `CuePoint` is the EBML
class identifier (an `int`, 4 bytes), not the type `WebMCuePoint` of the
entries (a `UInt64`, an `unsigned long` and two `unsigned int`, 20 bytes at
least): the block is cut to 8 bytes, less than the entry already there, and the
new entry, which ends at byte 40, is written outside it.  The values handed to
`_addCue` are those of the claim (`run_cue_fields`). -/
theorem C14_cue_handle_too_small :
    (whileLoop (scriptEnv true) 1 (beforeLoop (scriptEnv true) threeKeyGlobals)).globals.cueCount
      = 1 ∧
    (whileLoop (scriptEnv true) 1 (beforeLoop (scriptEnv true) threeKeyGlobals)).globals.cueHandle
      ≠ [] ∧
    Emits (scriptEnv true)
      (whileLoop (scriptEnv true) 1 (beforeLoop (scriptEnv true) threeKeyGlobals))
      threeKeySecond ∧
    threeKeySecond.cue = true ∧
    CueFields (scriptEnv true)
      (whileLoop (scriptEnv true) 1 (beforeLoop (scriptEnv true) threeKeyGlobals)) ∧
    cueHandleSize 4 20
      (whileLoop (scriptEnv true) 1 (beforeLoop (scriptEnv true) threeKeyGlobals)).globals = 8 ∧
    newCueEnd 20
      (whileLoop (scriptEnv true) 1 (beforeLoop (scriptEnv true) threeKeyGlobals)).globals = 40 := by
  refine ⟨by decide, by decide, by unfold Emits; decide, rfl,
    run_cue_fields (scriptEnv true) threeKeyGlobals 1 threeKeySecond (by unfold Emits; decide) rfl,
    by decide, by decide⟩

/-- C15 fails on the code: `_startNewCluster` tests `globals->clusterTime !=
0` after `clusterTime` has been set to the winning time, so when the very
first winning sample is not at time 0 it calls `Ebml_EndSubElement` on
`globals->clusterStart` before any cluster has been opened.  In the run on
`tieGlobals` (first samples at 100 ms) that call precedes the first
`Ebml_StartSubElement( Cluster )`; in the run on `interleavedGlobals` (first
samples at 0 ms) it does not occur. -/
theorem C15_end_before_first_cluster :
    muxStreams (scriptEnv true) tieGlobals 10 = some 0 ∧
    clustersOpened (muxRun (scriptEnv true) tieGlobals 10).log = 1 ∧
    Event.Ebml_EndSubElement LocVar.clusterStart ∈
      beforeFirstCluster (muxRun (scriptEnv true) tieGlobals 10).log ∧
    Event.Ebml_EndSubElement LocVar.clusterStart ∉
      beforeFirstCluster (muxRun (scriptEnv true) interleavedGlobals 10).log := by
  refine ⟨by decide, by decide, by decide, by decide⟩

/-- C19 fails on the code: `_updateProgressBar` sends `movieProgressClose`
when `percentDone == 100.0`, where `percentDone` is the `Fixed` value (65536
stands for 1.0), and `globals->progressOpen == false;` after it is a
comparison.  So the last call, `_updateProgressBar(globals, 100.0)`, never
sends `movieProgressClose` (its `Fixed` value is 6553600, or 65536 once
clamped); in the run on `progressGlobals`, which returns `noErr`, the
procedure gets open, five updates, the last with 65536, and no close; and in
the run on `progressTieGlobals`, where the update after each block has the
`Fixed` value 100, close is sent twice, both times before the final update. -/
theorem C19_close_not_sent_at_end :
    (∀ (env : Env) (g : WebMExportGlobals) (p : Int),
      (ProgressMsg.movieProgressClose, p) ∉
        progressMsgs (progressCalls env g Percent.hundred)) ∧
    muxStreams (scriptEnv false) progressGlobals 10 = some 0 ∧
    progressMsgs (muxRun (scriptEnv false) progressGlobals 10).log =
      [(ProgressMsg.movieProgressOpen, 0),
       (ProgressMsg.movieProgressUpdatePercent, 0),
       (ProgressMsg.movieProgressUpdatePercent, 0),
       (ProgressMsg.movieProgressUpdatePercent, 40),
       (ProgressMsg.movieProgressUpdatePercent, 80),
       (ProgressMsg.movieProgressUpdatePercent, 65536)] ∧
    muxStreams (scriptEnv false) progressTieGlobals 10 = some 0 ∧
    progressMsgs (muxRun (scriptEnv false) progressTieGlobals 10).log =
      [(ProgressMsg.movieProgressOpen, 0),
       (ProgressMsg.movieProgressUpdatePercent, 0),
       (ProgressMsg.movieProgressUpdatePercent, 100),
       (ProgressMsg.movieProgressClose, 65536),
       (ProgressMsg.movieProgressUpdatePercent, 100),
       (ProgressMsg.movieProgressClose, 65536),
       (ProgressMsg.movieProgressUpdatePercent, 65536)] := by
  refine ⟨?_, by decide, by decide, by decide, by decide⟩
  intro env g p
  unfold progressCalls FloatToFixed
  cases g.progressOpen <;> cases g.progressProc <;> simp [progressMsgs]

/-- C17: from every loop state, when the duration (`getMaxDuration`) is 0 the
main loop sends nothing to the progress procedure, whatever the number of
iterations and of blocks written (`_updateProgressBar` is not invoked: its
call is guarded by `duration != 0.0`); when the duration is not 0, every
iteration that writes a block ends with one call of `_updateProgressBar` with
the argument `minTimeMs / 1000.0 / duration`, made after `writeSimpleBlock` and
`Ebml_EndSubElement`, and an iteration that writes no block makes none. -/
theorem C17_progress_in_loop (env : Env) (s : Mux) : ProgressInLoop env s :=
  progressInLoop env s

/-- C17 at scenario 4: zero duration, a progress procedure installed, three
blocks written; the loop sends nothing to the progress procedure. -/
theorem C17_progress_in_loop_witness :
    (scriptEnv true).durationIsZero = true ∧
    (whileLoop (scriptEnv true) 3 (beforeLoop (scriptEnv true) progressGlobals)).emitted.length
      = 3 ∧
    progressMsgs (whileLoop (scriptEnv true) 3 (beforeLoop (scriptEnv true) progressGlobals)).log =
      progressMsgs (beforeLoop (scriptEnv true) progressGlobals).log :=
  ⟨rfl, by decide, (C17_progress_in_loop (scriptEnv true) _).2 rfl 3⟩

/-- C23: `MkvReaderQT::Read` returns -1, without calling the data handler, if
and only if `m_dataRef` is `NULL` or `position < 0` or `length < 0` or
`position >= m_length`; otherwise it returns 0 without calling the data handler
when `length == 0`, and for any other length it calls `DataHScheduleData` once
and returns 0 if that succeeds and -2 if it fails.  `MkvReaderQT::Length`
returns 0 and sets `total` and `available` (each when not `NULL`) to
`m_length`. -/
theorem C23_reader_contract (dh : DataH) (r : MkvReaderQT) (position length : Int) :
    ReaderContract dh r position length :=
  readerContract dh r position length

/-- C24 fails on the code: `Open` stores `dataRef` in `m_dataRef` before it
calls the data handler and returns -3 .. -6 without taking it back
(`m_dataHandler` and `m_length`, by contrast, are stored only once every step
has succeeded).  So whenever `Open` returns one of -3 .. -6, the reader was
closed, `m_dataRef` has changed from `NULL` to `dataRef`, and every later
`Open` with a data reference that is not `NULL` is rejected with -2, whatever
the data handler does then. -/
theorem C24_open_not_atomic (dh : DataH) (r : MkvReaderQT) (dataRef dataRefType : Nat)
    (hc : (r.Open dh dataRef dataRefType).1 = -3 ∨ (r.Open dh dataRef dataRefType).1 = -4 ∨
      (r.Open dh dataRef dataRefType).1 = -5 ∨ (r.Open dh dataRef dataRefType).1 = -6) :
    r.m_dataRef = 0 ∧ dataRef ≠ 0 ∧
    (r.Open dh dataRef dataRefType).2.m_dataRef = dataRef ∧
    (r.Open dh dataRef dataRefType).2.m_dataHandler = r.m_dataHandler ∧
    (r.Open dh dataRef dataRefType).2.m_length = r.m_length ∧
    ∀ (dh2 : DataH) (dataRef2 dataRefType2 : Nat), dataRef2 ≠ 0 →
      ((r.Open dh dataRef dataRefType).2.Open dh2 dataRef2 dataRefType2).1 = -2 := by
  obtain ⟨h0, h2, hst⟩ := open_failed dh r dataRef dataRefType hc
  rw [hst]
  refine ⟨h2, h0, rfl, rfl, rfl, ?_⟩
  intro dh2 dataRef2 dataRefType2 h3
  exact open_busy dh2 _ dataRef2 dataRefType2 h3 h0

/-- C24 on a closed reader and a data handler whose component cannot be
opened: `Open` returns -3, leaves `m_dataRef` set, and a second `Open`, on a
data handler without fault, returns -2. -/
theorem C24_open_not_atomic_witness :
    (MkvReaderQT.Open noHandlerDataH {} 5 0).1 = -3 ∧
    (MkvReaderQT.Open noHandlerDataH {} 5 0).2.m_dataRef = 5 ∧
    (MkvReaderQT.Open (fileDataH [1, 2, 3]) {} 5 0).1 = 0 ∧
    ((MkvReaderQT.Open noHandlerDataH {} 5 0).2.Open (fileDataH [1, 2, 3]) 5 0).1 = -2 :=
  ⟨by decide, by decide, by decide,
    (C24_open_not_atomic noHandlerDataH {} 5 0 (Or.inl (by decide))).2.2.2.2.2
      (fileDataH [1, 2, 3]) 5 0 (by decide)⟩

/-- C21 fails on the code: when a contiguous request is longer than what is
left in the queue, `MkvBufferedReaderQT::Read` reads the missing bytes at
`requestedPos` and not at the offset where the queue ends.  For every chunk
size `c` from 2 on: on a file whose byte at offset `i` is `i % 256`, after a
read of `c - 1` bytes at offset 0 (which leaves one byte queued), the read of 2
bytes at offset `c - 1` returns 0 and delivers the byte of offset `c - 1`
twice, while `MkvReaderQT::Read` delivers the bytes of offsets `c - 1` and
`c` for the same request. -/
theorem C21_buffered_read_repeats_bytes (c : Nat) (h2 : 2 ≤ c) (hc : c < 1073741824) :
    (firstRead c).1 = 0 ∧ (firstRead c).2.1.m_buffer.length = 1 ∧
    (secondRead c).1 = 0 ∧
    (secondRead c).2.2 = [(c - 1) % 256, (c - 1) % 256] ∧
    ((openedReader (2 * c) c).toMkvReaderQT.Read (fileDataH (chunkFile c))
      ((c : Int) - 1) 2).code = 0 ∧
    bytesRead ((openedReader (2 * c) c).toMkvReaderQT.Read (fileDataH (chunkFile c))
      ((c : Int) - 1) 2) 2 = [(c - 1) % 256, c % 256] ∧
    (c - 1) % 256 ≠ c % 256 := by
  obtain ⟨m, rfl⟩ : ∃ m, c = m + 2 := ⟨c - 2, by omega⟩
  have hread := chunkFile_read (m + 2) (m + 1) 2
    (openedReader (2 * (m + 2)) (m + 2)).toMkvReaderQT
    (by simp [openedReader]) rfl (by omega) (by omega) hc
  have hpos : ((m + 2 : Nat) : Int) - 1 = ((m + 1 : Nat) : Int) := by omega
  have h2l : toLong ((2 : Nat) : Int) = 2 := rfl
  rw [h2l] at hread
  rw [firstRead_eq m hc, secondRead_eq m hc, hpos, hread.2]
  refine ⟨rfl, rfl, rfl, rfl, hread.1, ?_, ?_⟩
  · simp [List.range_succ]
  · have : m + 2 - 1 = m + 1 := rfl
    rw [this]
    omega

/-- C21 for the chunk size 4: after `Read(0, 3)`, `Read(3, 2)` delivers the
bytes 3, 3 where the file holds 3, 4. -/
theorem C21_buffered_read_repeats_bytes_witness :
    (secondRead 4).1 = 0 ∧ (secondRead 4).2.2 = [3, 3] ∧
    bytesRead ((openedReader 8 4).toMkvReaderQT.Read (fileDataH (chunkFile 4)) 3 2) 2 = [3, 4] :=
  ⟨(C21_buffered_read_repeats_bytes 4 (by decide) (by decide)).2.2.1,
    (C21_buffered_read_repeats_bytes 4 (by decide) (by decide)).2.2.2.1,
    (C21_buffered_read_repeats_bytes 4 (by decide) (by decide)).2.2.2.2.2.1⟩

/-- C22 fails on the code, in its invariant for the queue (same defect as
C21: the bytes that extend the queue are read at `requestedPos`).  For every
chunk size `c` from 2 on, after the reads of `c - 1` bytes at offset 0 and of 2
bytes at offset `c - 1`, both returning 0, `m_bufpos` is `c + 1`, the end of
the request, but the queue holds the bytes of the file from offset `c` on: its
first byte is the byte at offset `m_bufpos - 1`. -/
theorem C22_queue_out_of_step (c : Nat) (h2 : 2 ≤ c) (hc : c < 1073741824) :
    (firstRead c).1 = 0 ∧ (secondRead c).1 = 0 ∧
    (secondRead c).2.1.m_bufpos = ((c : Int) - 1) + 2 ∧
    (secondRead c).2.1.m_buffer = (List.range (c - 1)).map (fun k => (c + k) % 256) ∧
    (secondRead c).2.1.m_buffer.head? = some (c % 256) ∧
    (chunkFile c).getD (c + 1) 0 = (c + 1) % 256 ∧
    c % 256 ≠ (c + 1) % 256 := by
  obtain ⟨m, rfl⟩ : ∃ m, c = m + 2 := ⟨c - 2, by omega⟩
  rw [firstRead_eq m hc, secondRead_eq m hc]
  refine ⟨rfl, rfl, ?_, rfl, ?_, chunkFile_getD _ _ (by omega), by omega⟩
  · show (m : Int) + 3 = _
    omega
  · simp [List.range_succ_eq_map]

/-- C22 for the chunk size 4: after `Read(0, 3)` and `Read(3, 2)`, `m_bufpos`
is 5 and the queue holds the bytes 4, 5, 6. -/
theorem C22_queue_out_of_step_witness :
    (secondRead 4).2.1.m_bufpos = 5 ∧ (secondRead 4).2.1.m_buffer = [4, 5, 6] ∧
    (chunkFile 4).getD 5 0 = 5 :=
  ⟨(C22_queue_out_of_step 4 (by decide) (by decide)).2.2.1,
    (C22_queue_out_of_step 4 (by decide) (by decide)).2.2.2.1,
    (C22_queue_out_of_step 4 (by decide) (by decide)).2.2.2.2.2.1⟩

/-- C16 fails as stated: `muxStreams` passes `globals->clusterStart` to
`Ebml_EndSubElement` after every block (line 504, "this writes cluster size
multiple times, but works"), and once more when the next cluster starts at a
time other than 0.  In the run on `payloadGlobals` the one cluster holds two
blocks and its handle is passed to `Ebml_EndSubElement` twice; in the run on
`farGlobals` the handle of the first cluster is passed twice before it is used
for the second. -/
theorem C16_counterexample :
    muxStreams (scriptEnv true) payloadGlobals 10 = some 0 ∧
    handleUses LocVar.clusterStart (muxRun (scriptEnv true) payloadGlobals 10).log = [2] ∧
    muxStreams (scriptEnv true) farGlobals 10 = some 0 ∧
    handleUses LocVar.clusterStart (muxRun (scriptEnv true) farGlobals 10).log = [2, 1] := by
  refine ⟨by decide, by decide, by decide, by decide⟩

/-- C16 (amended): in every run of `muxStreams` that reaches the end of its
loop (it does not leave through `goto bail`) and in which `_writeTracks` runs
to its end, every deferred-size handle obtained by `Ebml_StartSubElement` is
passed to `Ebml_EndSubElement` before it is used again or the run ends:
exactly once for the Segment, Tracks, Cues, every CuePoint and every
CueTrackPositions, at least once for every Cluster. -/
theorem C16_handles_closed (env : Env) (g : WebMExportGlobals) (n : Nat)
    (hfin : (muxRun env g n).status = Status.finished) (ht : TracksComplete env g) :
    HandlesClosed (muxRun env g n).log :=
  run_handlesClosed env g n hfin ht

/-- C16 (amended) on scenario 1: three clusters, three cue points. -/
theorem C16_handles_closed_witness :
    (muxRun (scriptEnv true) threeKeyGlobals 10).status = Status.finished ∧
    TracksComplete (scriptEnv true) threeKeyGlobals ∧
    handleUses LocVar.cueHead (muxRun (scriptEnv true) threeKeyGlobals 10).log = [1, 1, 1] ∧
    handleUses LocVar.startSegment (muxRun (scriptEnv true) threeKeyGlobals 10).log = [1] ∧
    HandlesClosed (muxRun (scriptEnv true) threeKeyGlobals 10).log :=
  ⟨by decide, by decide, by decide, by decide,
    C16_handles_closed (scriptEnv true) threeKeyGlobals 10 (by decide) (by decide)⟩

/-- C20: for every writer state, a call of `_writeMetaSeekInformation` with
`firstWrite == false` leaves the write cursor (as `Ebml_GetEbmlLoc` reads it)
equal to its value before the call, writes its three `Seek` entries (Tracks,
Cues, Cluster, in that order) starting at the location stored in
`seekInfoLoc`, and does not modify `seekInfoLoc`; with `firstWrite == true` it
opens a `SeekHead` element, writes the same three `Seek` entries and closes
it.  The EBML writer is the one the spec describes. -/
theorem C20_seek_information (wd : Widths) (w : EbmlGlobal)
    (trackLoc cueLoc clusterLoc : Nat) : SeekInfoWritten wd w trackLoc cueLoc clusterLoc :=
  seekInfoWritten wd w trackLoc cueLoc clusterLoc

/-- C18 fails as stated: the only sample of the video stream of
`lateVideoGlobals` has time `ULONG_MAX`.  The first selection pass queues it
and still selects nothing, so the loop is left through `break` with result
code `0` while a stream has a queued sample; `muxStreams` returns `0` and the
one sample the producer yielded is never written. -/
theorem C18_counterexample :
    (∃ gs ∈ (afterPass (scriptEnv true)
        (beforeLoop (scriptEnv true) lateVideoGlobals)).globals.streams,
      gs.source.bQdFrame = true) ∧
    (whileStep (scriptEnv true) (beforeLoop (scriptEnv true) lateVideoGlobals)).status =
      Status.finished ∧
    (whileStep (scriptEnv true) (beforeLoop (scriptEnv true) lateVideoGlobals)).err = 0 ∧
    pendingTotal lateVideoGlobals.streams = 1 ∧
    muxStreams (scriptEnv true) lateVideoGlobals 1 = some 0 ∧
    (muxRun (scriptEnv true) lateVideoGlobals 1).emitted = [] := by
  decide

/-- C18 (amended).  An iteration of the main loop of `muxStreams` leaves the
loop through `break` exactly when its selection pass runs to the end and finds
no selectable stream (an audio stream with a queued sample, or a video stream
with a queued sample at a time below `ULONG_MAX`), leaves it through
`goto bail` exactly when the pass does, and in every other case writes exactly
one block (`ExitLaw`).  Hence, for streams whose producers yield finitely many
samples without error, all at times below `ULONG_MAX`, and then report end of
stream (`ScriptWF`), with video and audio exported: each of the first `N`
iterations writes one block, `N` being the number of samples; iteration
`N + 1` leaves the loop; `muxStreams` returns `0`; the blocks written are `N`;
and the blocks of each stream are the samples of its producer, each once, in
production order (`ScriptedRun`). -/
theorem C18_loop_exit_and_termination (z : Bool) (g : WebMExportGlobals)
    (hV : g.bExportVideo = true) (hA : g.bExportAudio = true)
    (hwf : ∀ gs ∈ g.streams, ScriptWF gs) :
    (∀ (env : Env) (s : Mux), s.status = Status.running → s.allStreamsDone = false →
      ExitLaw env s) ∧
    ScriptedRun z g :=
  ⟨exitLaw, scriptedRun z g hV hA hwf⟩

/-- C18 (amended) on a video stream with samples at 0 and 40 ms and an audio
stream with packets at 0, 20 and 50 ms: five samples, five blocks. -/
theorem C18_loop_exit_and_termination_witness :
    interleavedGlobals.bExportVideo = true ∧ interleavedGlobals.bExportAudio = true ∧
    (∀ gs ∈ interleavedGlobals.streams, ScriptWF gs) ∧
    pendingTotal interleavedGlobals.streams = 5 ∧
    ((∀ (env : Env) (s : Mux), s.status = Status.running → s.allStreamsDone = false →
      ExitLaw env s) ∧
    ScriptedRun true interleavedGlobals) :=
  have hwf : ∀ gs ∈ interleavedGlobals.streams, ScriptWF gs := by
    intro gs hgs
    simp only [interleavedGlobals, List.mem_cons, List.mem_singleton, List.not_mem_nil,
      or_false] at hgs
    rcases hgs with h | h
    · rw [h]
      exact scriptVideo_wf _ _ (by decide)
    · rw [h]
      exact scriptAudio_wf _ _ (by decide)
  ⟨by decide, by decide, hwf, by decide,
    C18_loop_exit_and_termination true interleavedGlobals (by decide) (by decide) hwf⟩

end WebMMux
